import Mathlib

set_option autoImplicit false

/-!
# AI Dungeon Master server: dice roller, campaign memory, session store and socket handlers

A shallow embedding of `src/server/diceRoller.js`, `src/server/campaignMemory.js`,
`src/server/sessionManager.js`, `src/server/aiService.js`, the socket handlers of
`src/server/index.js` and the chat handlers of `src/roll20/aidm-roll20.js`.

Conventions of the embedding.

* JavaScript numbers are doubles. The numbers that `parseInt` and the addition of the dice
  roller produce are integers or infinities (`JsNum`); a parsed integer and a sum are rounded
  to the nearest double (ties to the even significand), which changes nothing up to 2^53.
  Counts, sides, draws and their sums stay far below 2^53 and are kept as `Int`.
* `Math.random()` is modelled by a fraction in `[0, 1 - 2^-53]` (the doubles below 1 lie
  there); its product with the number of sides is rounded to the nearest double before
  `Math.floor` is taken. The source of draws is the sequence of values returned by successive
  calls, and the number of calls made so far is threaded through as explicit state.
* Strings are Lean strings; the dice parser works on their list of characters. The text of a
  `player:voice` payload may be a value that is not a string (`TextValue`).
* A `Map` is an association list in insertion order.
* `throw` is `Except.error` carrying the message of the `Error`.
-/

namespace AiDungeonMaster

/-! ## Host-language primitives used by the dice roller -/

/-- Value returned by one call of `Math.random()`: the fraction `num / den`. The call returns
a double that is at least 0 and below 1, and the largest double below 1 is `1 - 2^-53`. -/
structure Rand where
  num : Nat
  den : Nat
  below : 0 < den ∧ num * 2 ^ 53 ≤ (2 ^ 53 - 1) * den

/-- The source of draws: `rng k` is what the k-th call of `Math.random()` returns. -/
abbrev RandomSource := Nat → Rand

/-- Halving `n` until it is below 2, with `fuel` steps at most: the number of halvings. -/
def halvings : Nat → Nat → Nat
  | 0, _ => 0
  | fuel + 1, n => if n < 2 then 0 else halvings fuel (n / 2) + 1

/-- The binary exponent of a positive integer: the `e` with `2^e ≤ n < 2^(e+1)`. -/
def binaryExponent (n : Nat) : Nat := halvings n n

/-- The integer nearest to the fraction `a / b`; of two equally near ones, the even one. -/
def roundHalfEven (a b : Nat) : Nat :=
  if 2 * (a % b) < b ∨ (2 * (a % b) = b ∧ (a / b) % 2 = 0) then a / b else a / b + 1

/-- The double nearest to a natural number, as an integer (the exponent range of doubles is
not looked at here). Up to 2^53 every integer is a double; from there on a double with binary
exponent `e` is a multiple of `2^(e-52)`, and the significand is rounded to the nearest, ties
to even. -/
def nearestDouble (n : Nat) : Nat :=
  if n < 2 ^ 53 then n
  else roundHalfEven n (2 ^ (binaryExponent n - 52)) * 2 ^ (binaryExponent n - 52)

/-- The value of `Math.floor(x)` for the double `x` nearest to the fraction `a / b`, for
fractions below 2^53 (the products of the roller stay below 1000). From 1 on, `x` is `a / b`
rounded to a multiple of `2^(e-52)`, `e` the binary exponent of `a / b`. Below 1, rounding to
a multiple of `2^-53` yields 1 exactly when the nearest double is 1 (the doubles from 1/2 to
1 are these multiples, and below 1/2 both roundings stay below 1). -/
def floorOfDouble (a b : Nat) : Nat :=
  roundHalfEven (a * 2 ^ (if a < b then 53 else 52 - binaryExponent (a / b))) b /
    2 ^ (if a < b then 53 else 52 - binaryExponent (a / b))

/-- The expression `Math.floor(Math.random() * sides) + 1` for a given value of
`Math.random()`: the product is rounded to a double, then floored (`sides` is at least 2 where
the roller evaluates it). -/
def drawDie (r : Rand) (sides : Int) : Int :=
  (floorOfDouble (r.num * sides.toNat) r.den : Int) + 1

/-- A number of the dice roller: a double that is an integer, or an infinity. -/
inductive JsNum where
  | negInf
  | fin (v : Int)
  | posInf
deriving DecidableEq, Repr

namespace JsNum

/-- The double nearest to a natural number: `Infinity` when the nearest double would need a
binary exponent above 1023. -/
def ofNat (n : Nat) : JsNum :=
  if binaryExponent (nearestDouble n) < 1024 then .fin (nearestDouble n) else .posInf

/-- The unary minus. -/
def neg : JsNum → JsNum
  | .negInf => .posInf
  | .fin v => .fin (-v)
  | .posInf => .negInf

/-- The double nearest to an integer. -/
def ofInt (v : Int) : JsNum :=
  if v < 0 then neg (ofNat v.natAbs) else ofNat v.natAbs

/-- The sum `a + x` of an integer double `a` and a number `x`: the exact sum rounded to the
nearest double; an infinity stays what it is. -/
def addInt (a : Int) : JsNum → JsNum
  | .negInf => .negInf
  | .fin b => ofInt (a + b)
  | .posInf => .posInf

/-- The integer a finite number holds (0 for the infinities). -/
def toInt : JsNum → Int
  | .fin v => v
  | _ => 0

/-- The comparison `a <= b`. -/
def ble : JsNum → JsNum → Bool
  | .negInf, _ => true
  | .fin _, .negInf => false
  | .fin a, .fin b => decide (a ≤ b)
  | .fin _, .posInf => true
  | .posInf, .posInf => true
  | .posInf, _ => false

/-- Search for the shortest decimal digits that denote a double `x` of decimal length `n`:
with `k` digits tried so far minus one, the candidates are the two multiples of `10^(n-k)`
around `x`; the result holds the digits `s` (as a number), their count and the decimal length
of `s` followed by its zeros. -/
def shortestDigits (x n : Nat) : Nat → Nat → Nat × Nat × Nat
  | 0, _ => (x, n, n)
  | fuel + 1, k =>
    if nearestDouble (x / 10 ^ (n - k) * 10 ^ (n - k)) = x then
      if nearestDouble ((x / 10 ^ (n - k) + 1) * 10 ^ (n - k)) = x ∧
          ((x / 10 ^ (n - k) + 1) * 10 ^ (n - k) - x < x - x / 10 ^ (n - k) * 10 ^ (n - k) ∨
            ((x / 10 ^ (n - k) + 1) * 10 ^ (n - k) - x = x - x / 10 ^ (n - k) * 10 ^ (n - k) ∧
              (x / 10 ^ (n - k) + 1) % 2 = 0)) then
        (if x / 10 ^ (n - k) + 1 = 10 ^ k then (1, 1, n + 1) else (x / 10 ^ (n - k) + 1, k, n))
      else (x / 10 ^ (n - k), k, n)
    else if nearestDouble ((x / 10 ^ (n - k) + 1) * 10 ^ (n - k)) = x then
      (if x / 10 ^ (n - k) + 1 = 10 ^ k then (1, 1, n + 1) else (x / 10 ^ (n - k) + 1, k, n))
    else shortestDigits x n fuel (k + 1)

/-- The text of a double that is a natural number, as a template prints it: the shortest
digits that denote it, followed by zeros up to 21 places, in exponent form beyond. -/
def naturalText (x : Nat) : String :=
  let n := (Nat.toDigits 10 x).length
  let found := shortestDigits x n n 1
  let digits := Nat.toDigits 10 found.1
  if found.2.2 ≤ 21 then String.mk (digits ++ List.replicate (found.2.2 - found.2.1) '0')
  else if found.2.1 = 1 then String.mk digits ++ "e+" ++ toString (found.2.2 - 1)
  else String.mk (digits.take 1) ++ "." ++ String.mk (digits.drop 1) ++ "e+" ++
    toString (found.2.2 - 1)

/-- The text of a number inside a template. -/
def text : JsNum → String
  | .negInf => "-Infinity"
  | .fin v => if v < 0 then "-" ++ naturalText v.natAbs else naturalText v.natAbs
  | .posInf => "Infinity"

end JsNum

instance (n : Nat) : OfNat JsNum n := ⟨.fin n⟩

instance : ToString JsNum := ⟨JsNum.text⟩

instance : LinearOrder JsNum where
  le a b := JsNum.ble a b = true
  le_refl a := by cases a <;> simp [JsNum.ble]
  le_trans a b c := by
    cases a <;> cases b <;> cases c <;> simp [JsNum.ble]
    omega
  le_antisymm a b := by
    cases a <;> cases b <;> simp [JsNum.ble]
    omega
  le_total a b := by
    cases a <;> cases b <;> simp [JsNum.ble]
    omega
  decidableLE a b := inferInstanceAs (Decidable (JsNum.ble a b = true))

instance (a b : JsNum) : Decidable (a ≤ b) := inferInstanceAs (Decidable (JsNum.ble a b = true))

instance (a b : JsNum) : Decidable (a ≥ b) := inferInstanceAs (Decidable (JsNum.ble b a = true))

/-- The function `String.prototype.toLowerCase`, on the characters that matter to the dice pattern.
Only ASCII letters are mapped; no character outside ASCII lower-cases to a digit, to `d`,
to a sign or to white space, so the outcome of the pattern match is the same. -/
def toLowerCase (s : List Char) : List Char := s.map Char.toLower

/-- White space and line terminators removed by `String.prototype.trim`. -/
def isWhiteSpace (c : Char) : Bool :=
  let n := c.toNat
  n == 0x09 || n == 0x0A || n == 0x0B || n == 0x0C || n == 0x0D || n == 0x20 || n == 0xA0 ||
  n == 0x1680 || (0x2000 ≤ n && n ≤ 0x200A) || n == 0x2028 || n == 0x2029 || n == 0x202F ||
  n == 0x205F || n == 0x3000 || n == 0xFEFF

/-- The function `String.prototype.trim`: white space removed at both ends. -/
def trim (s : List Char) : List Char :=
  ((s.dropWhile isWhiteSpace).reverse.dropWhile isWhiteSpace).reverse

/-- Value of one decimal digit character. -/
def digitVal (c : Char) : Nat := c.toNat - 48

/-- Value of a run of decimal digits, read left to right. -/
def parseDigits (ds : List Char) : Nat :=
  ds.foldl (fun acc c => acc * 10 + digitVal c) 0

/-- The function `parseInt(text, 10)` on the captures of the dice pattern: an optional sign,
then the longest run of digits, read as the double nearest to the integer they denote. (The
captures always hold at least one digit, so `NaN` does not arise. The engine reads every
digit; the language standard also lets an engine read the digits after the 20th significant
one as zeros, which can only matter for numbers of more than 20 digits.) -/
def parseInt (text : List Char) : JsNum :=
  match text with
  | '-' :: ds => JsNum.neg (JsNum.ofNat (parseDigits (ds.takeWhile Char.isDigit)))
  | '+' :: ds => JsNum.ofNat (parseDigits (ds.takeWhile Char.isDigit))
  | ds => JsNum.ofNat (parseDigits (ds.takeWhile Char.isDigit))

/-- The capture groups of a successful match of the dice pattern: `match[1]`, `match[2]`
and `match[3]` (absent when the optional group did not take part). -/
structure DiceMatch where
  count : List Char
  sides : List Char
  modifier : Option (List Char)
deriving DecidableEq, Repr

/-- Matching against `/^(\d+)d(\d+)([+-]\d+)?$/i`. Each `\d+` is followed by a character
that is not a digit (or by the end), so the greedy run is the only one that can succeed. -/
def matchDice (s : List Char) : Option DiceMatch :=
  let g1 := s.takeWhile Char.isDigit
  if g1 = [] then none
  else
    match s.dropWhile Char.isDigit with
    | [] => none
    | c :: r2 =>
      if c = 'd' ∨ c = 'D' then
        let g2 := r2.takeWhile Char.isDigit
        if g2 = [] then none
        else
          match r2.dropWhile Char.isDigit with
          | [] => some ⟨g1, g2, none⟩
          | sg :: ms =>
            if (sg = '+' ∨ sg = '-') ∧ ms ≠ [] ∧ ms.all Char.isDigit = true then
              some ⟨g1, g2, some (sg :: ms)⟩
            else none
      else none

/-- The modifier that `roll` reads off the third capture group. -/
def modifierOf (m : DiceMatch) : JsNum :=
  match m.modifier with
  | some text => parseInt text
  | none => 0

/-! ## `DiceRoller` (src/server/diceRoller.js) -/

/-- The object returned by `DiceRoller.roll`; `notn` is its `notation` field. The count and
the sides have passed the range checks, the draws are at most 1000 each and their sum at most
100000: these are kept as `Int`. -/
structure RollResult where
  notn : String
  numDice : Int
  sides : Int
  modifier : JsNum
  rolls : List Int
  sum : Int
  total : JsNum
deriving DecidableEq, Repr

namespace DiceRoller

/-- The loop `for (let i = 0; i < numDice; i++) rolls.push(...)`: `todo` iterations remain,
`pos` calls of `Math.random()` have been made, `rolls` is the array so far. -/
def rollLoop (rng : RandomSource) (sides : Int) : Nat → Nat → List Int → List Int × Nat
  | 0, pos, rolls => (rolls, pos)
  | todo + 1, pos, rolls => rollLoop rng sides todo (pos + 1) (rolls ++ [drawDie (rng pos) sides])

/-- The method `DiceRoller.roll(notation)`. The second component is the number of calls of
`Math.random()` made so far, `pos` on entry. -/
def roll (rng : RandomSource) (pos : Nat) (notn : String) : Except String RollResult × Nat :=
  match matchDice (trim (toLowerCase notn.toList)) with
  | none => (.error "Invalid dice notation. Use format like \"2d6\" or \"1d20+5\"", pos)
  | some m =>
    let numDice := parseInt m.count
    let sides := parseInt m.sides
    let modifier : JsNum := match m.modifier with
      | some text => parseInt text
      | none => 0
    if numDice < 1 ∨ numDice > 100 then
      (.error "Number of dice must be between 1 and 100", pos)
    else if sides < 2 ∨ sides > 1000 then
      (.error "Dice sides must be between 2 and 1000", pos)
    else
      let looped := rollLoop rng sides.toInt numDice.toInt.toNat pos []
      let rolls := looped.1
      let sum := rolls.foldl (fun a b => a + b) 0
      let total := JsNum.addInt sum modifier
      (.ok ⟨notn, numDice.toInt, sides.toInt, modifier, rolls, sum, total⟩, looped.2)

/-- The object returned by `rollAdvantage` and `rollDisadvantage`; `kind` is its `type`. -/
structure PairResult where
  kind : String
  roll1 : RollResult
  roll2 : RollResult
  result : RollResult
deriving DecidableEq, Repr

/-- The method `DiceRoller.rollAdvantage(notation)`: two rolls, the first unless the second
is higher. -/
def rollAdvantage (rng : RandomSource) (pos : Nat) (notn : String) :
    Except String PairResult × Nat :=
  match roll rng pos notn with
  | (.error e, p1) => (.error e, p1)
  | (.ok roll1, p1) =>
    match roll rng p1 notn with
    | (.error e, p2) => (.error e, p2)
    | (.ok roll2, p2) =>
      (.ok ⟨"advantage", roll1, roll2,
        if roll1.total ≥ roll2.total then roll1 else roll2⟩, p2)

/-- The method `DiceRoller.rollDisadvantage(notation)`: two rolls, the first unless the
second is lower. -/
def rollDisadvantage (rng : RandomSource) (pos : Nat) (notn : String) :
    Except String PairResult × Nat :=
  match roll rng pos notn with
  | (.error e, p1) => (.error e, p1)
  | (.ok roll1, p1) =>
    match roll rng p1 notn with
    | (.error e, p2) => (.error e, p2)
    | (.ok roll2, p2) =>
      (.ok ⟨"disadvantage", roll1, roll2,
        if roll1.total ≤ roll2.total then roll1 else roll2⟩, p2)

end DiceRoller

/-- A stubbed source of draws: the listed values of `Math.random()`, then zero for ever. -/
def stubSource (vals : List Rand) : RandomSource := fun k => vals.getD k ⟨0, 1, by decide⟩

/-! ## `Map` objects -/

/-- A JavaScript `Map` with string keys: its entries in insertion order. -/
abbrev JsMap (V : Type) := List (String × V)

/-- The call `map.get(key)`; `none` is `undefined`. -/
def mapGet {V : Type} : JsMap V → String → Option V
  | [], _ => none
  | (k, v) :: rest, key => if k = key then some v else mapGet rest key

/-- The call `map.has(key)`. -/
def mapHas {V : Type} (m : JsMap V) (key : String) : Bool := (mapGet m key).isSome

/-- The call `map.set(key, value)`: an existing key keeps its place, a new one goes last. -/
def mapSet {V : Type} : JsMap V → String → V → JsMap V
  | [], key, v => [(key, v)]
  | (k, w) :: rest, key, v => if k = key then (k, v) :: rest else (k, w) :: mapSet rest key v

/-- The call `map.delete(key)`. -/
def mapDelete {V : Type} (m : JsMap V) (key : String) : JsMap V :=
  m.filter (fun e => e.1 ≠ key)

/-- The call `Array.from(map.values())`. -/
def mapValues {V : Type} (m : JsMap V) : List V := m.map (fun e => e.2)

/-- The call `array.slice(-n)` for a positive `n`: the last `n` elements, all of them when there are
fewer. -/
def sliceLast {α : Type} (n : Nat) (xs : List α) : List α := xs.drop (xs.length - n)

/-! ## Text values of a payload -/

/-- The `text` field of a `player:voice` payload as the server receives it: a string, or any
other value (a number, a boolean, an object, `null`, or no value at all). Another value is
kept by the text a template prints for it, and that text stands for it where the value is
stored or sent on. -/
inductive TextValue where
  | str (s : String)
  | other (shown : String)
deriving DecidableEq, Repr

/-- The text a template prints for the value. -/
def TextValue.printed : TextValue → String
  | .str s => s
  | .other shown => shown

instance : Coe String TextValue := ⟨TextValue.str⟩

/-! ## `CampaignMemory` (src/server/campaignMemory.js) -/

/-- An entry of the campaign history; `kind` is the optional `type` tag, `speaker` is
`none` when the handler passes `null`. -/
structure Message where
  speaker : Option String
  text : String
  kind : Option String
  details : Option RollResult
  timestamp : Nat
deriving DecidableEq, Repr

/-- An NPC, location, quest or inventory record: the caller's fields and `addedAt`. -/
structure Lore where
  fields : List (String × String)
  addedAt : Nat
deriving DecidableEq, Repr

/-- The per-session object kept in `campaigns`. -/
structure Campaign where
  sessionId : String
  messages : List Message
  npcs : List Lore
  locations : List Lore
  quests : List Lore
  inventory : List Lore
  createdAt : Nat
  updatedAt : Nat
deriving DecidableEq, Repr

/-- The object returned by `getCampaignState`. The three collections are `none` when the
returned object has no such property (the branch for an unknown session). -/
structure CampaignState where
  messages : List Message
  npcs : Option (List Lore)
  locations : Option (List Lore)
  quests : Option (List Lore)
  summary : String
deriving DecidableEq, Repr

/-- The `CampaignMemory` object: its `campaigns` map. -/
structure CampaignMemory where
  campaigns : JsMap Campaign
deriving DecidableEq, Repr

namespace CampaignMemory

/-- The constructor: an empty map. -/
def empty : CampaignMemory := ⟨[]⟩

/-- The method `initCampaign(sessionId)`; `now` is `Date.now()`. Returns the memory and the campaign
object of the session. -/
def initCampaign (cm : CampaignMemory) (sessionId : String) (now : Nat) :
    CampaignMemory × Campaign :=
  match mapGet cm.campaigns sessionId with
  | some campaign => (cm, campaign)
  | none =>
    let campaign : Campaign := ⟨sessionId, [], [], [], [], [], now, now⟩
    (⟨mapSet cm.campaigns sessionId campaign⟩, campaign)

/-- The method `addMessage(sessionId, message)`: push, then keep the last 100 when there are
more. The campaign object is mutated in place, which is `mapSet` under its key. -/
def addMessage (cm : CampaignMemory) (sessionId : String) (message : Message) (now : Nat) :
    CampaignMemory :=
  let inited := initCampaign cm sessionId now
  let campaign := inited.2
  let pushed := campaign.messages ++ [message]
  let kept := if pushed.length > 100 then sliceLast 100 pushed else pushed
  ⟨mapSet inited.1.campaigns sessionId { campaign with messages := kept, updatedAt := now }⟩

/-- The method `generateSummary(campaign)`. -/
def generateSummary (campaign : Campaign) : String :=
  if campaign.messages.length = 0 then "New campaign - no history yet."
  else
    let messageCount := campaign.messages.length
    let diceRolls := (campaign.messages.filter (fun m => m.kind = some "dice")).length
    "Campaign with " ++ toString messageCount ++ " events (" ++ toString diceRolls ++
      " dice rolls)."

/-- The method `getCampaignState(sessionId)`. -/
def getCampaignState (cm : CampaignMemory) (sessionId : String) : CampaignState :=
  match mapGet cm.campaigns sessionId with
  | none => ⟨[], none, none, none, "New campaign - no history yet."⟩
  | some campaign =>
    let recentMessages := sliceLast 20 campaign.messages
    ⟨recentMessages, some campaign.npcs, some campaign.locations, some campaign.quests,
      generateSummary campaign⟩

/-- The method `addNPC(sessionId, npc)`. -/
def addNPC (cm : CampaignMemory) (sessionId : String) (npc : List (String × String))
    (now : Nat) : CampaignMemory :=
  let inited := initCampaign cm sessionId now
  let campaign := inited.2
  ⟨mapSet inited.1.campaigns sessionId
    { campaign with npcs := campaign.npcs ++ [⟨npc, now⟩], updatedAt := now }⟩

/-- The method `addLocation(sessionId, location)`. -/
def addLocation (cm : CampaignMemory) (sessionId : String) (location : List (String × String))
    (now : Nat) : CampaignMemory :=
  let inited := initCampaign cm sessionId now
  let campaign := inited.2
  ⟨mapSet inited.1.campaigns sessionId
    { campaign with locations := campaign.locations ++ [⟨location, now⟩], updatedAt := now }⟩

/-- The method `addQuest(sessionId, quest)`. -/
def addQuest (cm : CampaignMemory) (sessionId : String) (quest : List (String × String))
    (now : Nat) : CampaignMemory :=
  let inited := initCampaign cm sessionId now
  let campaign := inited.2
  ⟨mapSet inited.1.campaigns sessionId
    { campaign with quests := campaign.quests ++ [⟨quest, now⟩], updatedAt := now }⟩

/-- The method `clearCampaign(sessionId)`. -/
def clearCampaign (cm : CampaignMemory) (sessionId : String) : CampaignMemory :=
  ⟨mapDelete cm.campaigns sessionId⟩

/-- The method `getAllCampaigns()`. -/
def getAllCampaigns (cm : CampaignMemory) : List Campaign := mapValues cm.campaigns

/-- The retained history of a session: the `messages` of its campaign, empty when the
session has no campaign object. -/
def messagesOf (cm : CampaignMemory) (sessionId : String) : List Message :=
  match mapGet cm.campaigns sessionId with
  | some campaign => campaign.messages
  | none => []

/-- A run of `addMessage` calls on one session, in order; each entry comes with the value
of `Date.now()` at its call. -/
def addMessages (cm : CampaignMemory) (sessionId : String) :
    List (Message × Nat) → CampaignMemory
  | [] => cm
  | e :: rest => addMessages (addMessage cm sessionId e.1 e.2) sessionId rest

end CampaignMemory

/-! ## `SessionManager` (src/server/sessionManager.js) -/

/-- A member of `session.players`. -/
structure Player where
  id : String
  name : String
  hp : Int
  ac : Int
  level : Int
deriving DecidableEq, Repr

/-- A session object; `dmSocketId` is `none` for `null`. -/
structure Session where
  id : String
  players : List Player
  dmSocketId : Option String
  isActive : Bool
  createdAt : Nat
deriving DecidableEq, Repr

/-- The `SessionManager` object: its `sessions` map. -/
structure SessionManager where
  sessions : JsMap Session
deriving DecidableEq, Repr

namespace SessionManager

/-- The constructor: an empty map. -/
def empty : SessionManager := ⟨[]⟩

/-- The method `createSession(sessionId)`; `now` is `Date.now()`. -/
def createSession (sm : SessionManager) (sessionId : String) (now : Nat) :
    SessionManager × Session :=
  let session : Session := ⟨sessionId, [], none, false, now⟩
  (⟨mapSet sm.sessions sessionId session⟩, session)

/-- The method `getSession(sessionId)`. -/
def getSession (sm : SessionManager) (sessionId : String) : Option Session :=
  mapGet sm.sessions sessionId

/-- The method `deleteSession(sessionId)`; the boolean is the value `Map.delete` returns. -/
def deleteSession (sm : SessionManager) (sessionId : String) : SessionManager × Bool :=
  (⟨mapDelete sm.sessions sessionId⟩, mapHas sm.sessions sessionId)

/-- The method `getAllSessions()`. -/
def getAllSessions (sm : SessionManager) : List Session := mapValues sm.sessions

end SessionManager

/-! ## The socket server (src/server/index.js) -/

/-- The payload of an emitted event, one constructor per event name. -/
inductive Payload where
  | error (message : String)
  | dmJoined (sessionId : String) (players : List Player) (campaignState : CampaignState)
  | playerJoined (player : Player) (players : List Player)
  | playerWelcome (sessionId : String) (playerInfo : Player) (campaignState : CampaignState)
  | playerSpoke (playerName : Option String) (text : String)
  | dmNarration (text : String)
  | diceResult (playerName : Option String) (notn : String) (result : RollResult)
  | sessionStarted
  | playerLeft (playerName : String) (players : List Player)
  | sessionPaused (message : String)
deriving DecidableEq, Repr

/-- The event name under which a payload is emitted. -/
def Payload.event : Payload → String
  | .error _ => "error"
  | .dmJoined _ _ _ => "dm:joined"
  | .playerJoined _ _ => "player:joined"
  | .playerWelcome _ _ _ => "player:welcome"
  | .playerSpoke _ _ => "player:spoke"
  | .dmNarration _ => "dm:narration"
  | .diceResult _ _ _ => "dice:result"
  | .sessionStarted => "session:started"
  | .playerLeft _ _ => "player:left"
  | .sessionPaused _ => "session:paused"

/-- Where an event is sent: `socket.emit` (one connection) or `io.to(room).emit` (a room). -/
inductive Target where
  | socket (id : String)
  | room (name : String)
deriving DecidableEq, Repr

/-- One emitted event: its target, the connections it is delivered to (the members of the
room when it is dispatched) and its payload. -/
structure Emit where
  target : Target
  recipients : List String
  payload : Payload
deriving DecidableEq, Repr

/-- The closure variables of one connection: `currentSession` and `playerName`. -/
structure Conn where
  currentSession : Option String
  playerName : Option String
deriving DecidableEq, Repr

/-- The state of the server process: the two stores, the number of `Math.random()` calls
made, the closure variables of each connection (by socket id) and the room memberships
kept by the socket library, as (room, socket id) pairs. -/
structure Server where
  sessionManager : SessionManager
  campaignMemory : CampaignMemory
  randomCalls : Nat
  conns : JsMap Conn
  rooms : List (String × String)
deriving DecidableEq, Repr

namespace Server

/-- The server right after start-up. -/
def init : Server := ⟨SessionManager.empty, CampaignMemory.empty, 0, [], []⟩

/-- The closure variables of a connection; both are `null` until a handler assigns them. -/
def conn (sv : Server) (sock : String) : Conn := (mapGet sv.conns sock).getD ⟨none, none⟩

/-- Assignment to the closure variables of a connection. -/
def setConn (sv : Server) (sock : String) (c : Conn) : Server :=
  { sv with conns := mapSet sv.conns sock c }

/-- The room name of a session, built by the template with the `session:` head. -/
def roomOf (sessionId : String) : String := "session:" ++ sessionId

/-- The connections that are in a room. -/
def members (sv : Server) (room : String) : List String :=
  (sv.rooms.filter (fun e => e.1 = room)).map (fun e => e.2)

/-- The call `socket.join(room)`. -/
def joinRoom (sv : Server) (sock : String) (room : String) : Server :=
  if (room, sock) ∈ sv.rooms then sv else { sv with rooms := sv.rooms ++ [(room, sock)] }

/-- What the socket library does before the `disconnect` handler runs: the socket leaves
every room. -/
def leaveRooms (sv : Server) (sock : String) : Server :=
  { sv with rooms := sv.rooms.filter (fun e => e.2 ≠ sock) }

/-- The call `socket.emit(event, payload)`. -/
def toSocket (sock : String) (payload : Payload) : Emit := ⟨.socket sock, [sock], payload⟩

/-- The call `io.to(room).emit(event, payload)`. -/
def toRoom (sv : Server) (room : String) (payload : Payload) : Emit :=
  ⟨.room room, members sv room, payload⟩

/-- In-place mutation of the session object stored under `sessionId`. -/
def putSession (sv : Server) (sessionId : String) (session : Session) : Server :=
  { sv with sessionManager := ⟨mapSet sv.sessionManager.sessions sessionId session⟩ }

/-- The route `POST /api/session/create`; `sessionId` is the value of `uuidv4()`. -/
def createSession (sv : Server) (sessionId : String) (now : Nat) : Server :=
  { sv with sessionManager := (sv.sessionManager.createSession sessionId now).1 }

/-- The handler of `dm:join`. -/
def onDmJoin (sv : Server) (sock : String) (sessionId : String) : Server × List Emit :=
  match sv.sessionManager.getSession sessionId with
  | none => (sv, [toSocket sock (.error "Session not found")])
  | some session =>
    let sv1 := joinRoom sv sock (roomOf sessionId)
    let session1 := { session with dmSocketId := some sock }
    let sv2 := putSession sv1 sessionId session1
    let sv3 := setConn sv2 sock { sv2.conn sock with currentSession := some sessionId }
    (sv3, [toSocket sock (.dmJoined sessionId session1.players
      (sv3.campaignMemory.getCampaignState sessionId))])

/-- The handler of `player:join`; `name` is `none` when the payload has no name. -/
def onPlayerJoin (sv : Server) (sock : String) (sessionId : String) (name : Option String) :
    Server × List Emit :=
  match sv.sessionManager.getSession sessionId with
  | none => (sv, [toSocket sock (.error "Session not found")])
  | some session =>
    if ¬ session.isActive then (sv, [toSocket sock (.error "Session is not active")])
    else
      let playerName : String := match name with
        | some n => if n = "" then "Player " ++ toString (session.players.length + 1) else n
        | none => "Player " ++ toString (session.players.length + 1)
      let player : Player := ⟨sock, playerName, 20, 15, 1⟩
      let session1 := { session with players := session.players ++ [player] }
      let sv1 := putSession sv sessionId session1
      let sv2 := joinRoom sv1 sock (roomOf sessionId)
      let sv3 := setConn sv2 sock ⟨some sessionId, some playerName⟩
      (sv3, [toRoom sv3 (roomOf sessionId) (.playerJoined player session1.players),
             toSocket sock (.playerWelcome sessionId player
               (sv3.campaignMemory.getCampaignState sessionId))])

/-- A `player:voice` handler suspended at `await aiService.getDMResponse(text, context)`. -/
structure VoicePending where
  sock : String
  sessionId : String
  text : TextValue
  context : CampaignState
deriving DecidableEq, Repr

/-- The handler of `player:voice` up to its `await`. -/
def onPlayerVoice (sv : Server) (sock : String) (sessionId : String) (text : TextValue)
    (now : Nat) : Server × List Emit × Option VoicePending :=
  match sv.sessionManager.getSession sessionId with
  | none => (sv, [], none)
  | some _ =>
    let playerName := (sv.conn sock).playerName
    let sv1 := { sv with campaignMemory :=
      sv.campaignMemory.addMessage sessionId ⟨playerName, text.printed, none, none, now⟩ now }
    let context := sv1.campaignMemory.getCampaignState sessionId
    (sv1, [toRoom sv1 (roomOf sessionId) (.playerSpoke playerName text.printed)],
      some ⟨sock, sessionId, text, context⟩)

/-- The handler of `player:voice` from its `await` on: `outcome` is the value the promise
resolves with, or the error it rejects with. -/
def onPlayerVoiceResume (sv : Server) (p : VoicePending) (outcome : Except String String)
    (now : Nat) : Server × List Emit :=
  match outcome with
  | .ok response =>
    let sv1 := { sv with campaignMemory :=
      sv.campaignMemory.addMessage p.sessionId ⟨some "DM", response, none, none, now⟩ now }
    (sv1, [toRoom sv1 (roomOf p.sessionId) (.dmNarration response)])
  | .error _ => (sv, [toSocket p.sock (.error "Failed to get DM response")])

/-- The text of a name inside a template: `null` prints as the word null. -/
def nameText : Option String → String
  | some n => n
  | none => "null"

/-- The expression `roller || playerName` of the `dice:roll` handler: the name in the
payload unless it is missing or empty, else the connection's `playerName`. -/
def rollerName (sv : Server) (sock : String) (roller : Option String) : Option String :=
  match roller with
  | some r => if r = "" then (sv.conn sock).playerName else some r
  | none => (sv.conn sock).playerName

/-- The message the `dice:roll` handler stores in the campaign memory. -/
def diceMessage (who : Option String) (diceNotn : String) (result : RollResult) (now : Nat) :
    Message :=
  ⟨some "System", nameText who ++ " rolled " ++ diceNotn ++ ": " ++ toString result.total,
    some "dice", some result, now⟩

/-- The handler of `dice:roll`; `roller` is the `playerName` of the payload. -/
def onDiceRoll (rng : RandomSource) (sv : Server) (sock : String) (sessionId : String)
    (diceNotn : String) (roller : Option String) (now : Nat) : Server × List Emit :=
  match sv.sessionManager.getSession sessionId with
  | none => (sv, [])
  | some _ =>
    match DiceRoller.roll rng sv.randomCalls diceNotn with
    | (.ok result, calls) =>
      let sv1 := { sv with
        campaignMemory := sv.campaignMemory.addMessage sessionId
          (diceMessage (rollerName sv sock roller) diceNotn result now) now,
        randomCalls := calls }
      (sv1, [toRoom sv1 (roomOf sessionId)
        (.diceResult (rollerName sv sock roller) diceNotn result)])
    | (.error _, calls) =>
      ({ sv with randomCalls := calls }, [toSocket sock (.error "Invalid dice notation")])

/-- The handler of `dm:narrate`. -/
def onDmNarrate (sv : Server) (sock : String) (sessionId : String) (text : String)
    (now : Nat) : Server × List Emit :=
  match sv.sessionManager.getSession sessionId with
  | none => (sv, [])
  | some session =>
    if session.dmSocketId ≠ some sock then (sv, [])
    else
      let sv1 := { sv with campaignMemory :=
        sv.campaignMemory.addMessage sessionId ⟨some "DM", text, none, none, now⟩ now }
      (sv1, [toRoom sv1 (roomOf sessionId) (.dmNarration text)])

/-- The handler of `session:start`. -/
def onSessionStart (sv : Server) (sock : String) (sessionId : String) : Server × List Emit :=
  match sv.sessionManager.getSession sessionId with
  | none => (sv, [])
  | some session =>
    if session.dmSocketId ≠ some sock then (sv, [])
    else
      let sv1 := putSession sv sessionId { session with isActive := true }
      (sv1, [toRoom sv1 (roomOf sessionId) .sessionStarted])

/-- The handler of `disconnect`, run after the socket has left its rooms. -/
def onDisconnect (sv : Server) (sock : String) : Server × List Emit :=
  let sv0 := leaveRooms sv sock
  match (sv0.conn sock).currentSession with
  | none => (sv0, [])
  | some currentSession =>
    if currentSession = "" then (sv0, [])
    else
      match sv0.sessionManager.getSession currentSession with
      | none => (sv0, [])
      | some session =>
        let removed : Session × List Emit :=
          match session.players.findIdx? (fun p => p.id = sock) with
          | some playerIndex =>
            match session.players.get? playerIndex with
            | some player =>
              let session1 := { session with players := session.players.eraseIdx playerIndex }
              (session1, [toRoom sv0 (roomOf currentSession)
                (.playerLeft player.name session1.players)])
            | none => (session, [])
          | none => (session, [])
        let paused : Session × List Emit :=
          if removed.1.dmSocketId = some sock then
            ({ removed.1 with isActive := false },
              [toRoom sv0 (roomOf currentSession) (.sessionPaused "DM disconnected")])
          else (removed.1, [])
        (putSession sv0 currentSession paused.1, removed.2 ++ paused.2)

end Server

/-- An event handled by the server. -/
inductive Event where
  | create (sessionId : String)
  | dmJoin (sock sessionId : String)
  | playerJoin (sock sessionId : String) (name : Option String)
  | playerVoice (sock sessionId : String) (text : TextValue)
  | voiceResume (p : Server.VoicePending) (outcome : Except String String)
  | diceRoll (sock sessionId diceNotn : String) (roller : Option String)
  | dmNarrate (sock sessionId text : String)
  | sessionStart (sock sessionId : String)
  | disconnect (sock : String)

/-- One event handled at time `now`: the new state and the events emitted. -/
def Server.step (rng : RandomSource) (now : Nat) (sv : Server) : Event → Server × List Emit
  | .create sessionId => (sv.createSession sessionId now, [])
  | .dmJoin sock sessionId => sv.onDmJoin sock sessionId
  | .playerJoin sock sessionId name => sv.onPlayerJoin sock sessionId name
  | .playerVoice sock sessionId text =>
    let r := sv.onPlayerVoice sock sessionId text now
    (r.1, r.2.1)
  | .voiceResume p outcome => sv.onPlayerVoiceResume p outcome now
  | .diceRoll sock sessionId diceNotn roller => sv.onDiceRoll rng sock sessionId diceNotn roller now
  | .dmNarrate sock sessionId text => sv.onDmNarrate sock sessionId text now
  | .sessionStart sock sessionId => sv.onSessionStart sock sessionId
  | .disconnect sock => sv.onDisconnect sock

/-! ## `AIService` (src/server/aiService.js) -/

/-- One message of a chat-completion request. -/
structure ChatMessage where
  role : String
  content : String
deriving DecidableEq, Repr

/-- The `AIService` object. Its `openai` field is `none` for `null` (no API key), else the
client, kept as what `chat.completions.create` followed by the read of
`completion.choices[0].message.content` yields for a list of messages: the content, or the
error thrown (a rejected request, or a completion without that content). With it comes the
host function `String.prototype.toLowerCase` that the service calls on the player input. -/
structure AIService where
  openai : Option (List ChatMessage → Except String String)
  toLowerCase : String → String

namespace AIService

/-- The call `text.includes(part)` on strings. -/
def includes (text part : String) : Bool :=
  text.toList.tails.any (fun t => part.toList.isPrefixOf t)

/-- The content of the first system message. -/
def systemPrompt : String :=
  "You are an expert Dungeon Master for a fantasy tabletop RPG. \n" ++
  "You create immersive, engaging narratives that respond to player actions.\n" ++
  "Keep responses concise (2-4 sentences) but vivid and atmospheric.\n" ++
  "Describe outcomes of actions, introduce challenges, and advance the story.\n" ++
  "If players attempt risky actions, suggest appropriate dice rolls."

/-- The text of a speaker inside a template: `null` prints as the word null. -/
def speakerText : Option String → String
  | some n => n
  | none => "null"

/-- The method `buildContextMessages(playerInput, campaignContext)`. -/
def buildContextMessages (playerInput : TextValue) (campaignContext : CampaignState) :
    List ChatMessage :=
  let head : List ChatMessage := [⟨"system", systemPrompt⟩]
  let withHistory : List ChatMessage :=
    if campaignContext.messages.length > 0 then
      let history := "\n".intercalate
        ((sliceLast 10 campaignContext.messages).map
          (fun m => speakerText m.speaker ++ ": " ++ m.text))
      head ++ [⟨"system", "Recent campaign events:\n" ++ history⟩]
    else head
  withHistory ++ [⟨"user", playerInput.printed⟩]

/-- The text `getRuleBasedResponse` returns for a player input that is a string, `input`
being the input in lower case. -/
def ruleBasedText (input playerInput : String) : String :=
  if includes input "attack" || includes input "fight" then
    "You engage in combat! Roll for initiative (1d20). What's your attack strategy?"
  else if includes input "search" || includes input "look" then
    "You carefully examine your surroundings. The dimly lit chamber reveals ancient " ++
    "markings on the walls and a faint draft coming from the north."
  else if includes input "door" || includes input "open" then
    "The door creaks ominously as you approach. Do you want to check for traps first, " ++
    "or push it open?"
  else if includes input "talk" || includes input "speak" then
    "The mysterious figure regards you cautiously, waiting to hear what you have to say."
  else if includes input "heal" || includes input "rest" then
    "You take a moment to tend to your wounds. Roll a medicine check (1d20) if you want " ++
    "to use healing supplies."
  else
    "Interesting choice. As you " ++ playerInput ++
    ", you notice the atmosphere growing tense. What do you do next?"

/-- The method `getRuleBasedResponse(playerInput, campaignContext)`. Its first statement
calls `playerInput.toLowerCase()`, which throws a `TypeError` when the input is not a
string. -/
def getRuleBasedResponse (svc : AIService) (playerInput : TextValue)
    (_campaignContext : CampaignState) : Except String String :=
  match playerInput with
  | .str text => .ok (ruleBasedText (svc.toLowerCase text) text)
  | .other _ => .error "TypeError: playerInput.toLowerCase is not a function"

/-- The method `getDMResponse(playerInput, campaignContext)`: the value its promise resolves
with (`ok`) or the error it rejects with (`error`). The fallback in the `catch` block runs
outside any `try`, so what it throws rejects the promise. -/
def getDMResponse (svc : AIService) (playerInput : TextValue) (campaignContext : CampaignState) :
    Except String String :=
  match svc.openai with
  | none => svc.getRuleBasedResponse playerInput campaignContext
  | some create =>
    match create (buildContextMessages playerInput campaignContext) with
    | .ok content => .ok (String.mk (trim content.toList))
    | .error _ => svc.getRuleBasedResponse playerInput campaignContext

end AIService

/-! ## Whole runs of the server -/

namespace Server

/-- The handler of `player:voice` run from start to end with no other event in between: up
to the `await` at time `now1`, then from the `await` on at time `now2` with what
`getDMResponse` gave for the text and the context built before the `await`. -/
def speak (svc : AIService) (sv : Server) (sock sessionId : String) (text : TextValue)
    (now1 now2 : Nat) : Server × List Emit :=
  match sv.onPlayerVoice sock sessionId text now1 with
  | (sv1, emits1, some p) =>
    let resumed := sv1.onPlayerVoiceResume p (svc.getDMResponse p.text p.context) now2
    (resumed.1, emits1 ++ resumed.2)
  | (sv1, emits1, none) => (sv1, emits1)

/-- A run of events, each with the time at which it is handled: the final state. -/
def run (rng : RandomSource) : Server → List (Nat × Event) → Server
  | sv, [] => sv
  | sv, e :: rest => run rng (step rng e.1 sv e.2).1 rest

/-- The connection identifiers in the roster of a session, in roster order; empty when the
session does not exist. -/
def playerIds (sv : Server) (sessionId : String) : List String :=
  match sv.sessionManager.getSession sessionId with
  | some session => session.players.map Player.id
  | none => []

end Server

/-- Whether an event is a `player:join` of connection `sock` for session `sessionId`. -/
def Event.isJoinOf (sock sessionId : String) : Event → Bool
  | .playerJoin s sid _ => s = sock && sid = sessionId
  | _ => false

/-- The number of `player:join` events of a connection for a session in a run. -/
def joinCount (sock sessionId : String) (events : List (Nat × Event)) : Nat :=
  events.countP (fun e => e.2.isJoinOf sock sessionId)

/-! ## The dice grammar, as the specification words it -/

/-- A non-empty run of decimal digits. -/
def IsDigits (ds : List Char) : Prop := ds ≠ [] ∧ ∀ c ∈ ds, c.isDigit = true

/-- The number a run of decimal digits denotes, most significant digit first. -/
def decimalValue (ds : List Char) : Nat := Nat.ofDigits 10 ((ds.map digitVal).reverse)

/-- The text `t` has the shape `<count>d<sides>`, `<count>d<sides>+m` or `<count>d<sides>-m`
and denotes the given count, sides and modifier (0 when the modifier is absent). -/
def HasDiceShape (t : List Char) (count sides : Nat) (modifier : Int) : Prop :=
  ∃ cs ss : List Char, IsDigits cs ∧ IsDigits ss ∧
    decimalValue cs = count ∧ decimalValue ss = sides ∧
    ((t = cs ++ 'd' :: ss ∧ modifier = 0) ∨
     ∃ ms : List Char, IsDigits ms ∧
       ((t = cs ++ 'd' :: (ss ++ '+' :: ms) ∧ modifier = (decimalValue ms : Int)) ∨
        (t = cs ++ 'd' :: (ss ++ '-' :: ms) ∧ modifier = - (decimalValue ms : Int))))

/-- The text `t` obeys the grammar and the range bounds: count in [1,100], sides in
[2,1000], any modifier. -/
def ValidDice (t : List Char) : Prop :=
  ∃ (count sides : Nat) (modifier : Int), HasDiceShape t count sides modifier ∧
    1 ≤ count ∧ count ≤ 100 ∧ 2 ≤ sides ∧ sides ≤ 1000

/-! ## The scenario of the specification -/

/-- Session `S1` created: not active, no facilitator, empty roster. -/
def scenarioCreated : Server := Server.init.createSession "S1" 0

/-- Session `S1` after the facilitator (connection `dm`) joined and started it. -/
def scenarioStarted : Server :=
  ((scenarioCreated.onDmJoin "dm" "S1").1.onSessionStart "dm" "S1").1

/-- Session `S1` after Aria (connection `c1`) joined the started session. -/
def scenarioAria : Server := (scenarioStarted.onPlayerJoin "c1" "S1" (some "Aria")).1

/-- Stubbed values of `Math.random()` that give the draws 4 and 5 on a six-sided die. -/
def stubFourFive : RandomSource := stubSource [⟨1, 2, by decide⟩, ⟨2, 3, by decide⟩]

/-- The service without an API key: `openai` is `null`. Its lower-casing is that of the
ASCII letters, which is what `toLowerCase` does on the ASCII texts of the scenarios. -/
def noKeyService : AIService := ⟨none, fun text => String.mk (toLowerCase text.toList)⟩

/-- A service whose client rejects every request. -/
def failingService : AIService :=
  ⟨some (fun _ => .error "timeout"), fun text => String.mk (toLowerCase text.toList)⟩

/-- The facilitator of two sessions: `S1` and `S2` are created; connection `dm` sends
`dm:join` for `S1` and starts it, Aria (connection `c1`) joins `S1`, then `dm` sends `dm:join`
for `S2` and starts it. -/
def scenarioTwoSessions : Server :=
  Server.run stubFourFive Server.init
    [(0, .create "S1"), (1, .create "S2"), (2, .dmJoin "dm" "S1"),
     (3, .sessionStart "dm" "S1"), (4, .playerJoin "c1" "S1" (some "Aria")),
     (5, .dmJoin "dm" "S2"), (6, .sessionStart "dm" "S2")]

/-- Connection `c1` has sent `player:join` for `S1` twice, as Aria and then as Bran. -/
def scenarioTwice : Server := (scenarioAria.onPlayerJoin "c1" "S1" (some "Bran")).1

/-- A connection has not joined a session: it is neither its facilitator nor in its roster,
it is not in its room, and its `currentSession` is another session or `null`. -/
def Server.NotJoined (sv : Server) (sock sessionId : String) : Prop :=
  (sv.conn sock).currentSession ≠ some sessionId ∧
  sock ∉ sv.members (Server.roomOf sessionId) ∧
  sock ∉ sv.playerIds sessionId ∧
  (sv.sessionManager.getSession sessionId).bind Session.dmSocketId ≠ some sock

/-! ## The Roll20 script (src/roll20/aidm-roll20.js) -/

namespace Roll20

/-- A chat message as the script reads it: `type`, `content`, `who`, `playerid` and
`selected` (the `_id` of each selected object, `none` when the field is missing). -/
structure ChatMsg where
  kind : String
  content : String
  who : String
  playerid : String
  selected : Option (List String)
deriving DecidableEq, Repr

/-- An element of `state.AIDM.queue`. -/
structure Payload where
  ts : Nat
  campaign_id : String
  player_name : String
  player_id : String
  text : String
  selected : List String
deriving DecidableEq, Repr

/-- What the Roll20 host provides: `playerIsGM`, the value of `Campaign().get('_id')`,
`Date.now()` and `JSON.stringify` on the queue. -/
structure Host where
  playerIsGM : String → Bool
  campaignId : String
  now : Nat
  stringify : List Payload → String

/-- One call of `sendChat(speakingAs, input)`. -/
structure Chat where
  speakingAs : String
  input : String
deriving DecidableEq, Repr

/-- The call `content.startsWith(head)`. -/
def startsWith (content head : String) : Bool := head.toList.isPrefixOf content.toList

/-- The text of the help answer, after the whisper target. -/
def helpText : String :=
  " **AI Dungeon Master Commands**\n" ++
  "• !aidm [your action] — Narrate player action\n" ++
  "• !aidm persona [name] — Change DM persona (classic|gothic|whimsical|etc)\n" ++
  "• !aidm roll [skill] — Request Roll20-native skill check\n" ++
  "• !aidm myturn — Request next turn in queue\n" ++
  "• !aidm help — Show this message\n\n" ++
  "*GM Only:*\n" ++
  "• !aidm_dump — Export queue for relay processing\n" ++
  "• !aidm_clear — Clear pending queue"

/-- The first `chat:message` handler, which captures the `!aidm` commands: the new queue and
the chat lines sent. The call `content.replace('!aidm', '')` removes the first occurrence,
which is at the start of the content here. -/
def onCommand (host : Host) (queue : List Payload) (msg : ChatMsg) : List Payload × List Chat :=
  if msg.kind ≠ "api" then (queue, [])
  else if ¬ startsWith msg.content "!aidm" then (queue, [])
  else
    let text := String.mk (trim (msg.content.toList.drop 5))
    if text = "help" then
      (queue, [⟨"AI DM", "/w \"" ++ msg.who ++ "\"" ++ helpText⟩])
    else
      let payload : Payload :=
        ⟨host.now, host.campaignId, msg.who, msg.playerid, text,
          match msg.selected with
          | some ids => ids
          | none => []⟩
      (queue ++ [payload],
        [⟨"AI DM", "/direct <span style=\"color:#8B4513; font-style:italic;\">" ++
          "[AI DM] Received. Thinking…</span>"⟩])

/-- The second `chat:message` handler, for `!aidm_dump`. -/
def onDump (host : Host) (queue : List Payload) (msg : ChatMsg) : List Payload × List Chat :=
  if msg.kind ≠ "api" then (queue, [])
  else if msg.content ≠ "!aidm_dump" then (queue, [])
  else if ¬ host.playerIsGM msg.playerid then
    (queue, [⟨"AI DM", "/w \"" ++ msg.who ++ "\" Only the GM can dump the queue."⟩])
  else if queue.length = 0 then (queue, [⟨"AI DM", "/w gm No pending commands."⟩])
  else ([], [⟨"AI DM", "/w gm AIDM_QUEUE:" ++ host.stringify queue⟩])

/-- The third `chat:message` handler, for `!aidm_clear`. -/
def onClear (host : Host) (queue : List Payload) (msg : ChatMsg) : List Payload × List Chat :=
  if msg.kind ≠ "api" then (queue, [])
  else if msg.content ≠ "!aidm_clear" then (queue, [])
  else if ¬ host.playerIsGM msg.playerid then
    (queue, [⟨"AI DM", "/w \"" ++ msg.who ++ "\" Only the GM can clear the queue."⟩])
  else
    ([], [⟨"AI DM", "/w gm Queue cleared (" ++ toString queue.length ++
      " commands removed)."⟩])

/-- A chat message handled by the script: the three registered handlers run one after the
other, in the order of their registration. -/
def chatMessage (host : Host) (queue : List Payload) (msg : ChatMsg) :
    List Payload × List Chat :=
  let r1 := onCommand host queue msg
  let r2 := onDump host r1.1 msg
  let r3 := onClear host r2.1 msg
  (r3.1, r1.2 ++ r2.2 ++ r3.2)

end Roll20

/-! ## Facts about the primitives -/

theorem isDigit_iff (c : Char) : c.isDigit = true ↔ 48 ≤ c.toNat ∧ c.toNat ≤ 57 := by
  simp [Char.isDigit, Char.toNat, UInt32.le_def, BitVec.le_def, UInt32.toNat]

theorem isDigit_not_space (c : Char) (h : c.isDigit = true) : isWhiteSpace c = false := by
  have hc := (isDigit_iff c).1 h
  simp only [isWhiteSpace, Bool.or_eq_false_iff, Bool.and_eq_false_iff, beq_eq_false_iff_ne,
    decide_eq_false_iff_not]
  refine ⟨⟨⟨⟨⟨⟨⟨⟨⟨⟨⟨⟨⟨⟨?_, ?_⟩, ?_⟩, ?_⟩, ?_⟩, ?_⟩, ?_⟩, ?_⟩, ?_⟩, ?_⟩, ?_⟩, ?_⟩, ?_⟩, ?_⟩, ?_⟩ <;> omega

theorem digitVal_lt (c : Char) (h : c.isDigit = true) : digitVal c < 10 := by
  have hc := (isDigit_iff c).1 h
  unfold digitVal
  omega

theorem parseDigits_append (ds : List Char) (c : Char) :
    parseDigits (ds ++ [c]) = parseDigits ds * 10 + digitVal c := by
  simp [parseDigits, List.foldl_append]

/-- The left-to-right reading of the code computes the number the digits denote. -/
theorem parseDigits_eq_decimalValue (ds : List Char) : parseDigits ds = decimalValue ds := by
  induction ds using List.reverseRecOn with
  | nil => simp [parseDigits, decimalValue]
  | append_singleton ds c ih =>
    rw [parseDigits_append, ih]
    simp [decimalValue, Nat.ofDigits_cons]
    ring

theorem takeWhile_digits_append (cs rest : List Char) (hcs : ∀ c ∈ cs, c.isDigit = true)
    (hrest : ∀ c, rest.head? = some c → c.isDigit = false) :
    (cs ++ rest).takeWhile Char.isDigit = cs ∧ (cs ++ rest).dropWhile Char.isDigit = rest := by
  induction cs with
  | nil =>
    cases rest with
    | nil => simp
    | cons r rs =>
      have := hrest r rfl
      simp [List.takeWhile, List.dropWhile, this]
  | cons c cs ih =>
    have hc := hcs c (List.mem_cons_self _ _)
    have := ih (fun x hx => hcs x (List.mem_cons_of_mem _ hx))
    simp [List.takeWhile, List.dropWhile, hc, this]

theorem takeWhile_digits_self (cs : List Char) (hcs : ∀ c ∈ cs, c.isDigit = true) :
    cs.takeWhile Char.isDigit = cs ∧ cs.dropWhile Char.isDigit = [] := by
  have := takeWhile_digits_append cs [] hcs (by simp)
  simpa using this

theorem halvings_spec (fuel n : Nat) (h1 : n ≤ fuel) (h2 : 1 ≤ n) :
    2 ^ halvings fuel n ≤ n ∧ n < 2 ^ (halvings fuel n + 1) := by
  induction fuel generalizing n with
  | zero => omega
  | succ fuel ih =>
    unfold halvings
    by_cases h : n < 2
    · simp only [h, if_true]
      constructor
      · simpa using h2
      · simpa using h
    · simp only [h, if_false]
      have := ih (n / 2) (by omega) (by omega)
      rw [pow_succ, pow_succ]
      rw [pow_succ] at this
      omega

/-- The binary exponent is the position of the leading binary digit. -/
theorem binaryExponent_spec (n : Nat) (h : 1 ≤ n) :
    2 ^ binaryExponent n ≤ n ∧ n < 2 ^ (binaryExponent n + 1) :=
  halvings_spec n n (le_refl _) h

theorem binaryExponent_le (n k : Nat) (h : n < 2 ^ (k + 1)) : binaryExponent n ≤ k := by
  rcases Nat.eq_zero_or_pos n with h0 | h0
  · subst h0
    simp [binaryExponent, halvings]
  · obtain ⟨he, _⟩ := binaryExponent_spec n h0
    by_contra hc
    have : (2 : Nat) ^ (k + 1) ≤ 2 ^ binaryExponent n :=
      Nat.pow_le_pow_right (by decide) (by omega)
    omega

/-- Rounding to the nearest integer overshoots by a half at most. -/
theorem roundHalfEven_le (a b : Nat) (hb : 0 < b) :
    2 * (roundHalfEven a b * b) ≤ 2 * a + b := by
  have hdm := Nat.div_add_mod a b
  have hmod := Nat.mod_lt a hb
  have hmul : b * (a / b) = a / b * b := Nat.mul_comm _ _
  unfold roundHalfEven
  split
  · omega
  · rename_i h
    rw [Nat.add_mul]
    have : b ≤ 2 * (a % b) := by
      by_contra hc
      exact h (Or.inl (by omega))
    omega

theorem roundHalfEven_ge (a b : Nat) : a / b ≤ roundHalfEven a b := by
  unfold roundHalfEven
  split <;> omega

/-- The floor of the rounded product of a value of `Math.random()` and a number of sides
stays below the number of sides. -/
theorem floorOfDouble_lt (num den sides : Nat) (hden : 0 < den)
    (hnum : num * 2 ^ 53 ≤ (2 ^ 53 - 1) * den) (hs : 1 ≤ sides) :
    floorOfDouble (num * sides) den < sides := by
  unfold floorOfDouble
  generalize hs' : (if num * sides < den then 53 else 52 - binaryExponent (num * sides / den)) = s
  rw [Nat.div_lt_iff_lt_mul (Nat.pos_pow_of_pos _ (by decide))]
  by_contra hcon
  have hcon : sides * 2 ^ s ≤ roundHalfEven (num * sides * 2 ^ s) den := Nat.le_of_not_lt hcon
  have hr := roundHalfEven_le (num * sides * 2 ^ s) den hden
  have h1 : 2 * (sides * 2 ^ s * den) ≤ 2 * (num * sides * 2 ^ s) + den :=
    le_trans (Nat.mul_le_mul_left _ (Nat.mul_le_mul_right _ hcon)) hr
  have h2 : num * sides * 2 ^ 53 + den * sides ≤ 2 ^ 53 * den * sides := by
    have := Nat.mul_le_mul_right sides hnum
    have e : (2 ^ 53 - 1) * den * sides + den * sides = 2 ^ 53 * den * sides := by
      have : (2 : Nat) ^ 53 = (2 ^ 53 - 1) + 1 := by norm_num
      nth_rewrite 2 [this]
      ring
    nlinarith
  have hT : 0 < 2 ^ s := Nat.pos_pow_of_pos _ (by decide)
  have h3 : 2 * 2 ^ s * sides ≤ 2 ^ 53 := by
    by_contra hc
    have hc : 2 ^ 53 + 1 ≤ 2 * 2 ^ s * sides := by omega
    have hA : 2 ^ 53 * (2 * (sides * 2 ^ s * den)) ≤
        2 ^ 53 * (2 * (num * sides * 2 ^ s) + den) := Nat.mul_le_mul_left _ h1
    have hB : 2 * 2 ^ s * (num * sides * 2 ^ 53 + den * sides) ≤
        2 * 2 ^ s * (2 ^ 53 * den * sides) := Nat.mul_le_mul_left _ h2
    have hC : (2 ^ 53 + 1) * den ≤ 2 * 2 ^ s * sides * den := Nat.mul_le_mul_right _ hc
    nlinarith
  by_cases hlt : num * sides < den
  · simp only [hlt, if_true] at hs'
    subst hs'
    nlinarith
  · simp only [hlt, if_false] at hs'
    have hge : den ≤ num * sides := Nat.le_of_not_lt hlt
    have hq : 1 ≤ num * sides / den := (Nat.one_le_div_iff hden).2 hge
    obtain ⟨he, _⟩ := binaryExponent_spec _ hq
    generalize binaryExponent (num * sides / den) = e at *
    have h4 : 2 ^ e * den ≤ num * sides :=
      le_trans (Nat.mul_le_mul_right _ he) (Nat.div_mul_le_self _ _)
    have h5 : num * sides < sides * den := by
      by_contra hc
      have hc : sides * den ≤ num * sides := Nat.le_of_not_lt hc
      have : 0 < den * sides := Nat.mul_pos hden hs
      nlinarith
    have h6 : 2 ^ e < sides := by
      by_contra hc
      have hc : sides ≤ 2 ^ e := Nat.le_of_not_lt hc
      have := Nat.mul_le_mul_right den hc
      omega
    by_cases h52 : e ≤ 52
    · have : 2 ^ s * 2 ^ e = 2 ^ 52 := by
        rw [← hs', ← pow_add]
        congr 1
        omega
      nlinarith
    · have hs0 : s = 0 := by omega
      subst hs0
      have : (2 : Nat) ^ 53 ≤ 2 ^ e := Nat.pow_le_pow_right (by decide) (by omega)
      simp at h3
      omega

/-- Up to 2^53 every natural number is a double. -/
theorem nearestDouble_of_le (n : Nat) (h : n ≤ 2 ^ 53) : nearestDouble n = n := by
  rcases Nat.lt_or_eq_of_le h with h | h
  · unfold nearestDouble
    rw [if_pos h]
  · subst h
    decide

/-- From 2^53 on, the nearest double is large as well. -/
theorem nearestDouble_large (n : Nat) (h : 2 ^ 53 ≤ n) : 2 ^ 52 ≤ nearestDouble n := by
  have hn : ¬ n < 2 ^ 53 := by omega
  have h1 : 1 ≤ n := le_trans (by norm_num) h
  obtain ⟨he, he2⟩ := binaryExponent_spec n h1
  unfold nearestDouble
  simp only [hn, if_false]
  generalize binaryExponent n = e at *
  have h53 : 53 ≤ e := by
    by_contra hc
    have : (2 : Nat) ^ (e + 1) ≤ 2 ^ 53 := Nat.pow_le_pow_right (by decide) (by omega)
    omega
  have hT : 0 < 2 ^ (e - 52) := Nat.pos_pow_of_pos _ (by decide)
  have hq : 2 ^ 52 ≤ n / 2 ^ (e - 52) := by
    rw [Nat.le_div_iff_mul_le hT, ← pow_add]
    have : 52 + (e - 52) = e := by omega
    rw [this]
    exact he
  calc 2 ^ 52 ≤ n / 2 ^ (e - 52) := hq
    _ ≤ roundHalfEven n (2 ^ (e - 52)) := roundHalfEven_ge _ _
    _ ≤ roundHalfEven n (2 ^ (e - 52)) * 2 ^ (e - 52) := Nat.le_mul_of_pos_right _ hT

namespace JsNum

theorem fin_le_fin (a b : Int) : (JsNum.fin a ≤ JsNum.fin b) ↔ a ≤ b := by
  show JsNum.ble (.fin a) (.fin b) = true ↔ a ≤ b
  simp [JsNum.ble]

theorem fin_lt_fin (a b : Int) : (JsNum.fin a < JsNum.fin b) ↔ a < b := by
  rw [lt_iff_le_not_le, fin_le_fin, fin_le_fin]
  omega

theorem fin_lt_posInf (a : Int) : JsNum.fin a < JsNum.posInf := by
  rw [lt_iff_le_not_le]
  constructor
  · show JsNum.ble (.fin a) .posInf = true
    rfl
  · show ¬ JsNum.ble .posInf (.fin a) = true
    simp [JsNum.ble]

theorem ofNat_lit (n : Nat) : (OfNat.ofNat n : JsNum) = JsNum.fin n := rfl

/-- A natural number up to 2^53 is read exactly. -/
theorem ofNat_of_le (n : Nat) (h : n ≤ 2 ^ 53) : JsNum.ofNat n = JsNum.fin n := by
  unfold JsNum.ofNat
  rw [nearestDouble_of_le n h]
  have : binaryExponent n < 1024 := by
    have := binaryExponent_le n 53 (by
      have : (2 : Nat) ^ 53 < 2 ^ (53 + 1) := by norm_num
      omega)
    omega
  rw [if_pos this]

/-- A natural number from 2^53 on is read as a large number or as `Infinity`. -/
theorem ofNat_large (n : Nat) (h : 2 ^ 53 ≤ n) :
    JsNum.ofNat n = JsNum.posInf ∨ ∃ m : Int, 2 ^ 52 ≤ m ∧ JsNum.ofNat n = JsNum.fin m := by
  unfold JsNum.ofNat
  split
  · right
    refine ⟨_, ?_, rfl⟩
    exact_mod_cast nearestDouble_large n h
  · left
    rfl

/-- A range check on a parsed natural number decides as on the number itself. -/
theorem ofNat_range (n lo hi : Nat) (hhi : hi < 2 ^ 52) :
    (JsNum.ofNat n < JsNum.fin lo ∨ JsNum.ofNat n > JsNum.fin hi) ↔ (n < lo ∨ n > hi) := by
  by_cases h : n ≤ 2 ^ 53
  · rw [ofNat_of_le n h, gt_iff_lt, fin_lt_fin, fin_lt_fin]
    omega
  · have h : 2 ^ 53 ≤ n := by omega
    have hr : n > hi := by
      have : (2 : Nat) ^ 52 < 2 ^ 53 := by norm_num
      omega
    rcases ofNat_large n h with h1 | ⟨m, hm, h1⟩
    · rw [h1]
      exact ⟨fun _ => Or.inr hr, fun _ => Or.inr (fin_lt_posInf _)⟩
    · rw [h1]
      refine ⟨fun _ => Or.inr hr, fun _ => Or.inr ?_⟩
      rw [gt_iff_lt, fin_lt_fin]
      have : ((hi : Nat) : Int) < 2 ^ 52 := by exact_mod_cast hhi
      omega

theorem ofInt_natCast (n : Nat) : JsNum.ofInt (n : Int) = JsNum.ofNat n := by
  unfold JsNum.ofInt
  simp

theorem ofInt_neg_natCast (n : Nat) : JsNum.ofInt (-(n : Int)) = JsNum.neg (JsNum.ofNat n) := by
  rcases Nat.eq_zero_or_pos n with h | h
  · subst h
    decide
  · unfold JsNum.ofInt
    have : -(n : Int) < 0 := by omega
    simp [this]

/-- An integer within 2^53 of zero is a double. -/
theorem ofInt_of_abs_le (v : Int) (h1 : -(2 ^ 53) ≤ v) (h2 : v ≤ 2 ^ 53) :
    JsNum.ofInt v = JsNum.fin v := by
  have hn : v.natAbs ≤ 2 ^ 53 := by omega
  unfold JsNum.ofInt
  rw [ofNat_of_le _ hn]
  split
  · simp only [JsNum.neg]
    congr 1
    omega
  · congr 1
    omega

end JsNum

theorem parseInt_digits (ds : List Char) (h : IsDigits ds) :
    parseInt ds = JsNum.ofNat (decimalValue ds) := by
  obtain ⟨hne, hd⟩ := h
  have htw := (takeWhile_digits_self ds hd).1
  cases ds with
  | nil => exact absurd rfl hne
  | cons c cs =>
    have hc := (isDigit_iff c).1 (hd c (List.mem_cons_self _ _))
    have h1 : c ≠ '-' := by rintro rfl; simp at hc
    have h2 : c ≠ '+' := by rintro rfl; simp at hc
    unfold parseInt
    split
    · simp_all
    · simp_all
    · rw [htw, parseDigits_eq_decimalValue]

theorem parseInt_plus (ms : List Char) (h : IsDigits ms) :
    parseInt ('+' :: ms) = JsNum.ofInt (decimalValue ms : Int) := by
  simp [parseInt, (takeWhile_digits_self ms h.2).1, parseDigits_eq_decimalValue,
    JsNum.ofInt_natCast]

theorem parseInt_minus (ms : List Char) (h : IsDigits ms) :
    parseInt ('-' :: ms) = JsNum.ofInt (- (decimalValue ms : Int)) := by
  simp [parseInt, (takeWhile_digits_self ms h.2).1, parseDigits_eq_decimalValue,
    JsNum.ofInt_neg_natCast]

theorem dropWhile_head_neg {α : Type} (p : α → Bool) (xs : List α)
    (h : ∀ c, xs.head? = some c → p c = false) : xs.dropWhile p = xs := by
  cases xs with
  | nil => rfl
  | cons x xs => simp [List.dropWhile, h x rfl]

/-- Trimming leaves a text alone when neither its first nor its last character is white
space. -/
theorem trim_eq_self (t : List Char) (h1 : ∀ c, t.head? = some c → isWhiteSpace c = false)
    (h2 : ∀ c, t.getLast? = some c → isWhiteSpace c = false) : trim t = t := by
  unfold trim
  rw [dropWhile_head_neg _ t h1, dropWhile_head_neg _ t.reverse (by simpa using h2)]
  simp

theorem head_digits_append (cs rest : List Char) (h : IsDigits cs) :
    ∀ c, (cs ++ rest).head? = some c → c.isDigit = true := by
  obtain ⟨hne, hd⟩ := h
  cases cs with
  | nil => exact absurd rfl hne
  | cons x xs =>
    intro c hc
    simp at hc
    exact hc ▸ hd x (List.mem_cons_self _ _)

theorem getLast_append_digits (pre ds : List Char) (h : IsDigits ds) :
    ∀ c, (pre ++ ds).getLast? = some c → c.isDigit = true := by
  obtain ⟨hne, hd⟩ := h
  intro c hc
  rw [List.getLast?_append_of_ne_nil _ hne] at hc
  exact hd c (List.mem_of_getLast?_eq_some hc)

/-- The pattern match on `<cs>d<ss>` yields the two digit runs and no third group. -/
theorem matchDice_plain (cs ss : List Char) (hcs : IsDigits cs) (hss : IsDigits ss) :
    matchDice (cs ++ 'd' :: ss) = some ⟨cs, ss, none⟩ := by
  have h1 := takeWhile_digits_append cs ('d' :: ss) hcs.2 (by simp)
  have h2 := takeWhile_digits_self ss hss.2
  unfold matchDice
  simp only [h1.1, h1.2, h2.1, h2.2, hcs.1, hss.1, if_false, true_or, if_true]

/-- The pattern match on `<cs>d<ss><sign><ms>` yields the two digit runs and the signed
third group. -/
theorem matchDice_signed (cs ss ms : List Char) (sg : Char) (hsg : sg = '+' ∨ sg = '-')
    (hcs : IsDigits cs) (hss : IsDigits ss) (hms : IsDigits ms) :
    matchDice (cs ++ 'd' :: (ss ++ sg :: ms)) = some ⟨cs, ss, some (sg :: ms)⟩ := by
  have hsgd : sg.isDigit = false := by rcases hsg with rfl | rfl <;> decide
  have h1 := takeWhile_digits_append cs ('d' :: (ss ++ sg :: ms)) hcs.2 (by simp)
  have h2 := takeWhile_digits_append ss (sg :: ms) hss.2 (by simpa using hsgd)
  have h3 : ms.all Char.isDigit = true := by simpa using hms.2
  unfold matchDice
  simp only [h1.1, h1.2, h2.1, h2.2, hcs.1, hss.1, if_false, true_or, if_true, hsg, h3,
    hms.1, ne_eq, not_false_eq_true, and_self]

theorem drawDie_bounds (r : Rand) (sides : Int) (h : 1 ≤ sides) :
    1 ≤ drawDie r sides ∧ drawDie r sides ≤ sides := by
  unfold drawDie
  have := floorOfDouble_lt r.num r.den sides.toNat r.below.1 r.below.2 (by omega)
  omega

/-- The product is rounded before the floor is taken: for the double nearest to 0.998 and
1000 sides the exact product lies below 998, its double is 998, and the draw is 999. -/
theorem drawDie_rounds_product :
    8989184856231510 * 1000 / 9007199254740992 = 997 ∧
    drawDie ⟨8989184856231510, 9007199254740992, by decide⟩ 1000 = 999 := by
  decide

namespace DiceRoller

/-- The loop makes `todo` draws in order, appends them, and advances the source by `todo`. -/
theorem rollLoop_eq (rng : RandomSource) (sides : Int) (todo pos : Nat) (rolls : List Int) :
    rollLoop rng sides todo pos rolls =
      (rolls ++ (List.range todo).map (fun k => drawDie (rng (pos + k)) sides), pos + todo) := by
  induction todo generalizing pos rolls with
  | zero => simp [rollLoop]
  | succ n ih =>
    rw [rollLoop, ih]
    simp [List.range_succ_eq_map, Nat.add_comm, Nat.add_left_comm, Function.comp_def]

theorem foldl_add_eq_sum (xs : List Int) : xs.foldl (fun a b => a + b) 0 = xs.sum := by
  rw [List.sum_eq_foldl]

end DiceRoller

namespace DiceRoller

/-- What `roll` returns once the pattern has matched and both range checks pass. -/
theorem roll_of_match (rng : RandomSource) (pos : Nat) (notn : String) (m : DiceMatch)
    (count sides : Nat)
    (hm : matchDice (trim (toLowerCase notn.toList)) = some m)
    (hcount : parseInt m.count = JsNum.ofNat count)
    (hsides : parseInt m.sides = JsNum.ofNat sides)
    (h1 : 1 ≤ count) (h2 : count ≤ 100) (h3 : 2 ≤ sides) (h4 : sides ≤ 1000) :
    roll rng pos notn =
      (.ok ⟨notn, count, sides, modifierOf m,
          (List.range count).map (fun k => drawDie (rng (pos + k)) sides),
          ((List.range count).map (fun k => drawDie (rng (pos + k)) sides)).sum,
          JsNum.addInt ((List.range count).map (fun k => drawDie (rng (pos + k)) sides)).sum
            (modifierOf m)⟩,
        pos + count) := by
  have e1 : JsNum.ofNat count = JsNum.fin count :=
    JsNum.ofNat_of_le count (le_trans h2 (by norm_num))
  have e2 : JsNum.ofNat sides = JsNum.fin sides :=
    JsNum.ofNat_of_le sides (le_trans h4 (by norm_num))
  have c1 : ¬ (parseInt m.count < 1 ∨ parseInt m.count > 100) := by
    rw [hcount]
    exact fun h => absurd ((JsNum.ofNat_range count 1 100 (by norm_num)).1 h) (by omega)
  have c2 : ¬ (parseInt m.sides < 2 ∨ parseInt m.sides > 1000) := by
    rw [hsides]
    exact fun h => absurd ((JsNum.ofNat_range sides 2 1000 (by norm_num)).1 h) (by omega)
  unfold roll
  simp only [hm, c1, c2, if_false, rollLoop_eq, List.nil_append, foldl_add_eq_sum]
  simp only [hcount, hsides, e1, e2, JsNum.toInt, Int.toNat_ofNat]
  rfl

/-- The method `roll` returns a result once the pattern has matched and both range checks
pass. -/
theorem roll_ok_of_checks (rng : RandomSource) (pos : Nat) (notn : String) (m : DiceMatch)
    (hm : matchDice (trim (toLowerCase notn.toList)) = some m)
    (hc : ¬ (parseInt m.count < 1 ∨ parseInt m.count > 100))
    (hs : ¬ (parseInt m.sides < 2 ∨ parseInt m.sides > 1000)) :
    ∃ (res : RollResult) (p : Nat), roll rng pos notn = (.ok res, p) := by
  unfold roll
  simp only [hm, hc, hs, if_false]
  exact ⟨_, _, rfl⟩

/-- What `roll` returns when the pattern does not match. -/
theorem roll_of_no_match (rng : RandomSource) (pos : Nat) (notn : String)
    (hm : matchDice (trim (toLowerCase notn.toList)) = none) :
    roll rng pos notn =
      (.error "Invalid dice notation. Use format like \"2d6\" or \"1d20+5\"", pos) := by
  unfold roll
  simp only [hm]

/-- What `roll` returns when the count is out of range. -/
theorem roll_of_bad_count (rng : RandomSource) (pos : Nat) (notn : String) (m : DiceMatch)
    (hm : matchDice (trim (toLowerCase notn.toList)) = some m)
    (h : parseInt m.count < 1 ∨ parseInt m.count > 100) :
    roll rng pos notn = (.error "Number of dice must be between 1 and 100", pos) := by
  unfold roll
  simp only [hm, h, if_true]

/-- What `roll` returns when the count is in range and the sides are not. -/
theorem roll_of_bad_sides (rng : RandomSource) (pos : Nat) (notn : String) (m : DiceMatch)
    (hm : matchDice (trim (toLowerCase notn.toList)) = some m)
    (hc : ¬ (parseInt m.count < 1 ∨ parseInt m.count > 100))
    (h : parseInt m.sides < 2 ∨ parseInt m.sides > 1000) :
    roll rng pos notn = (.error "Dice sides must be between 2 and 1000", pos) := by
  unfold roll
  simp only [hm, hc, h, if_true, if_false]

end DiceRoller

/-- A text of the dice shape is left alone by `trim`, and the pattern matches it with
captures that parse to the count, sides and modifier it denotes, each read as a double. -/
theorem shape_match (t : List Char) (count sides : Nat) (modifier : Int)
    (h : HasDiceShape t count sides modifier) :
    trim t = t ∧ ∃ m, matchDice t = some m ∧ parseInt m.count = JsNum.ofNat count ∧
      parseInt m.sides = JsNum.ofNat sides ∧ modifierOf m = JsNum.ofInt modifier := by
  obtain ⟨cs, ss, hcs, hss, hcv, hsv, hcase⟩ := h
  have key : ∀ (tail : List Char), IsDigits (ss ++ tail) ∨ (∃ pre ms, IsDigits ms ∧
      ss ++ tail = pre ++ ms) → trim (cs ++ 'd' :: (ss ++ tail)) = cs ++ 'd' :: (ss ++ tail) := by
    intro tail htail
    apply trim_eq_self
    · intro c hc
      exact isDigit_not_space c (head_digits_append cs _ hcs c hc)
    · intro c hc
      rcases htail with hd | ⟨pre, ms, hms, heq⟩
      · have : cs ++ 'd' :: (ss ++ tail) = (cs ++ ['d']) ++ (ss ++ tail) := by simp
        rw [this] at hc
        exact isDigit_not_space c (getLast_append_digits _ _ hd c hc)
      · have : cs ++ 'd' :: (ss ++ tail) = (cs ++ 'd' :: pre) ++ ms := by simp [heq]
        rw [this] at hc
        exact isDigit_not_space c (getLast_append_digits _ _ hms c hc)
  have e1 : parseInt cs = JsNum.ofNat count := by rw [parseInt_digits cs hcs, hcv]
  have e2 : parseInt ss = JsNum.ofNat sides := by rw [parseInt_digits ss hss, hsv]
  rcases hcase with ⟨ht, hm0⟩ | ⟨ms, hms, ⟨ht, hmv⟩ | ⟨ht, hmv⟩⟩
  · subst ht
    refine ⟨by simpa using key [] (Or.inl (by simpa using hss)), ⟨cs, ss, none⟩,
      matchDice_plain cs ss hcs hss, e1, e2, ?_⟩
    subst hm0
    rfl
  · subst ht
    refine ⟨key ('+' :: ms) (Or.inr ⟨ss ++ ['+'], ms, hms, by simp⟩), ⟨cs, ss, some ('+' :: ms)⟩,
      matchDice_signed cs ss ms '+' (Or.inl rfl) hcs hss hms, e1, e2, ?_⟩
    simp only [modifierOf, parseInt_plus ms hms, hmv]
  · subst ht
    refine ⟨key ('-' :: ms) (Or.inr ⟨ss ++ ['-'], ms, hms, by simp⟩), ⟨cs, ss, some ('-' :: ms)⟩,
      matchDice_signed cs ss ms '-' (Or.inr rfl) hcs hss hms, e1, e2, ?_⟩
    simp only [modifierOf, parseInt_minus ms hms, hmv]

/-- The sum of draws lies between their number and their number times the sides. -/
theorem sum_draws_bounds (rng : RandomSource) (pos count : Nat) (sides : Int) (h : 1 ≤ sides) :
    (count : Int) ≤ ((List.range count).map (fun k => drawDie (rng (pos + k)) sides)).sum ∧
    ((List.range count).map (fun k => drawDie (rng (pos + k)) sides)).sum ≤ count * sides := by
  induction count with
  | zero => simp
  | succ n ih =>
    have hb := drawDie_bounds (rng (pos + n)) sides h
    rw [List.range_succ, List.map_append, List.sum_append]
    simp only [List.map_cons, List.map_nil, List.sum_cons, List.sum_nil, add_zero]
    push_cast
    constructor
    · omega
    · nlinarith [ih.2]

/-- The result of `roll` on a text of the dice shape within the range bounds: the modifier
is the double nearest to the one written and the total is the rounded sum. -/
theorem roll_of_shape (rng : RandomSource) (pos : Nat) (notn : String)
    (count sides : Nat) (modifier : Int)
    (hshape : HasDiceShape (toLowerCase notn.toList) count sides modifier)
    (hc1 : 1 ≤ count) (hc2 : count ≤ 100) (hs1 : 2 ≤ sides) (hs2 : sides ≤ 1000) :
    ∃ res : RollResult,
      DiceRoller.roll rng pos notn = (.ok res, pos + count) ∧
      res.notn = notn ∧ res.numDice = count ∧ res.sides = sides ∧
      res.modifier = JsNum.ofInt modifier ∧
      res.rolls = (List.range count).map (fun k => drawDie (rng (pos + k)) sides) ∧
      res.rolls.length = count ∧ (∀ r ∈ res.rolls, 1 ≤ r ∧ r ≤ sides) ∧
      res.sum = res.rolls.sum ∧ res.total = JsNum.addInt res.sum (JsNum.ofInt modifier) := by
  obtain ⟨htrim, m, hm, hcount, hsides, hmod⟩ := shape_match _ count sides modifier hshape
  have hroll := DiceRoller.roll_of_match rng pos notn m count sides (by rw [htrim]; exact hm)
    hcount hsides hc1 hc2 hs1 hs2
  rw [hmod] at hroll
  refine ⟨_, hroll, rfl, rfl, rfl, rfl, rfl, by simp, ?_, rfl, rfl⟩
  intro r hr
  simp only [List.mem_map] at hr
  obtain ⟨k, _, rfl⟩ := hr
  exact drawDie_bounds _ _ (by omega)

/-- C1, as stated, fails for a modifier of any magnitude: numbers are doubles, and the
modifier 9007199254740993 (2^53 + 1) of the valid notation "1d6+9007199254740993" is read as
9007199254740992. With the draw 4 the result has that modifier and the total
9007199254740996, not the modifier written and not the sum plus it. -/
theorem roll_large_modifier_rounded :
    HasDiceShape (toLowerCase "1d6+9007199254740993".toList) 1 6 9007199254740993 ∧
    DiceRoller.roll (stubSource [⟨1, 2, by decide⟩]) 0 "1d6+9007199254740993" =
      (.ok ⟨"1d6+9007199254740993", 1, 6, JsNum.fin 9007199254740992, [4], 4,
        JsNum.fin 9007199254740996⟩, 1) ∧
    JsNum.fin 9007199254740992 ≠ JsNum.fin 9007199254740993 ∧
    JsNum.fin 9007199254740996 ≠ JsNum.fin (4 + 9007199254740993) := by
  refine ⟨⟨['1'], ['6'], by simp [IsDigits], by simp [IsDigits],
      by simp [decimalValue, digitVal], by simp [decimalValue, digitVal],
      Or.inr ⟨"9007199254740993".toList, by simp [IsDigits],
        Or.inl ⟨by decide, by decide⟩⟩⟩, ?_, by decide, by decide⟩
  rfl

/-- C1 (amended): every notation that, lower-cased, has the shape `<count>d<sides>[+m|-m]`
with count in [1,100] and sides in [2,1000], and whose modifier m (0 when absent) is a number
a double holds exactly and keeps every possible total, from count + m to count * sides + m,
within 2^53 of zero, makes `DiceRoller.roll` succeed, for every source of draws: the result
carries numDice = count, sides and the modifier, its rolls are exactly the next `count` draws
in order, each in [1, sides], its sum is the sum of the rolls and its total is
sum + modifier. -/
theorem roll_valid_notation (rng : RandomSource) (pos : Nat) (notn : String)
    (count sides : Nat) (modifier : Int)
    (hshape : HasDiceShape (toLowerCase notn.toList) count sides modifier)
    (hc1 : 1 ≤ count) (hc2 : count ≤ 100) (hs1 : 2 ≤ sides) (hs2 : sides ≤ 1000)
    (hexact : JsNum.ofInt modifier = JsNum.fin modifier)
    (hlow : -(2 ^ 53) ≤ (count : Int) + modifier)
    (hhigh : (count : Int) * sides + modifier ≤ 2 ^ 53) :
    ∃ res : RollResult,
      DiceRoller.roll rng pos notn = (.ok res, pos + count) ∧
      res.notn = notn ∧ res.numDice = count ∧ res.sides = sides ∧
      res.modifier = JsNum.fin modifier ∧
      res.rolls = (List.range count).map (fun k => drawDie (rng (pos + k)) sides) ∧
      res.rolls.length = count ∧ (∀ r ∈ res.rolls, 1 ≤ r ∧ r ≤ sides) ∧
      res.sum = res.rolls.sum ∧ res.total = JsNum.fin (res.sum + modifier) := by
  obtain ⟨res, h1, h2, h3, h4, h5, h6, h7, h8, h9, h10⟩ :=
    roll_of_shape rng pos notn count sides modifier hshape hc1 hc2 hs1 hs2
  refine ⟨res, h1, h2, h3, h4, h5.trans hexact, h6, h7, h8, h9, ?_⟩
  have hb := sum_draws_bounds rng pos count sides (by omega)
  rw [← h6, ← h9] at hb
  rw [h10, hexact]
  exact JsNum.ofInt_of_abs_le _ (by omega) (by omega)

theorem roll_valid_notation_witness :
    ∃ res : RollResult,
      DiceRoller.roll (stubSource [⟨1, 2, by decide⟩, ⟨2, 3, by decide⟩]) 0 "2D6-3" =
        (.ok res, 0 + 2) ∧
      res.notn = "2D6-3" ∧ res.numDice = (2 : Nat) ∧ res.sides = (6 : Nat) ∧
      res.modifier = JsNum.fin (-3) ∧
      res.rolls = (List.range 2).map
        (fun k => drawDie (stubSource [⟨1, 2, by decide⟩, ⟨2, 3, by decide⟩] (0 + k)) (6 : Nat)) ∧
      res.rolls.length = 2 ∧ (∀ r ∈ res.rolls, 1 ≤ r ∧ r ≤ (6 : Nat)) ∧
      res.sum = res.rolls.sum ∧ res.total = JsNum.fin (res.sum + (-3)) :=
  roll_valid_notation (stubSource [⟨1, 2, by decide⟩, ⟨2, 3, by decide⟩]) 0 "2D6-3" 2 6 (-3)
    ⟨['2'], ['6'], by simp [IsDigits], by simp [IsDigits], by simp [decimalValue, digitVal],
      by simp [decimalValue, digitVal],
      Or.inr ⟨['3'], by simp [IsDigits], Or.inr ⟨by decide, by simp [decimalValue, digitVal]⟩⟩⟩
    (by decide) (by decide) (by decide) (by decide) (by decide) (by decide) (by decide)

theorem toLower_ne_upper_d (c : Char) : c.toLower ≠ 'D' := by
  unfold Char.toLower
  simp only
  split
  · rename_i h
    obtain ⟨h1, h2⟩ := h
    generalize c.toNat = n at *
    interval_cases n <;> decide
  · rename_i h
    intro hc
    subst hc
    exact h (by decide)

theorem mem_trim (t : List Char) (c : Char) (h : c ∈ trim t) : c ∈ t := by
  unfold trim at h
  rw [List.mem_reverse] at h
  have h1 := (List.dropWhile_sublist isWhiteSpace).subset h
  rw [List.mem_reverse] at h1
  exact (List.dropWhile_sublist isWhiteSpace).subset h1

theorem upper_d_not_mem (s : List Char) : 'D' ∉ trim (toLowerCase s) := by
  intro h
  have := mem_trim _ _ h
  simp only [toLowerCase, List.mem_map] at this
  obtain ⟨c, _, hc⟩ := this
  exact toLower_ne_upper_d c hc

theorem isDigits_takeWhile (t : List Char) (h : t.takeWhile Char.isDigit ≠ []) :
    IsDigits (t.takeWhile Char.isDigit) :=
  ⟨h, fun _ hc => List.mem_takeWhile_imp hc⟩

/-- Whatever the pattern matches has the dice shape, with the count, sides and modifier
that `roll` reads off the captures. -/
theorem matchDice_shape (t : List Char) (m : DiceMatch) (hD : 'D' ∉ t)
    (hm : matchDice t = some m) :
    ∃ (count sides : Nat) (modifier : Int), parseInt m.count = JsNum.ofNat count ∧
      parseInt m.sides = JsNum.ofNat sides ∧ modifierOf m = JsNum.ofInt modifier ∧
      HasDiceShape t count sides modifier := by
  have hsplit := List.takeWhile_append_dropWhile Char.isDigit t
  unfold matchDice at hm
  simp only at hm
  split at hm
  · cases hm
  · rename_i hg1
    have d1 := isDigits_takeWhile t hg1
    split at hm
    · cases hm
    · rename_i c r2 hdrop
      have hsplit2 := List.takeWhile_append_dropWhile Char.isDigit r2
      split at hm
      · rename_i hc
        have hcd : c = 'd' := by
          rcases hc with h | h
          · exact h
          · exfalso
            apply hD
            rw [← hsplit, hdrop, h]
            simp
        subst hcd
        split at hm
        · cases hm
        · rename_i hg2
          have d2 := isDigits_takeWhile r2 hg2
          split at hm
          · rename_i hdrop2
            cases hm
            refine ⟨_, _, 0, parseInt_digits _ d1, parseInt_digits _ d2, rfl, _, _, d1, d2,
              rfl, rfl, Or.inl ⟨?_, rfl⟩⟩
            rw [hdrop2, List.append_nil] at hsplit2
            rw [hsplit2, ← hdrop]
            exact hsplit.symm
          · rename_i sg ms hdrop2
            split at hm
            · rename_i hcond
              obtain ⟨hsg, hms1, hms2⟩ := hcond
              cases hm
              have d3 : IsDigits ms := ⟨hms1, by simpa using hms2⟩
              have ht : t = t.takeWhile Char.isDigit ++
                  'd' :: (r2.takeWhile Char.isDigit ++ sg :: ms) := by
                rw [← hdrop2, hsplit2, ← hdrop]
                exact hsplit.symm
              rcases hsg with h | h
              · subst h
                exact ⟨_, _, (decimalValue ms : Int), parseInt_digits _ d1,
                  parseInt_digits _ d2, by simp only [modifierOf, parseInt_plus ms d3],
                  _, _, d1, d2, rfl, rfl, Or.inr ⟨ms, d3, Or.inl ⟨ht, rfl⟩⟩⟩
              · subst h
                exact ⟨_, _, - (decimalValue ms : Int), parseInt_digits _ d1,
                  parseInt_digits _ d2, by simp only [modifierOf, parseInt_minus ms d3],
                  _, _, d1, d2, rfl, rfl, Or.inr ⟨ms, d3, Or.inr ⟨ht, rfl⟩⟩⟩
            · cases hm
      · cases hm

/-- A text whose first character is not a digit violates the dice grammar. -/
theorem not_valid_of_head (t : List Char) (c : Char) (hc : t.head? = some c)
    (hd : c.isDigit = false) : ¬ ValidDice t := by
  rintro ⟨count, sides, modifier, ⟨cs, ss, hcs, _, _, _, hcase⟩, _⟩
  have key : ∀ rest, t = cs ++ rest → False := by
    intro rest ht
    have := head_digits_append cs rest hcs c (ht ▸ hc)
    simp [hd] at this
  rcases hcase with ⟨ht, _⟩ | ⟨ms, _, ⟨ht, _⟩ | ⟨ht, _⟩⟩
  · exact key _ ht
  · exact key _ ht
  · exact key _ ht

/-- C2, as stated, fails: the text " 1d6" (a leading blank) is not of the dice grammar, and
`roll` accepts it, because it trims the text before matching; a result is returned and one
draw is consumed. -/
theorem roll_untrimmed_accepted :
    ¬ ValidDice (toLowerCase " 1d6".toList) ∧
    DiceRoller.roll (stubSource [⟨1, 2, by decide⟩]) 0 " 1d6" =
      (.ok ⟨" 1d6", 1, 6, 0, [4], 4, 4⟩, 1) := by
  refine ⟨not_valid_of_head _ ' ' rfl (by decide), ?_⟩
  rfl

/-- A text that is not a valid notation once lower-cased and trimmed makes `roll` throw,
with no draw made. -/
theorem roll_error_of_invalid (rng : RandomSource) (pos : Nat) (notn : String)
    (h : ¬ ValidDice (trim (toLowerCase notn.toList))) :
    ∃ msg : String, DiceRoller.roll rng pos notn = (.error msg, pos) := by
  cases hm : matchDice (trim (toLowerCase notn.toList)) with
  | none => exact ⟨_, DiceRoller.roll_of_no_match rng pos notn hm⟩
  | some m =>
    by_cases hc : parseInt m.count < 1 ∨ parseInt m.count > 100
    · exact ⟨_, DiceRoller.roll_of_bad_count rng pos notn m hm hc⟩
    · by_cases hs : parseInt m.sides < 2 ∨ parseInt m.sides > 1000
      · exact ⟨_, DiceRoller.roll_of_bad_sides rng pos notn m hm hc hs⟩
      · exfalso
        obtain ⟨count, sides, modifier, h1, h2, _, hshape⟩ :=
          matchDice_shape _ m (upper_d_not_mem _) hm
        rw [h1] at hc
        rw [h2] at hs
        have hc' : ¬ (count < 1 ∨ count > 100) :=
          fun hx => hc ((JsNum.ofNat_range count 1 100 (by norm_num)).2 hx)
        have hs' : ¬ (sides < 2 ∨ sides > 1000) :=
          fun hx => hs ((JsNum.ofNat_range sides 2 1000 (by norm_num)).2 hx)
        exact h ⟨count, sides, modifier, hshape, by omega, by omega, by omega, by omega⟩

/-- C2 (amended): every string that, lower-cased and trimmed of surrounding white space,
violates the dice grammar or the range bounds makes `DiceRoller.roll` fail with an error:
there is no result and no draw is consumed. -/
theorem roll_invalid_notation (rng : RandomSource) (pos : Nat) (notn : String)
    (h : ¬ ValidDice (trim (toLowerCase notn.toList))) :
    ∃ msg : String, DiceRoller.roll rng pos notn = (.error msg, pos) :=
  roll_error_of_invalid rng pos notn h

theorem roll_invalid_notation_witness :
    ¬ ValidDice (trim (toLowerCase "d20".toList)) ∧
    ∃ msg : String, DiceRoller.roll (stubSource []) 0 "d20" = (.error msg, 0) :=
  ⟨not_valid_of_head _ 'd' rfl (by decide),
   roll_invalid_notation (stubSource []) 0 "d20" (not_valid_of_head _ 'd' rfl (by decide))⟩

/-- A valid notation makes `roll` succeed, whatever the source and its position. -/
theorem roll_ok_of_valid (rng : RandomSource) (pos : Nat) (notn : String)
    (h : ValidDice (toLowerCase notn.toList)) :
    ∃ (res : RollResult) (count : Nat), DiceRoller.roll rng pos notn = (.ok res, pos + count) := by
  obtain ⟨count, sides, modifier, hshape, h1, h2, h3, h4⟩ := h
  obtain ⟨res, hres, _⟩ := roll_of_shape rng pos notn count sides modifier hshape h1 h2 h3 h4
  exact ⟨res, count, hres⟩

/-- A notation that is valid once lower-cased and trimmed makes `roll` succeed as well. -/
theorem roll_ok_of_valid_trim (rng : RandomSource) (pos : Nat) (notn : String)
    (h : ValidDice (trim (toLowerCase notn.toList))) :
    ∃ (res : RollResult) (count : Nat), DiceRoller.roll rng pos notn = (.ok res, pos + count) := by
  obtain ⟨count, sides, modifier, hshape, h1, h2, h3, h4⟩ := h
  obtain ⟨_, m, hm, hcount, hsides, _⟩ := shape_match _ count sides modifier hshape
  exact ⟨_, count,
    DiceRoller.roll_of_match rng pos notn m count sides hm hcount hsides h1 h2 h3 h4⟩

/-- C3: for every valid notation both rolls succeed, the second drawn after the first;
`rollAdvantage` returns roll1 when roll1.total >= roll2.total and roll2 otherwise, so the
total of its result is the maximum; `rollDisadvantage` returns roll1 when
roll1.total <= roll2.total and roll2 otherwise, so the total of its result is the minimum;
on equal totals both select roll1. -/
theorem advantage_disadvantage_select (rng : RandomSource) (pos : Nat) (notn : String)
    (h : ValidDice (toLowerCase notn.toList)) :
    ∃ (roll1 roll2 : RollResult) (p1 p2 : Nat) (adv dis : RollResult),
      DiceRoller.roll rng pos notn = (.ok roll1, p1) ∧
      DiceRoller.roll rng p1 notn = (.ok roll2, p2) ∧
      DiceRoller.rollAdvantage rng pos notn = (.ok ⟨"advantage", roll1, roll2, adv⟩, p2) ∧
      DiceRoller.rollDisadvantage rng pos notn = (.ok ⟨"disadvantage", roll1, roll2, dis⟩, p2) ∧
      adv = (if roll1.total ≥ roll2.total then roll1 else roll2) ∧
      dis = (if roll1.total ≤ roll2.total then roll1 else roll2) ∧
      adv.total = max roll1.total roll2.total ∧
      dis.total = min roll1.total roll2.total ∧
      (roll1.total = roll2.total → adv = roll1 ∧ dis = roll1) := by
  obtain ⟨roll1, c1, h1⟩ := roll_ok_of_valid rng pos notn h
  obtain ⟨roll2, c2, h2⟩ := roll_ok_of_valid rng (pos + c1) notn h
  refine ⟨roll1, roll2, _, _, _, _, h1, h2, ?_, ?_, rfl, rfl, ?_, ?_, ?_⟩
  · simp only [DiceRoller.rollAdvantage, h1, h2]
  · simp only [DiceRoller.rollDisadvantage, h1, h2]
  · by_cases hge : roll1.total ≥ roll2.total
    · simp [hge]
    · simp only [hge, if_false]
      exact (max_eq_right (le_of_lt (not_le.1 hge))).symm
  · by_cases hle : roll1.total ≤ roll2.total
    · simp [hle]
    · simp only [hle, if_false]
      exact (min_eq_right (le_of_lt (not_le.1 hle))).symm
  · intro heq
    simp [heq]

theorem advantage_disadvantage_select_witness :
    ∃ (roll1 roll2 : RollResult) (p1 p2 : Nat) (adv dis : RollResult),
      DiceRoller.roll (stubSource []) 0 "2d5+8" = (.ok roll1, p1) ∧
      DiceRoller.roll (stubSource []) p1 "2d5+8" = (.ok roll2, p2) ∧
      DiceRoller.rollAdvantage (stubSource []) 0 "2d5+8" =
        (.ok ⟨"advantage", roll1, roll2, adv⟩, p2) ∧
      DiceRoller.rollDisadvantage (stubSource []) 0 "2d5+8" =
        (.ok ⟨"disadvantage", roll1, roll2, dis⟩, p2) ∧
      adv = (if roll1.total ≥ roll2.total then roll1 else roll2) ∧
      dis = (if roll1.total ≤ roll2.total then roll1 else roll2) ∧
      adv.total = max roll1.total roll2.total ∧
      dis.total = min roll1.total roll2.total ∧
      (roll1.total = roll2.total → adv = roll1 ∧ dis = roll1) :=
  advantage_disadvantage_select (stubSource []) 0 "2d5+8"
    ⟨2, 5, 8, ⟨['2'], ['5'], by simp [IsDigits], by simp [IsDigits],
      by simp [decimalValue, digitVal], by simp [decimalValue, digitVal],
      Or.inr ⟨['8'], by simp [IsDigits], Or.inl ⟨by decide, by simp [decimalValue, digitVal]⟩⟩⟩,
      by decide, by decide, by decide, by decide⟩

/-! ## Facts about maps and slices -/

theorem mapGet_mapSet_same {V : Type} (m : JsMap V) (k : String) (v : V) :
    mapGet (mapSet m k v) k = some v := by
  induction m with
  | nil => simp [mapSet, mapGet]
  | cons e rest ih =>
    obtain ⟨k0, w⟩ := e
    by_cases hk : k0 = k
    · simp [mapSet, mapGet, hk]
    · simp [mapSet, mapGet, hk, ih]

theorem mapGet_mapSet_other {V : Type} (m : JsMap V) (k k1 : String) (v : V) (h : k1 ≠ k) :
    mapGet (mapSet m k v) k1 = mapGet m k1 := by
  induction m with
  | nil => simp [mapSet, mapGet, h.symm]
  | cons e rest ih =>
    obtain ⟨k0, w⟩ := e
    by_cases hk : k0 = k
    · have : k0 ≠ k1 := fun h1 => h (h1 ▸ hk)
      simp [mapSet, mapGet, hk, this, h.symm]
    · by_cases hk1 : k0 = k1
      · subst hk1
        simp [mapSet, mapGet, hk]
      · simp [mapSet, mapGet, hk, hk1, ih]

theorem sliceLast_of_le {α : Type} (n : Nat) (xs : List α) (h : xs.length ≤ n) :
    sliceLast n xs = xs := by
  simp [sliceLast, Nat.sub_eq_zero_of_le h]

theorem sliceLast_length {α : Type} (n : Nat) (xs : List α) :
    (sliceLast n xs).length = min xs.length n := by
  simp [sliceLast]
  omega

theorem sliceLast_eq_reverse_take {α : Type} (n : Nat) (xs : List α) :
    sliceLast n xs = (xs.reverse.take n).reverse := by
  simp [sliceLast, List.reverse_take]

theorem sliceLast_append_sliceLast {α : Type} (n : Nat) (xs ys : List α) :
    sliceLast n (sliceLast n xs ++ ys) = sliceLast n (xs ++ ys) := by
  simp only [sliceLast_eq_reverse_take, List.reverse_append, List.reverse_reverse,
    List.take_append_eq_append_take, List.take_take]
  congr 3
  omega

theorem getLast_sliceLast_snoc {α : Type} (n : Nat) (xs : List α) (x : α) :
    (sliceLast (n + 1) (xs ++ [x])).getLast? = some x := by
  simp [sliceLast_eq_reverse_take]

namespace CampaignMemory

/-- The history after one `addMessage`: the old one with the entry pushed, cut to its last
100 entries when longer. -/
theorem messagesOf_addMessage (cm : CampaignMemory) (sessionId : String) (message : Message)
    (now : Nat) :
    messagesOf (addMessage cm sessionId message now) sessionId =
      if (messagesOf cm sessionId ++ [message]).length > 100
      then sliceLast 100 (messagesOf cm sessionId ++ [message])
      else messagesOf cm sessionId ++ [message] := by
  unfold addMessage initCampaign messagesOf
  cases h : mapGet cm.campaigns sessionId with
  | none => simp [mapGet_mapSet_same]
  | some campaign => simp [mapGet_mapSet_same]

theorem messagesOf_addMessage_slice (cm : CampaignMemory) (sessionId : String)
    (message : Message) (now : Nat) :
    messagesOf (addMessage cm sessionId message now) sessionId =
      sliceLast 100 (messagesOf cm sessionId ++ [message]) := by
  rw [messagesOf_addMessage]
  split
  · rfl
  · rename_i h
    exact (sliceLast_of_le 100 _ (by omega)).symm

/-- The history of another session is not touched by `addMessage`. -/
theorem messagesOf_addMessage_other (cm : CampaignMemory) (sessionId other : String)
    (message : Message) (now : Nat) (h : other ≠ sessionId) :
    messagesOf (addMessage cm sessionId message now) other = messagesOf cm other := by
  unfold addMessage initCampaign messagesOf
  cases h1 : mapGet cm.campaigns sessionId with
  | none => simp [mapGet_mapSet_other _ _ _ _ h]
  | some campaign => simp [mapGet_mapSet_other _ _ _ _ h]

theorem messagesOf_addMessages (cm : CampaignMemory) (sessionId : String)
    (entries : List (Message × Nat)) (hlen : (messagesOf cm sessionId).length ≤ 100) :
    messagesOf (addMessages cm sessionId entries) sessionId =
      sliceLast 100 (messagesOf cm sessionId ++ entries.map Prod.fst) := by
  induction entries generalizing cm with
  | nil => simp [addMessages, sliceLast_of_le 100 _ hlen]
  | cons e rest ih =>
    rw [addMessages, ih, messagesOf_addMessage_slice, sliceLast_append_sliceLast]
    · simp
    · rw [messagesOf_addMessage_slice, sliceLast_length]
      omega

end CampaignMemory

theorem drop_sub_min {α : Type} (n : Nat) (xs : List α) :
    xs.drop (xs.length - min xs.length n) = sliceLast n xs := by
  unfold sliceLast
  congr 1
  omega

/-- C4: from no campaign state for the session, after any run of `addMessage` calls the
retained messages are exactly the last min(n, 100) appended entries in append order; so
there are never more than 100, and after 101 appends the retained list is the appended list
without its first entry, the 101st entry being its last. -/
theorem addMessage_sliding_window (cm : CampaignMemory) (sessionId : String)
    (entries : List (Message × Nat)) (h : mapGet cm.campaigns sessionId = none) :
    (cm.addMessages sessionId entries).messagesOf sessionId =
        (entries.map Prod.fst).drop (entries.length - min entries.length 100) ∧
    ((cm.addMessages sessionId entries).messagesOf sessionId).length = min entries.length 100 ∧
    ((cm.addMessages sessionId entries).messagesOf sessionId).length ≤ 100 ∧
    (entries.length = 101 →
      (cm.addMessages sessionId entries).messagesOf sessionId = (entries.map Prod.fst).tail ∧
      ((cm.addMessages sessionId entries).messagesOf sessionId).getLast? =
        (entries.map Prod.fst).getLast?) := by
  have h0 : cm.messagesOf sessionId = [] := by simp [CampaignMemory.messagesOf, h]
  have key := CampaignMemory.messagesOf_addMessages cm sessionId entries (by simp [h0])
  rw [h0, List.nil_append] at key
  have hdrop := drop_sub_min 100 (entries.map Prod.fst)
  rw [List.length_map] at hdrop
  refine ⟨by rw [key, hdrop], by rw [key, sliceLast_length]; simp, by
    rw [key, sliceLast_length]; omega, ?_⟩
  intro h101
  have htail : sliceLast 100 (entries.map Prod.fst) = (entries.map Prod.fst).tail := by
    simp [sliceLast, h101]
  rw [key, htail]
  refine ⟨rfl, ?_⟩
  match entries, h101 with
  | e1 :: e2 :: rest, _ => simp [List.getLast?_cons_cons]

theorem addMessage_sliding_window_witness :
    (CampaignMemory.empty.addMessages "S1"
        ((List.range 101).map (fun i => (⟨some "Aria", toString i, none, none, i⟩, i)))
      ).messagesOf "S1" =
        (((List.range 101).map
          (fun i => ((⟨some "Aria", toString i, none, none, i⟩ : Message), i))).map Prod.fst).tail ∧
    ((CampaignMemory.empty.addMessages "S1"
        ((List.range 101).map (fun i => (⟨some "Aria", toString i, none, none, i⟩, i)))
      ).messagesOf "S1").getLast? =
        (((List.range 101).map
          (fun i => ((⟨some "Aria", toString i, none, none, i⟩ : Message), i))).map
            Prod.fst).getLast? :=
  (addMessage_sliding_window CampaignMemory.empty "S1"
    ((List.range 101).map (fun i => (⟨some "Aria", toString i, none, none, i⟩, i)))
    rfl).2.2.2 (by simp)

/-- C5: the messages returned by `getCampaignState` are exactly the last min(k, 20) of the
k retained entries of the session, in order; so the view never exceeds 20 entries. -/
theorem getCampaignState_recent (cm : CampaignMemory) (sessionId : String) :
    (cm.getCampaignState sessionId).messages =
        (cm.messagesOf sessionId).drop
          ((cm.messagesOf sessionId).length - min (cm.messagesOf sessionId).length 20) ∧
    (cm.getCampaignState sessionId).messages.length = min (cm.messagesOf sessionId).length 20 ∧
    (cm.getCampaignState sessionId).messages.length ≤ 20 := by
  have key : (cm.getCampaignState sessionId).messages = sliceLast 20 (cm.messagesOf sessionId) := by
    unfold CampaignMemory.getCampaignState CampaignMemory.messagesOf
    cases h : mapGet cm.campaigns sessionId with
    | none => simp [sliceLast]
    | some campaign => simp
  rw [key, drop_sub_min, sliceLast_length]
  exact ⟨rfl, rfl, by omega⟩

/-! ## Facts about the server state -/

namespace Server

theorem getSession_putSession_same (sv : Server) (sessionId : String) (session : Session) :
    (putSession sv sessionId session).sessionManager.getSession sessionId = some session := by
  simp [putSession, SessionManager.getSession, mapGet_mapSet_same]

theorem getSession_putSession_other (sv : Server) (sessionId other : String)
    (session : Session) (h : other ≠ sessionId) :
    (putSession sv sessionId session).sessionManager.getSession other =
      sv.sessionManager.getSession other := by
  simp [putSession, SessionManager.getSession, mapGet_mapSet_other _ _ _ _ h]

theorem mem_members_joinRoom (sv : Server) (sock room : String) :
    sock ∈ (joinRoom sv sock room).members room := by
  unfold joinRoom members
  split
  · rename_i h
    simp only [List.mem_map, List.mem_filter]
    exact ⟨(room, sock), ⟨h, by simp⟩, rfl⟩
  · simp

/-- When `roll` throws, no call of `Math.random()` has been made. -/
theorem roll_error_pos (rng : RandomSource) (pos : Nat) (notn : String) (msg : String)
    (h : (DiceRoller.roll rng pos notn).1 = .error msg) :
    (DiceRoller.roll rng pos notn).2 = pos := by
  cases hm : matchDice (trim (toLowerCase notn.toList)) with
  | none => rw [DiceRoller.roll_of_no_match rng pos notn hm]
  | some m =>
    by_cases hc : parseInt m.count < 1 ∨ parseInt m.count > 100
    · rw [DiceRoller.roll_of_bad_count rng pos notn m hm hc]
    · by_cases hs : parseInt m.sides < 2 ∨ parseInt m.sides > 1000
      · rw [DiceRoller.roll_of_bad_sides rng pos notn m hm hc hs]
      · obtain ⟨res, p, hok⟩ := DiceRoller.roll_ok_of_checks rng pos notn m hm hc hs
        rw [hok] at h
        cases h

end Server

/-! ## The socket handlers -/

/-- C6: on an existing session with isActive = false, `player:join` from any connection and
with any name emits the error 'Session is not active' to the sender alone and changes
nothing: the session, its roster included, and the rest of the server state are as before. -/
theorem playerJoin_inactive_rejected (sv : Server) (sock sessionId : String)
    (name : Option String) (session : Session)
    (hs : sv.sessionManager.getSession sessionId = some session)
    (hi : session.isActive = false) :
    sv.onPlayerJoin sock sessionId name =
      (sv, [⟨.socket sock, [sock], .error "Session is not active"⟩]) ∧
    (sv.onPlayerJoin sock sessionId name).1.sessionManager.getSession sessionId =
      some session := by
  have h : sv.onPlayerJoin sock sessionId name =
      (sv, [⟨.socket sock, [sock], .error "Session is not active"⟩]) := by
    unfold Server.onPlayerJoin
    simp [hs, hi, Server.toSocket]
  exact ⟨h, by rw [h]; exact hs⟩

theorem playerJoin_inactive_rejected_witness :
    scenarioCreated.onPlayerJoin "c1" "S1" (some "Aria") =
      (scenarioCreated, [⟨.socket "c1", ["c1"], .error "Session is not active"⟩]) ∧
    (scenarioCreated.onPlayerJoin "c1" "S1" (some "Aria")).1.sessionManager.getSession "S1" =
      some ⟨"S1", [], none, false, 0⟩ :=
  playerJoin_inactive_rejected scenarioCreated "c1" "S1" (some "Aria")
    ⟨"S1", [], none, false, 0⟩ (by decide) rfl

/-- C7: a request that fails validation is answered by exactly one error event, sent to the
requesting connection alone, with no broadcast and no change of the server state (session
store, event logs, draws made): `dm:join` and `player:join` naming a session that does not
exist, and `dice:roll` on an existing session with a notation that `roll` rejects, which
includes every notation that violates the grammar or the bounds once lower-cased and
trimmed. -/
theorem validation_failure_private (rng : RandomSource) (sv : Server)
    (sock sessionId notn : String) (name roller : Option String) (now : Nat) :
    (sv.sessionManager.getSession sessionId = none →
      sv.onDmJoin sock sessionId =
        (sv, [⟨.socket sock, [sock], .error "Session not found"⟩]) ∧
      sv.onPlayerJoin sock sessionId name =
        (sv, [⟨.socket sock, [sock], .error "Session not found"⟩])) ∧
    ((∃ session, sv.sessionManager.getSession sessionId = some session) →
      (∃ msg, (DiceRoller.roll rng sv.randomCalls notn).1 = .error msg) →
      sv.onDiceRoll rng sock sessionId notn roller now =
        (sv, [⟨.socket sock, [sock], .error "Invalid dice notation"⟩])) ∧
    ((∃ session, sv.sessionManager.getSession sessionId = some session) →
      ¬ ValidDice (trim (toLowerCase notn.toList)) →
      sv.onDiceRoll rng sock sessionId notn roller now =
        (sv, [⟨.socket sock, [sock], .error "Invalid dice notation"⟩])) := by
  have hdice : (∃ session, sv.sessionManager.getSession sessionId = some session) →
      (∃ msg, (DiceRoller.roll rng sv.randomCalls notn).1 = .error msg) →
      sv.onDiceRoll rng sock sessionId notn roller now =
        (sv, [⟨.socket sock, [sock], .error "Invalid dice notation"⟩]) := by
    rintro ⟨session, hs⟩ ⟨msg, hmsg⟩
    have hpos := Server.roll_error_pos rng sv.randomCalls notn msg hmsg
    unfold Server.onDiceRoll
    simp only [hs]
    generalize hr : DiceRoller.roll rng sv.randomCalls notn = r at hmsg hpos
    obtain ⟨res, calls⟩ := r
    simp only at hmsg hpos
    subst hmsg hpos
    simp [Server.toSocket]
  refine ⟨?_, hdice, ?_⟩
  · intro hs
    constructor
    · unfold Server.onDmJoin
      simp [hs, Server.toSocket]
    · unfold Server.onPlayerJoin
      simp [hs, Server.toSocket]
  · intro hs hbad
    obtain ⟨msg, hmsg⟩ := roll_error_of_invalid rng sv.randomCalls notn hbad
    exact hdice hs ⟨msg, by rw [hmsg]⟩

theorem validation_failure_private_witness :
    (scenarioAria.onDmJoin "c2" "S2" =
        (scenarioAria, [⟨.socket "c2", ["c2"], .error "Session not found"⟩]) ∧
      scenarioAria.onPlayerJoin "c2" "S2" (some "Bran") =
        (scenarioAria, [⟨.socket "c2", ["c2"], .error "Session not found"⟩])) ∧
    scenarioAria.onDiceRoll stubFourFive "c1" "S1" "1d" none 7 =
      (scenarioAria, [⟨.socket "c1", ["c1"], .error "Invalid dice notation"⟩]) ∧
    scenarioAria.onDiceRoll stubFourFive "c1" "S1" "d20" none 7 =
      (scenarioAria, [⟨.socket "c1", ["c1"], .error "Invalid dice notation"⟩]) :=
  ⟨(validation_failure_private stubFourFive scenarioAria "c2" "S2" "1d" (some "Bran") none 7).1
      (by decide),
   (validation_failure_private stubFourFive scenarioAria "c1" "S1" "1d" none none 7).2.1
      ⟨⟨"S1", [⟨"c1", "Aria", 20, 15, 1⟩], some "dm", true, 0⟩, by decide⟩ ⟨_, rfl⟩,
   (validation_failure_private stubFourFive scenarioAria "c1" "S1" "d20" none none 7).2.2
      ⟨⟨"S1", [⟨"c1", "Aria", 20, 15, 1⟩], some "dm", true, 0⟩, by decide⟩
      (not_valid_of_head _ 'd' rfl (by decide))⟩

/-- C8: on an existing active session, `player:join` from connection `sock` with a
non-empty name `n` appends exactly the participant (id sock, name n, hp 20, ac 15, level 1)
to the end of the roster, the earlier participants unchanged; it broadcasts `player:joined`
to the session room, whose members now include the sender, with the new participant and the
updated roster, and then replies to the sender alone with `player:welcome`, carrying the
participant and the campaign snapshot. Other sessions and the campaign memory are
unchanged; from an empty roster the roster becomes that single participant. -/
theorem playerJoin_active_appends (sv : Server) (sock sessionId n : String) (session : Session)
    (hs : sv.sessionManager.getSession sessionId = some session)
    (ha : session.isActive = true) (hn : n ≠ "") :
    ∃ (sv1 : Server) (recipients : List String),
      sv.onPlayerJoin sock sessionId (some n) =
        (sv1,
          [⟨.room (Server.roomOf sessionId), recipients,
              .playerJoined ⟨sock, n, 20, 15, 1⟩ (session.players ++ [⟨sock, n, 20, 15, 1⟩])⟩,
           ⟨.socket sock, [sock],
              .playerWelcome sessionId ⟨sock, n, 20, 15, 1⟩
                (sv.campaignMemory.getCampaignState sessionId)⟩]) ∧
      sv1.sessionManager.getSession sessionId =
        some { session with players := session.players ++ [⟨sock, n, 20, 15, 1⟩] } ∧
      recipients = sv1.members (Server.roomOf sessionId) ∧ sock ∈ recipients ∧
      (∀ other, other ≠ sessionId →
        sv1.sessionManager.getSession other = sv.sessionManager.getSession other) ∧
      sv1.campaignMemory = sv.campaignMemory ∧
      (session.players = [] →
        (sv1.sessionManager.getSession sessionId).map Session.players =
          some [⟨sock, n, 20, 15, 1⟩]) := by
  have hget := Server.getSession_putSession_same sv sessionId
    { session with players := session.players ++ [⟨sock, n, 20, 15, 1⟩] }
  have hmem := Server.mem_members_joinRoom (Server.putSession sv sessionId
    { session with players := session.players ++ [⟨sock, n, 20, 15, 1⟩] }) sock
    (Server.roomOf sessionId)
  have hget1 : (Server.setConn (Server.joinRoom (Server.putSession sv sessionId
      { session with players := session.players ++ [⟨sock, n, 20, 15, 1⟩] }) sock
      (Server.roomOf sessionId)) sock ⟨some sessionId, some n⟩).sessionManager.getSession
      sessionId = some { session with players := session.players ++ [⟨sock, n, 20, 15, 1⟩] } := by
    simpa [Server.setConn, Server.joinRoom, apply_ite] using hget
  refine ⟨Server.setConn (Server.joinRoom (Server.putSession sv sessionId
      { session with players := session.players ++ [⟨sock, n, 20, 15, 1⟩] }) sock
      (Server.roomOf sessionId)) sock ⟨some sessionId, some n⟩,
    (Server.setConn (Server.joinRoom (Server.putSession sv sessionId
      { session with players := session.players ++ [⟨sock, n, 20, 15, 1⟩] }) sock
      (Server.roomOf sessionId)) sock ⟨some sessionId, some n⟩).members (Server.roomOf sessionId),
    ?_, hget1, rfl, ?_, ?_, ?_, ?_⟩
  · have hcm : (Server.setConn (Server.joinRoom (Server.putSession sv sessionId
        { session with players := session.players ++ [⟨sock, n, 20, 15, 1⟩] }) sock
        (Server.roomOf sessionId)) sock ⟨some sessionId, some n⟩).campaignMemory =
        sv.campaignMemory := by
      simp [Server.setConn, Server.joinRoom, Server.putSession, apply_ite]
    unfold Server.onPlayerJoin
    simp only [hs]
    rw [if_neg (by simp [ha])]
    simp only [if_neg hn, Server.toRoom, Server.toSocket, hcm]
  · simpa [Server.setConn, Server.members] using hmem
  · intro other hne
    have := Server.getSession_putSession_other sv sessionId other
      { session with players := session.players ++ [⟨sock, n, 20, 15, 1⟩] } hne
    simpa [Server.setConn, Server.joinRoom, apply_ite] using this
  · simp [Server.setConn, Server.joinRoom, Server.putSession, apply_ite]
  · intro hempty
    rw [hget1, hempty]
    rfl

theorem playerJoin_active_appends_witness :
    ∃ (sv1 : Server) (recipients : List String),
      scenarioStarted.onPlayerJoin "c1" "S1" (some "Aria") =
        (sv1,
          [⟨.room "session:S1", recipients,
              .playerJoined ⟨"c1", "Aria", 20, 15, 1⟩ [⟨"c1", "Aria", 20, 15, 1⟩]⟩,
           ⟨.socket "c1", ["c1"],
              .playerWelcome "S1" ⟨"c1", "Aria", 20, 15, 1⟩
                ⟨[], none, none, none, "New campaign - no history yet."⟩⟩]) ∧
      sv1.sessionManager.getSession "S1" =
        some ⟨"S1", [⟨"c1", "Aria", 20, 15, 1⟩], some "dm", true, 0⟩ ∧
      recipients = sv1.members "session:S1" ∧ "c1" ∈ recipients ∧
      (∀ other, other ≠ "S1" →
        sv1.sessionManager.getSession other = scenarioStarted.sessionManager.getSession other) ∧
      sv1.campaignMemory = scenarioStarted.campaignMemory ∧
      ((⟨"S1", [], some "dm", true, 0⟩ : Session).players = [] →
        (sv1.sessionManager.getSession "S1").map Session.players =
          some [⟨"c1", "Aria", 20, 15, 1⟩]) :=
  playerJoin_active_appends scenarioStarted "c1" "S1" "Aria" ⟨"S1", [], some "dm", true, 0⟩
    (by decide) rfl (by decide)

/-- C9: on an existing session, `dice:roll` with a valid notation rolls the dice, appends
exactly one entry to the event log of that session (it becomes the last entry; the log keeps
its last 100 entries), the entry tagged 'dice' and carrying the roll result as details, and
broadcasts `dice:result` with that same result to the session room; the logs of other
sessions and the session store are unchanged. With the notation "2d6+3" and stubbed draws 4 and 5 the result is numDice 2,
sides 6, modifier 3, rolls [4,5], sum 9, total 12. -/
theorem diceRoll_logged_and_broadcast (rng : RandomSource) (sv : Server)
    (sock sessionId notn : String) (roller : Option String) (now : Nat) (session : Session)
    (hs : sv.sessionManager.getSession sessionId = some session)
    (hv : ValidDice (toLowerCase notn.toList)) :
    (∃ (result : RollResult) (calls : Nat),
      DiceRoller.roll rng sv.randomCalls notn = (.ok result, calls) ∧
      (Server.diceMessage (sv.rollerName sock roller) notn result now).kind = some "dice" ∧
      (Server.diceMessage (sv.rollerName sock roller) notn result now).details = some result ∧
      (sv.onDiceRoll rng sock sessionId notn roller now).2 =
        [⟨.room (Server.roomOf sessionId), sv.members (Server.roomOf sessionId),
          .diceResult (sv.rollerName sock roller) notn result⟩] ∧
      (sv.onDiceRoll rng sock sessionId notn roller now).1.campaignMemory.messagesOf sessionId =
        sliceLast 100 (sv.campaignMemory.messagesOf sessionId ++
          [Server.diceMessage (sv.rollerName sock roller) notn result now]) ∧
      ((sv.onDiceRoll rng sock sessionId notn roller now).1.campaignMemory.messagesOf
          sessionId).getLast? =
        some (Server.diceMessage (sv.rollerName sock roller) notn result now) ∧
      ((sv.campaignMemory.messagesOf sessionId).length < 100 →
        (sv.onDiceRoll rng sock sessionId notn roller now).1.campaignMemory.messagesOf sessionId =
          sv.campaignMemory.messagesOf sessionId ++
            [Server.diceMessage (sv.rollerName sock roller) notn result now]) ∧
      (∀ other, other ≠ sessionId →
        (sv.onDiceRoll rng sock sessionId notn roller now).1.campaignMemory.messagesOf other =
          sv.campaignMemory.messagesOf other) ∧
      (sv.onDiceRoll rng sock sessionId notn roller now).1.sessionManager = sv.sessionManager) ∧
    DiceRoller.roll stubFourFive 0 "2d6+3" = (.ok ⟨"2d6+3", 2, 6, 3, [4, 5], 9, 12⟩, 2) := by
  refine ⟨?_, rfl⟩
  obtain ⟨result, count, hroll⟩ := roll_ok_of_valid rng sv.randomCalls notn hv
  have hstep : sv.onDiceRoll rng sock sessionId notn roller now =
      ({ sv with
          campaignMemory := sv.campaignMemory.addMessage sessionId
            (Server.diceMessage (sv.rollerName sock roller) notn result now) now,
          randomCalls := sv.randomCalls + count },
        [⟨.room (Server.roomOf sessionId), sv.members (Server.roomOf sessionId),
          .diceResult (sv.rollerName sock roller) notn result⟩]) := by
    unfold Server.onDiceRoll
    simp only [hs, hroll, Server.toRoom, Server.members]
  refine ⟨result, _, hroll, rfl, rfl, ?_, ?_, ?_, ?_, ?_, ?_⟩
  · rw [hstep]
  · rw [hstep]
    exact CampaignMemory.messagesOf_addMessage_slice _ _ _ _
  · rw [hstep]
    simp only
    rw [CampaignMemory.messagesOf_addMessage_slice]
    exact getLast_sliceLast_snoc 99 _ _
  · intro hlt
    rw [hstep]
    simp only
    rw [CampaignMemory.messagesOf_addMessage_slice, sliceLast_of_le]
    simp
    omega
  · intro other hne
    rw [hstep]
    exact CampaignMemory.messagesOf_addMessage_other _ _ _ _ _ hne
  · rw [hstep]

theorem diceRoll_logged_and_broadcast_witness :
    (∃ (result : RollResult) (calls : Nat),
      DiceRoller.roll stubFourFive scenarioAria.randomCalls "2d6+3" = (.ok result, calls) ∧
      (Server.diceMessage (scenarioAria.rollerName "c1" none) "2d6+3" result 7).kind =
        some "dice" ∧
      (Server.diceMessage (scenarioAria.rollerName "c1" none) "2d6+3" result 7).details =
        some result ∧
      (scenarioAria.onDiceRoll stubFourFive "c1" "S1" "2d6+3" none 7).2 =
        [⟨.room (Server.roomOf "S1"), scenarioAria.members (Server.roomOf "S1"),
          .diceResult (scenarioAria.rollerName "c1" none) "2d6+3" result⟩] ∧
      (scenarioAria.onDiceRoll stubFourFive "c1" "S1" "2d6+3" none 7).1.campaignMemory.messagesOf
          "S1" =
        sliceLast 100 (scenarioAria.campaignMemory.messagesOf "S1" ++
          [Server.diceMessage (scenarioAria.rollerName "c1" none) "2d6+3" result 7]) ∧
      ((scenarioAria.onDiceRoll stubFourFive "c1" "S1" "2d6+3" none 7).1.campaignMemory.messagesOf
          "S1").getLast? =
        some (Server.diceMessage (scenarioAria.rollerName "c1" none) "2d6+3" result 7) ∧
      ((scenarioAria.campaignMemory.messagesOf "S1").length < 100 →
        (scenarioAria.onDiceRoll stubFourFive "c1" "S1" "2d6+3" none 7).1.campaignMemory.messagesOf
            "S1" =
          scenarioAria.campaignMemory.messagesOf "S1" ++
            [Server.diceMessage (scenarioAria.rollerName "c1" none) "2d6+3" result 7]) ∧
      (∀ other, other ≠ "S1" →
        (scenarioAria.onDiceRoll stubFourFive "c1" "S1" "2d6+3" none 7).1.campaignMemory.messagesOf
            other =
          scenarioAria.campaignMemory.messagesOf other) ∧
      (scenarioAria.onDiceRoll stubFourFive "c1" "S1" "2d6+3" none 7).1.sessionManager =
        scenarioAria.sessionManager) ∧
    DiceRoller.roll stubFourFive 0 "2d6+3" = (.ok ⟨"2d6+3", 2, 6, 3, [4, 5], 9, 12⟩, 2) :=
  diceRoll_logged_and_broadcast stubFourFive scenarioAria "c1" "S1" "2d6+3" none 7
    ⟨"S1", [⟨"c1", "Aria", 20, 15, 1⟩], some "dm", true, 0⟩ (by decide)
    ⟨2, 6, 3, ⟨['2'], ['6'], by simp [IsDigits], by simp [IsDigits],
      by simp [decimalValue, digitVal], by simp [decimalValue, digitVal],
      Or.inr ⟨['3'], by simp [IsDigits], Or.inl ⟨by decide, by simp [decimalValue, digitVal]⟩⟩⟩,
      by decide, by decide, by decide, by decide⟩

/-- C10: on an existing session, `session:start` takes effect exactly when the caller is the
bound facilitator. From the bound facilitator it sets isActive = true, leaves the roster,
the facilitator binding and the campaign memory as they are, and broadcasts
`session:started`, which has no payload, to the session room. From any other connection the
state is unchanged and nothing is emitted, not even an error. -/
theorem sessionStart_facilitator_only (sv : Server) (sock sessionId : String)
    (session : Session) (hs : sv.sessionManager.getSession sessionId = some session) :
    (session.dmSocketId = some sock →
      sv.onSessionStart sock sessionId =
        (sv.putSession sessionId { session with isActive := true },
          [⟨.room (Server.roomOf sessionId), sv.members (Server.roomOf sessionId),
            .sessionStarted⟩]) ∧
      (sv.onSessionStart sock sessionId).1.sessionManager.getSession sessionId =
        some ⟨session.id, session.players, session.dmSocketId, true, session.createdAt⟩ ∧
      (sv.onSessionStart sock sessionId).1.campaignMemory = sv.campaignMemory) ∧
    (session.dmSocketId ≠ some sock → sv.onSessionStart sock sessionId = (sv, [])) := by
  constructor
  · intro hdm
    have hstep : sv.onSessionStart sock sessionId =
        (sv.putSession sessionId { session with isActive := true },
          [⟨.room (Server.roomOf sessionId), sv.members (Server.roomOf sessionId),
            .sessionStarted⟩]) := by
      unfold Server.onSessionStart
      simp only [hs, hdm, ne_eq, not_true_eq_false, if_false, Server.toRoom, Server.members,
        Server.putSession]
    refine ⟨hstep, ?_, ?_⟩
    · rw [hstep]
      exact Server.getSession_putSession_same sv sessionId _
    · rw [hstep]
      rfl
  · intro hdm
    unfold Server.onSessionStart
    simp only [hs, hdm, ne_eq, not_false_eq_true, if_true]

theorem sessionStart_facilitator_only_witness :
    ((scenarioCreated.onDmJoin "dm" "S1").1.onSessionStart "dm" "S1" =
        ((scenarioCreated.onDmJoin "dm" "S1").1.putSession "S1" ⟨"S1", [], some "dm", true, 0⟩,
          [⟨.room "session:S1", ["dm"], .sessionStarted⟩]) ∧
      ((scenarioCreated.onDmJoin "dm" "S1").1.onSessionStart "dm" "S1").1.sessionManager.getSession
          "S1" = some ⟨"S1", [], some "dm", true, 0⟩ ∧
      ((scenarioCreated.onDmJoin "dm" "S1").1.onSessionStart "dm" "S1").1.campaignMemory =
        (scenarioCreated.onDmJoin "dm" "S1").1.campaignMemory) ∧
    (scenarioCreated.onDmJoin "dm" "S1").1.onSessionStart "c1" "S1" =
      ((scenarioCreated.onDmJoin "dm" "S1").1, []) :=
  ⟨(sessionStart_facilitator_only (scenarioCreated.onDmJoin "dm" "S1").1 "dm" "S1"
      ⟨"S1", [], some "dm", false, 0⟩ (by decide)).1 rfl,
   (sessionStart_facilitator_only (scenarioCreated.onDmJoin "dm" "S1").1 "c1" "S1"
      ⟨"S1", [], some "dm", false, 0⟩ (by decide)).2 (by decide)⟩

/-- C11: on an existing session, `dm:narrate` takes effect exactly when the caller is the
bound facilitator. From the bound facilitator it appends exactly one entry, with speaker
'DM' and the given text, to the event log of the session (it becomes the last entry; the log
keeps its last 100 entries) and broadcasts `dm:narration` with that text to the session
room; other logs and the session store are unchanged. From any other connection the state
is unchanged and nothing is emitted. -/
theorem dmNarrate_facilitator_only (sv : Server) (sock sessionId text : String) (now : Nat)
    (session : Session) (hs : sv.sessionManager.getSession sessionId = some session) :
    (session.dmSocketId = some sock →
      (sv.onDmNarrate sock sessionId text now).2 =
        [⟨.room (Server.roomOf sessionId), sv.members (Server.roomOf sessionId),
          .dmNarration text⟩] ∧
      (sv.onDmNarrate sock sessionId text now).1.campaignMemory.messagesOf sessionId =
        sliceLast 100 (sv.campaignMemory.messagesOf sessionId ++
          [⟨some "DM", text, none, none, now⟩]) ∧
      ((sv.onDmNarrate sock sessionId text now).1.campaignMemory.messagesOf sessionId).getLast? =
        some ⟨some "DM", text, none, none, now⟩ ∧
      ((sv.campaignMemory.messagesOf sessionId).length < 100 →
        (sv.onDmNarrate sock sessionId text now).1.campaignMemory.messagesOf sessionId =
          sv.campaignMemory.messagesOf sessionId ++ [⟨some "DM", text, none, none, now⟩]) ∧
      (∀ other, other ≠ sessionId →
        (sv.onDmNarrate sock sessionId text now).1.campaignMemory.messagesOf other =
          sv.campaignMemory.messagesOf other) ∧
      (sv.onDmNarrate sock sessionId text now).1.sessionManager = sv.sessionManager) ∧
    (session.dmSocketId ≠ some sock → sv.onDmNarrate sock sessionId text now = (sv, [])) := by
  constructor
  · intro hdm
    have hstep : sv.onDmNarrate sock sessionId text now =
        ({ sv with campaignMemory :=
            sv.campaignMemory.addMessage sessionId ⟨some "DM", text, none, none, now⟩ now },
          [⟨.room (Server.roomOf sessionId), sv.members (Server.roomOf sessionId),
            .dmNarration text⟩]) := by
      unfold Server.onDmNarrate
      simp only [hs, hdm, ne_eq, not_true_eq_false, if_false, Server.toRoom, Server.members]
    rw [hstep]
    refine ⟨rfl, CampaignMemory.messagesOf_addMessage_slice _ _ _ _, ?_, ?_, ?_, rfl⟩
    · simp only
      rw [CampaignMemory.messagesOf_addMessage_slice]
      exact getLast_sliceLast_snoc 99 _ _
    · intro hlt
      simp only
      rw [CampaignMemory.messagesOf_addMessage_slice, sliceLast_of_le]
      simp
      omega
    · intro other hne
      exact CampaignMemory.messagesOf_addMessage_other _ _ _ _ _ hne
  · intro hdm
    unfold Server.onDmNarrate
    simp only [hs, hdm, ne_eq, not_false_eq_true, if_true]

theorem dmNarrate_facilitator_only_witness :
    ((scenarioAria.onDmNarrate "dm" "S1" "A door creaks." 9).2 =
        [⟨.room "session:S1", ["dm", "c1"], .dmNarration "A door creaks."⟩] ∧
      (scenarioAria.onDmNarrate "dm" "S1" "A door creaks." 9).1.campaignMemory.messagesOf "S1" =
        [⟨some "DM", "A door creaks.", none, none, 9⟩]) ∧
    scenarioAria.onDmNarrate "c1" "S1" "A door creaks." 9 = (scenarioAria, []) :=
  ⟨⟨((dmNarrate_facilitator_only scenarioAria "dm" "S1" "A door creaks." 9
        ⟨"S1", [⟨"c1", "Aria", 20, 15, 1⟩], some "dm", true, 0⟩ (by decide)).1 rfl).1,
    ((dmNarrate_facilitator_only scenarioAria "dm" "S1" "A door creaks." 9
        ⟨"S1", [⟨"c1", "Aria", 20, 15, 1⟩], some "dm", true, 0⟩ (by decide)).1 rfl).2.2.2.1
      (by decide)⟩,
   (dmNarrate_facilitator_only scenarioAria "c1" "S1" "A door creaks." 9
      ⟨"S1", [⟨"c1", "Aria", 20, 15, 1⟩], some "dm", true, 0⟩ (by decide)).2 (by decide)⟩

/-! ## Facts about the `disconnect` handler -/

/-- A list either has no element with a property, or splits at the first element with it. -/
theorem split_at_first {α : Type} (p : α → Bool) (l : List α) :
    (∀ q ∈ l, p q = false) ∨
    ∃ pre x post, l = pre ++ x :: post ∧ p x = true ∧ ∀ q ∈ pre, p q = false := by
  induction l with
  | nil => exact Or.inl (by simp)
  | cons a rest ih =>
    by_cases ha : p a = true
    · exact Or.inr ⟨[], a, rest, rfl, ha, by simp⟩
    · rcases ih with h | ⟨pre, x, post, hl, hx, hpre⟩
      · left
        intro q hq
        rcases List.mem_cons.1 hq with rfl | hq
        · simpa using ha
        · exact h q hq
      · right
        refine ⟨a :: pre, x, post, by simp [hl], hx, ?_⟩
        intro q hq
        rcases List.mem_cons.1 hq with rfl | hq
        · simpa using ha
        · exact hpre q hq

namespace Server

theorem conn_leaveRooms (sv : Server) (sock other : String) :
    (leaveRooms sv sock).conn other = sv.conn other := rfl

theorem sessionManager_leaveRooms (sv : Server) (sock : String) :
    (leaveRooms sv sock).sessionManager = sv.sessionManager := rfl

/-- The `disconnect` handler when the roster of the connection's current session splits at
the first participant with the connection's id. -/
theorem onDisconnect_first (sv : Server) (sock sessionId : String) (session : Session)
    (pre post : List Player) (p : Player)
    (hcur : (sv.conn sock).currentSession = some sessionId) (hne : sessionId ≠ "")
    (hs : sv.sessionManager.getSession sessionId = some session)
    (hpl : session.players = pre ++ p :: post) (hp : p.id = sock)
    (hpre : ∀ q ∈ pre, q.id ≠ sock) :
    sv.onDisconnect sock =
      if session.dmSocketId = some sock then
        (putSession (leaveRooms sv sock) sessionId
            { session with players := pre ++ post, isActive := false },
          [toRoom (leaveRooms sv sock) (roomOf sessionId) (.playerLeft p.name (pre ++ post)),
           toRoom (leaveRooms sv sock) (roomOf sessionId) (.sessionPaused "DM disconnected")])
      else
        (putSession (leaveRooms sv sock) sessionId { session with players := pre ++ post },
          [toRoom (leaveRooms sv sock) (roomOf sessionId)
            (.playerLeft p.name (pre ++ post))]) := by
  have hidx : session.players.findIdx? (fun q => decide (q.id = sock)) = some pre.length := by
    have hnone : pre.findIdx? (fun q => decide (q.id = sock)) = none := by
      simpa using hpre
    simp [hpl, hnone, hp]
  have hget : session.players.get? pre.length = some p := by
    rw [hpl, List.get?_eq_getElem?, List.getElem?_append_right (Nat.le_refl _)]
    simp
  have herase : session.players.eraseIdx pre.length = pre ++ post := by
    simp [hpl, List.eraseIdx_append_of_length_le]
  unfold onDisconnect
  simp only [conn_leaveRooms, sessionManager_leaveRooms, hcur, hne, if_false, hs, hidx, hget,
    herase]
  split <;> rfl

/-- The `disconnect` handler when no participant of the connection's current session has
the connection's id. -/
theorem onDisconnect_absent (sv : Server) (sock sessionId : String) (session : Session)
    (hcur : (sv.conn sock).currentSession = some sessionId) (hne : sessionId ≠ "")
    (hs : sv.sessionManager.getSession sessionId = some session)
    (hno : ∀ q ∈ session.players, q.id ≠ sock) :
    sv.onDisconnect sock =
      if session.dmSocketId = some sock then
        (putSession (leaveRooms sv sock) sessionId { session with isActive := false },
          [toRoom (leaveRooms sv sock) (roomOf sessionId) (.sessionPaused "DM disconnected")])
      else (putSession (leaveRooms sv sock) sessionId session, []) := by
  have hidx : session.players.findIdx? (fun q => decide (q.id = sock)) = none := by
    simpa using hno
  unfold onDisconnect
  simp only [conn_leaveRooms, sessionManager_leaveRooms, hcur, hne, if_false, hs, hidx]
  split <;> rfl

end Server

/-- After the socket has left its rooms, a room holds its other members, in order. -/
theorem Server.members_leaveRooms (sv : Server) (sock room : String) :
    (Server.leaveRooms sv sock).members room = (sv.members room).filter (fun m => m ≠ sock) := by
  unfold Server.members Server.leaveRooms
  simp only
  induction sv.rooms with
  | nil => rfl
  | cons e rest ih =>
    by_cases h1 : e.2 = sock <;> by_cases h2 : e.1 = room <;>
      simpa [List.filter_cons, h1, h2] using ih

/-- When connection `sock` is the bound facilitator of its current session (the session it
joined last), its disconnect sets isActive to false and broadcasts `session:paused` to the
session room, that is to the members other than `sock`; the participants other than `sock`
stay in the roster, in order. -/
theorem dm_disconnect_pauses (sv : Server) (sock sessionId : String) (session : Session)
    (hcur : (sv.conn sock).currentSession = some sessionId) (hne : sessionId ≠ "")
    (hs : sv.sessionManager.getSession sessionId = some session)
    (hdm : session.dmSocketId = some sock) :
    ∃ session1 : Session,
      (sv.onDisconnect sock).1.sessionManager.getSession sessionId = some session1 ∧
      session1.isActive = false ∧
      session1.players.filter (fun q => q.id ≠ sock) =
        session.players.filter (fun q => q.id ≠ sock) ∧
      (⟨.room (Server.roomOf sessionId),
          (sv.members (Server.roomOf sessionId)).filter (fun m => m ≠ sock),
          .sessionPaused "DM disconnected"⟩ : Emit) ∈ (sv.onDisconnect sock).2 := by
  rcases split_at_first (fun q : Player => decide (q.id = sock)) session.players with
    hno | ⟨pre, p, post, hpl, hp, hpre⟩
  · have hno1 : ∀ q ∈ session.players, q.id ≠ sock := by simpa using hno
    rw [Server.onDisconnect_absent sv sock sessionId session hcur hne hs hno1, if_pos hdm]
    refine ⟨_, Server.getSession_putSession_same _ _ _, rfl, rfl, ?_⟩
    simp [Server.toRoom, Server.members_leaveRooms]
  · have hp1 : p.id = sock := by simpa using hp
    have hpre1 : ∀ q ∈ pre, q.id ≠ sock := by simpa using hpre
    rw [Server.onDisconnect_first sv sock sessionId session pre post p hcur hne hs hpl hp1 hpre1,
      if_pos hdm]
    refine ⟨_, Server.getSession_putSession_same _ _ _, rfl, ?_, ?_⟩
    · simp [hpl, List.filter_append, List.filter_cons, hp1]
    · simp [Server.toRoom, Server.members_leaveRooms]

theorem dm_disconnect_pauses_witness :
    ∃ session1 : Session,
      (scenarioAria.onDisconnect "dm").1.sessionManager.getSession "S1" = some session1 ∧
      session1.isActive = false ∧
      session1.players.filter (fun q => q.id ≠ "dm") =
        (⟨"S1", [⟨"c1", "Aria", 20, 15, 1⟩], some "dm", true, 0⟩ : Session).players.filter
          (fun q => q.id ≠ "dm") ∧
      (⟨.room (Server.roomOf "S1"),
          (scenarioAria.members (Server.roomOf "S1")).filter (fun m => m ≠ "dm"),
          .sessionPaused "DM disconnected"⟩ : Emit) ∈ (scenarioAria.onDisconnect "dm").2 :=
  dm_disconnect_pauses scenarioAria "dm" "S1" ⟨"S1", [⟨"c1", "Aria", 20, 15, 1⟩], some "dm", true, 0⟩
    (by decide) (by decide) (by decide) rfl

/-- C12 fails on the code: connection `dm` sends `dm:join` for `S1` and starts it, then sends
`dm:join` for `S2` and starts it, and disconnects. It is the bound facilitator of both
sessions and a member of both rooms. Its disconnect pauses `S2` only, the session it joined
last: `S1` keeps isActive = true and its room, where Aria listens, receives no
`session:paused`. -/
theorem dm_disconnect_pauses_last_session_only :
    scenarioTwoSessions.sessionManager.getSession "S1" =
      some ⟨"S1", [⟨"c1", "Aria", 20, 15, 1⟩], some "dm", true, 0⟩ ∧
    scenarioTwoSessions.sessionManager.getSession "S2" = some ⟨"S2", [], some "dm", true, 1⟩ ∧
    scenarioTwoSessions.members "session:S1" = ["dm", "c1"] ∧
    scenarioTwoSessions.members "session:S2" = ["dm"] ∧
    (scenarioTwoSessions.onDisconnect "dm").1.sessionManager.getSession "S1" =
      some ⟨"S1", [⟨"c1", "Aria", 20, 15, 1⟩], some "dm", true, 0⟩ ∧
    (scenarioTwoSessions.onDisconnect "dm").1.sessionManager.getSession "S2" =
      some ⟨"S2", [], some "dm", false, 1⟩ ∧
    (scenarioTwoSessions.onDisconnect "dm").2 =
      [⟨.room "session:S2", [], .sessionPaused "DM disconnected"⟩] := by
  decide

theorem Server.sessionManager_joinRoom (sv : Server) (sock room : String) :
    (Server.joinRoom sv sock room).sessionManager = sv.sessionManager := by
  unfold Server.joinRoom
  split <;> rfl

/-- The session after a `dm:join`: the same session, bound to the caller. -/
theorem Server.getSession_onDmJoin (sv : Server) (sock sessionId : String) (session : Session)
    (hs : sv.sessionManager.getSession sessionId = some session) :
    (sv.onDmJoin sock sessionId).1.sessionManager.getSession sessionId =
      some { session with dmSocketId := some sock } := by
  unfold Server.onDmJoin
  simp only [hs, Server.setConn, Server.putSession, Server.sessionManager_joinRoom]
  simp [SessionManager.getSession, mapGet_mapSet_same]

/-- The session of the connection's current session after its `disconnect`, when the
connection is the bound facilitator: paused, the binding as before. -/
theorem Server.getSession_onDisconnect_dm (sv : Server) (sock sessionId : String)
    (session : Session)
    (hcur : (sv.conn sock).currentSession = some sessionId) (hne : sessionId ≠ "")
    (hs : sv.sessionManager.getSession sessionId = some session)
    (hdm : session.dmSocketId = some sock) :
    ∃ roster : List Player,
      (sv.onDisconnect sock).1.sessionManager.getSession sessionId =
        some ⟨session.id, roster, some sock, false, session.createdAt⟩ := by
  rcases split_at_first (fun q : Player => decide (q.id = sock)) session.players with
    hno | ⟨pre, p, post, hpl, hp, hpre⟩
  · have hno1 : ∀ q ∈ session.players, q.id ≠ sock := by simpa using hno
    rw [Server.onDisconnect_absent sv sock sessionId session hcur hne hs hno1, if_pos hdm]
    exact ⟨session.players, by rw [Server.getSession_putSession_same, hdm]⟩
  · have hp1 : p.id = sock := by simpa using hp
    have hpre1 : ∀ q ∈ pre, q.id ≠ sock := by simpa using hpre
    rw [Server.onDisconnect_first sv sock sessionId session pre post p hcur hne hs hpl hp1 hpre1,
      if_pos hdm]
    exact ⟨pre ++ post, by rw [Server.getSession_putSession_same, hdm]⟩

/-- The `disconnect` handler keeps every session in the store, with the facilitator binding
it had. -/
theorem Server.dmSocketId_onDisconnect (sv : Server) (sock sessionId : String)
    (session : Session) (hs : sv.sessionManager.getSession sessionId = some session) :
    ∃ session1 : Session,
      (sv.onDisconnect sock).1.sessionManager.getSession sessionId = some session1 ∧
      session1.dmSocketId = session.dmSocketId := by
  have hleave : (Server.leaveRooms sv sock).sessionManager.getSession sessionId =
      some session := hs
  cases hcur : (sv.conn sock).currentSession with
  | none =>
    have : sv.onDisconnect sock = (Server.leaveRooms sv sock, []) := by
      unfold Server.onDisconnect
      simp only [Server.conn_leaveRooms, hcur]
    rw [this]
    exact ⟨session, hleave, rfl⟩
  | some cur =>
    by_cases hne : cur = ""
    · have : sv.onDisconnect sock = (Server.leaveRooms sv sock, []) := by
        unfold Server.onDisconnect
        simp only [Server.conn_leaveRooms, hcur, hne, if_true]
      rw [this]
      exact ⟨session, hleave, rfl⟩
    · cases hc : sv.sessionManager.getSession cur with
      | none =>
        have : sv.onDisconnect sock = (Server.leaveRooms sv sock, []) := by
          unfold Server.onDisconnect
          simp only [Server.conn_leaveRooms, Server.sessionManager_leaveRooms, hcur, hne,
            if_false, hc]
        rw [this]
        exact ⟨session, hleave, rfl⟩
      | some current =>
        by_cases hsame : sessionId = cur
        · subst hsame
          have heq : current = session := Option.some.inj (hc.symm.trans hs)
          subst heq
          rcases split_at_first (fun q : Player => decide (q.id = sock)) current.players with
            hno | ⟨pre, p, post, hpl, hp, hpre⟩
          · have hno1 : ∀ q ∈ current.players, q.id ≠ sock := by simpa using hno
            rw [Server.onDisconnect_absent sv sock sessionId current hcur hne hc hno1]
            split
            · exact ⟨_, Server.getSession_putSession_same _ _ _, rfl⟩
            · exact ⟨_, Server.getSession_putSession_same _ _ _, rfl⟩
          · have hp1 : p.id = sock := by simpa using hp
            have hpre1 : ∀ q ∈ pre, q.id ≠ sock := by simpa using hpre
            rw [Server.onDisconnect_first sv sock sessionId current pre post p hcur hne hc hpl
              hp1 hpre1]
            split
            · exact ⟨_, Server.getSession_putSession_same _ _ _, rfl⟩
            · exact ⟨_, Server.getSession_putSession_same _ _ _, rfl⟩
        · rcases split_at_first (fun q : Player => decide (q.id = sock)) current.players with
            hno | ⟨pre, p, post, hpl, hp, hpre⟩
          · have hno1 : ∀ q ∈ current.players, q.id ≠ sock := by simpa using hno
            rw [Server.onDisconnect_absent sv sock cur current hcur hne hc hno1]
            split
            · exact ⟨session, by rw [Server.getSession_putSession_other _ _ _ _ hsame]
                                 exact hleave, rfl⟩
            · exact ⟨session, by rw [Server.getSession_putSession_other _ _ _ _ hsame]
                                 exact hleave, rfl⟩
          · have hp1 : p.id = sock := by simpa using hp
            have hpre1 : ∀ q ∈ pre, q.id ≠ sock := by simpa using hpre
            rw [Server.onDisconnect_first sv sock cur current pre post p hcur hne hc hpl hp1
              hpre1]
            split
            · exact ⟨session, by rw [Server.getSession_putSession_other _ _ _ _ hsame]
                                 exact hleave, rfl⟩
            · exact ⟨session, by rw [Server.getSession_putSession_other _ _ _ _ hsame]
                                 exact hleave, rfl⟩

/-- C13, as stated, fails: in the scenario, connection `dm` is the bound facilitator of `S1`
and joined to it; after its disconnect the session still has `dmSocketId` = `dm`, not
`null`. -/
theorem dm_binding_survives_disconnect :
    (scenarioAria.sessionManager.getSession "S1").map Session.dmSocketId = some (some "dm") ∧
    (scenarioAria.conn "dm").currentSession = some "S1" ∧
    ((scenarioAria.onDisconnect "dm").1.sessionManager.getSession "S1").map Session.dmSocketId =
      some (some "dm") ∧
    ((scenarioAria.onDisconnect "dm").1.sessionManager.getSession "S1").map Session.dmSocketId ≠
      some none := by
  decide

/-- C13 (amended): for every session whose bound facilitator is connection `sock`, after the
disconnect of `sock` the binding is not cleared: the session still names `sock` as its
facilitator, although that connection is closed. Every other connection, which is every
connection still open, is not treated as the facilitator of the session (its `session:start`
and `dm:narrate` do nothing) until a new `dm:join`, which binds the session to its caller. -/
theorem dm_disconnect_keeps_binding (sv : Server) (sock sessionId : String) (session : Session)
    (hs : sv.sessionManager.getSession sessionId = some session)
    (hdm : session.dmSocketId = some sock) :
    ∃ session1 : Session,
      (sv.onDisconnect sock).1.sessionManager.getSession sessionId = some session1 ∧
      session1.dmSocketId = some sock ∧
      (∀ other text now, other ≠ sock →
        (sv.onDisconnect sock).1.onSessionStart other sessionId =
          ((sv.onDisconnect sock).1, []) ∧
        (sv.onDisconnect sock).1.onDmNarrate other sessionId text now =
          ((sv.onDisconnect sock).1, [])) ∧
      (∀ other,
        (((sv.onDisconnect sock).1.onDmJoin other sessionId).1.sessionManager.getSession
          sessionId).map Session.dmSocketId = some (some other)) := by
  obtain ⟨session1, hget, hbind⟩ := Server.dmSocketId_onDisconnect sv sock sessionId session hs
  rw [hdm] at hbind
  refine ⟨session1, hget, hbind, ?_, ?_⟩
  · intro other text now hother
    have hneq : session1.dmSocketId ≠ some other := by
      rw [hbind]
      intro h
      exact hother (Option.some.inj h).symm
    constructor
    · unfold Server.onSessionStart
      simp only [hget, ne_eq, hneq, not_false_eq_true, if_true]
    · unfold Server.onDmNarrate
      simp only [hget, ne_eq, hneq, not_false_eq_true, if_true]
  · intro other
    rw [Server.getSession_onDmJoin _ other sessionId _ hget]
    rfl

theorem dm_disconnect_keeps_binding_witness :
    ∃ session1 : Session,
      (scenarioTwoSessions.onDisconnect "dm").1.sessionManager.getSession "S1" =
        some session1 ∧
      session1.dmSocketId = some "dm" ∧
      (∀ other text now, other ≠ "dm" →
        (scenarioTwoSessions.onDisconnect "dm").1.onSessionStart other "S1" =
          ((scenarioTwoSessions.onDisconnect "dm").1, []) ∧
        (scenarioTwoSessions.onDisconnect "dm").1.onDmNarrate other "S1" text now =
          ((scenarioTwoSessions.onDisconnect "dm").1, [])) ∧
      (∀ other,
        (((scenarioTwoSessions.onDisconnect "dm").1.onDmJoin other "S1").1.sessionManager.getSession
          "S1").map Session.dmSocketId = some (some other)) :=
  dm_disconnect_keeps_binding scenarioTwoSessions "dm" "S1"
    ⟨"S1", [⟨"c1", "Aria", 20, 15, 1⟩], some "dm", true, 0⟩ (by decide) rfl

/-! ## Rosters along a run -/

namespace Server

theorem playerIds_of_sessionManager (sv1 sv2 : Server) (sessionId : String)
    (h : sv1.sessionManager = sv2.sessionManager) :
    sv1.playerIds sessionId = sv2.playerIds sessionId := by
  unfold playerIds
  rw [h]

theorem playerIds_putSession (sv : Server) (key sessionId : String) (session : Session) :
    (putSession sv key session).playerIds sessionId =
      if sessionId = key then session.players.map Player.id else sv.playerIds sessionId := by
  by_cases h : sessionId = key
  · subst h
    simp [playerIds, getSession_putSession_same]
  · simp [playerIds, getSession_putSession_other _ _ _ _ h, h]

theorem playerIds_of_getSession (sv : Server) (sessionId : String) (session : Session)
    (hs : sv.sessionManager.getSession sessionId = some session) :
    sv.playerIds sessionId = session.players.map Player.id := by
  simp [playerIds, hs]

theorem playerIds_createSession (sv : Server) (key sessionId : String) (now : Nat) :
    (createSession sv key now).playerIds sessionId =
      if sessionId = key then [] else sv.playerIds sessionId := by
  have h := playerIds_putSession sv key sessionId ⟨key, [], none, false, now⟩
  simpa [putSession, createSession, SessionManager.createSession] using h

theorem playerIds_onDmJoin (sv : Server) (sock key sessionId : String) :
    (sv.onDmJoin sock key).1.playerIds sessionId = sv.playerIds sessionId := by
  unfold onDmJoin
  cases hs : sv.sessionManager.getSession key with
  | none => rfl
  | some session =>
    simp only
    rw [playerIds_of_sessionManager _ (putSession sv key { session with dmSocketId := some sock })
      sessionId (by simp [setConn, putSession, sessionManager_joinRoom]), playerIds_putSession]
    split
    · rename_i h
      subst h
      rw [playerIds_of_getSession sv _ session hs]
    · rfl

theorem count_playerIds_onPlayerJoin (sv : Server) (sock key sessionId c : String)
    (name : Option String) :
    ((sv.onPlayerJoin sock key name).1.playerIds sessionId).count c ≤
      (sv.playerIds sessionId).count c + (if sock = c ∧ key = sessionId then 1 else 0) := by
  unfold onPlayerJoin
  cases hs : sv.sessionManager.getSession key with
  | none => simp
  | some session =>
    simp only
    split
    · simp
    · rw [playerIds_of_sessionManager _ (putSession sv key { session with
          players := session.players ++ [⟨sock, match name with
            | some n => if n = "" then "Player " ++ toString (session.players.length + 1) else n
            | none => "Player " ++ toString (session.players.length + 1), 20, 15, 1⟩] })
        sessionId (by simp [setConn, putSession, sessionManager_joinRoom]), playerIds_putSession]
      by_cases hk : sessionId = key
      · subst hk
        rw [if_pos rfl, playerIds_of_getSession sv _ session hs]
        by_cases hc : sock = c
        · simp [hc]
        · simp [hc, List.count_cons]
      · rw [if_neg hk]
        omega

theorem playerIds_onSessionStart (sv : Server) (sock key sessionId : String) :
    (sv.onSessionStart sock key).1.playerIds sessionId = sv.playerIds sessionId := by
  unfold onSessionStart
  cases hs : sv.sessionManager.getSession key with
  | none => rfl
  | some session =>
    simp only
    split
    · rfl
    · rw [playerIds_putSession]
      split
      · rename_i h
        subst h
        rw [playerIds_of_getSession sv _ session hs]
      · rfl

theorem playerIds_onDisconnect_sublist (sv : Server) (sock sessionId : String) :
    ((sv.onDisconnect sock).1.playerIds sessionId).Sublist (sv.playerIds sessionId) := by
  cases hcur : (sv.conn sock).currentSession with
  | none =>
    have : sv.onDisconnect sock = (leaveRooms sv sock, []) := by
      unfold onDisconnect
      simp only [conn_leaveRooms, hcur]
    rw [this]
    exact List.Sublist.refl _
  | some cur =>
    by_cases hne : cur = ""
    · have : sv.onDisconnect sock = (leaveRooms sv sock, []) := by
        unfold onDisconnect
        simp only [conn_leaveRooms, hcur, hne, if_true]
      rw [this]
      exact List.Sublist.refl _
    · cases hs : sv.sessionManager.getSession cur with
      | none =>
        have : sv.onDisconnect sock = (leaveRooms sv sock, []) := by
          unfold onDisconnect
          simp only [conn_leaveRooms, sessionManager_leaveRooms, hcur, hne, if_false, hs]
        rw [this]
        exact List.Sublist.refl _
      | some session =>
        have hold : (leaveRooms sv sock).playerIds sessionId = sv.playerIds sessionId := rfl
        rcases split_at_first (fun q : Player => decide (q.id = sock)) session.players with
          hno | ⟨pre, p, post, hpl, hp, hpre⟩
        · have hno1 : ∀ q ∈ session.players, q.id ≠ sock := by simpa using hno
          rw [onDisconnect_absent sv sock cur session hcur hne hs hno1]
          split <;>
          · simp only [playerIds_putSession, hold]
            split
            · rename_i h
              subst h
              rw [playerIds_of_getSession sv _ session hs]
            · exact List.Sublist.refl _
        · have hp1 : p.id = sock := by simpa using hp
          have hpre1 : ∀ q ∈ pre, q.id ≠ sock := by simpa using hpre
          rw [onDisconnect_first sv sock cur session pre post p hcur hne hs hpl hp1 hpre1]
          split <;>
          · simp only [playerIds_putSession, hold]
            split
            · rename_i h
              subst h
              rw [playerIds_of_getSession sv _ session hs, hpl]
              simp
            · exact List.Sublist.refl _

/-- One event adds at most one roster entry with a given connection id to a given session,
and only when it is a `player:join` of that connection for that session. -/
theorem count_playerIds_step (rng : RandomSource) (now : Nat) (sv : Server) (e : Event)
    (sessionId c : String) :
    ((step rng now sv e).1.playerIds sessionId).count c ≤
      (sv.playerIds sessionId).count c + (if e.isJoinOf c sessionId = true then 1 else 0) := by
  cases e with
  | create key =>
    simp only [step, playerIds_createSession]
    split <;> simp
  | dmJoin sock key => simp [step, playerIds_onDmJoin]
  | playerJoin sock key name =>
    have h := count_playerIds_onPlayerJoin sv sock key sessionId c name
    simpa [step, Event.isJoinOf] using h
  | playerVoice sock key text =>
    have h : (sv.onPlayerVoice sock key text now).1.sessionManager = sv.sessionManager := by
      unfold onPlayerVoice
      split <;> rfl
    simp [step, playerIds_of_sessionManager _ _ sessionId h]
  | voiceResume p outcome =>
    have h : (sv.onPlayerVoiceResume p outcome now).1.sessionManager = sv.sessionManager := by
      unfold onPlayerVoiceResume
      split <;> rfl
    simp [step, playerIds_of_sessionManager _ _ sessionId h]
  | diceRoll sock key diceNotn roller =>
    have h : (sv.onDiceRoll rng sock key diceNotn roller now).1.sessionManager =
        sv.sessionManager := by
      unfold onDiceRoll
      split
      · rfl
      · split <;> rfl
    simp [step, playerIds_of_sessionManager _ _ sessionId h]
  | dmNarrate sock key text =>
    have h : (sv.onDmNarrate sock key text now).1.sessionManager = sv.sessionManager := by
      unfold onDmNarrate
      split
      · rfl
      · split <;> rfl
    simp [step, playerIds_of_sessionManager _ _ sessionId h]
  | sessionStart sock key => simp [step, playerIds_onSessionStart]
  | disconnect sock =>
    have h := (playerIds_onDisconnect_sublist sv sock sessionId).count_le c
    simp only [step]
    omega

/-- Along a run, a roster holds a connection id at most as often as it held it at the start
plus the number of `player:join` events of that connection for that session. -/
theorem count_playerIds_run (rng : RandomSource) (sv : Server) (events : List (Nat × Event))
    (sessionId c : String) :
    ((run rng sv events).playerIds sessionId).count c ≤
      (sv.playerIds sessionId).count c + joinCount c sessionId events := by
  induction events generalizing sv with
  | nil => simp [run, joinCount]
  | cons e rest ih =>
    have h1 := ih (step rng e.1 sv e.2).1
    have h2 := count_playerIds_step rng e.1 sv e.2 sessionId c
    have h3 : joinCount c sessionId (e :: rest) =
        (if e.2.isJoinOf c sessionId = true then 1 else 0) + joinCount c sessionId rest := by
      simp only [joinCount, List.countP_cons]
      omega
    rw [run, h3]
    omega

theorem getSession_putSession_ne_none (sv : Server) (key sessionId : String)
    (session : Session) (h : sv.sessionManager.getSession sessionId ≠ none) :
    (putSession sv key session).sessionManager.getSession sessionId ≠ none := by
  by_cases hk : sessionId = key
  · subst hk
    rw [getSession_putSession_same]
    simp
  · rw [getSession_putSession_other _ _ _ _ hk]
    exact h

/-- No event removes a session from the store: a session that exists before an event is
handled exists after it. -/
theorem session_survives_step (rng : RandomSource) (now : Nat) (sv : Server) (e : Event)
    (sessionId : String) (h : sv.sessionManager.getSession sessionId ≠ none) :
    (step rng now sv e).1.sessionManager.getSession sessionId ≠ none := by
  cases e with
  | create key =>
    exact getSession_putSession_ne_none sv key sessionId ⟨key, [], none, false, now⟩ h
  | dmJoin sock key =>
    simp only [step]
    unfold onDmJoin
    cases hs : sv.sessionManager.getSession key with
    | none => exact h
    | some session =>
      exact getSession_putSession_ne_none (joinRoom sv sock (roomOf key)) key sessionId _
        (by rw [sessionManager_joinRoom]; exact h)
  | playerJoin sock key name =>
    simp only [step]
    unfold onPlayerJoin
    cases hs : sv.sessionManager.getSession key with
    | none => exact h
    | some session =>
      simp only
      split
      · exact h
      · simp only [setConn, sessionManager_joinRoom]
        exact getSession_putSession_ne_none sv key sessionId _ h
  | playerVoice sock key text =>
    have hsm : (sv.onPlayerVoice sock key text now).1.sessionManager = sv.sessionManager := by
      unfold onPlayerVoice
      split <;> rfl
    simp only [step, hsm]
    exact h
  | voiceResume p outcome =>
    have hsm : (sv.onPlayerVoiceResume p outcome now).1.sessionManager = sv.sessionManager := by
      unfold onPlayerVoiceResume
      split <;> rfl
    simp only [step, hsm]
    exact h
  | diceRoll sock key diceNotn roller =>
    have hsm : (sv.onDiceRoll rng sock key diceNotn roller now).1.sessionManager =
        sv.sessionManager := by
      unfold onDiceRoll
      split
      · rfl
      · split <;> rfl
    simp only [step, hsm]
    exact h
  | dmNarrate sock key text =>
    have hsm : (sv.onDmNarrate sock key text now).1.sessionManager = sv.sessionManager := by
      unfold onDmNarrate
      split
      · rfl
      · split <;> rfl
    simp only [step, hsm]
    exact h
  | sessionStart sock key =>
    simp only [step]
    unfold onSessionStart
    cases hs : sv.sessionManager.getSession key with
    | none => exact h
    | some session =>
      simp only
      split
      · exact h
      · exact getSession_putSession_ne_none sv key sessionId _ h
  | disconnect sock =>
    cases hs : sv.sessionManager.getSession sessionId with
    | none => exact absurd hs h
    | some session =>
      obtain ⟨session1, h1, _⟩ := dmSocketId_onDisconnect sv sock sessionId session hs
      simp only [step, h1]
      simp

/-- Along a run of events, a session that exists at the start exists at the end. -/
theorem session_survives_run (rng : RandomSource) (sv : Server) (events : List (Nat × Event))
    (sessionId : String) (h : sv.sessionManager.getSession sessionId ≠ none) :
    (run rng sv events).sessionManager.getSession sessionId ≠ none := by
  induction events generalizing sv with
  | nil => exact h
  | cons e rest ih => exact ih _ (session_survives_step rng e.1 sv e.2 sessionId h)

/-- Whatever events are handled while a `player:voice` handler is suspended at its `await`,
the session it named still exists when it resumes. -/
theorem session_survives_suspension (rng : RandomSource) (sv : Server)
    (sock sessionId : String) (text : TextValue) (now : Nat) (events : List (Nat × Event))
    (p : VoicePending) (hp : (sv.onPlayerVoice sock sessionId text now).2.2 = some p) :
    p.sessionId = sessionId ∧
    (run rng (sv.onPlayerVoice sock sessionId text now).1 events).sessionManager.getSession
      sessionId ≠ none := by
  have hs : sv.sessionManager.getSession sessionId ≠ none := by
    intro hnone
    unfold onPlayerVoice at hp
    simp [hnone] at hp
  have hsm : (sv.onPlayerVoice sock sessionId text now).1.sessionManager = sv.sessionManager := by
    unfold onPlayerVoice
    split <;> rfl
  constructor
  · unfold onPlayerVoice at hp
    cases hg : sv.sessionManager.getSession sessionId with
    | none => exact absurd hg hs
    | some session =>
      simp only [hg, Option.some.injEq] at hp
      rw [← hp]
  · exact session_survives_run rng _ events sessionId (by rw [hsm]; exact hs)

end Server

/-- C14 fails on the code: from the empty server, after `S1` is created, joined by its
facilitator and started, connection `c1` sends `player:join` twice; the roster of `S1` then
holds two participants with the connection identifier `c1`. The handler of `player:join`
pushes a participant without looking at the roster. -/
theorem duplicate_join_reachable :
    (Server.run stubFourFive Server.init
        [(0, .create "S1"), (1, .dmJoin "dm" "S1"), (2, .sessionStart "dm" "S1"),
         (3, .playerJoin "c1" "S1" (some "Aria")),
         (4, .playerJoin "c1" "S1" (some "Aria"))]).sessionManager.getSession "S1" =
      some ⟨"S1", [⟨"c1", "Aria", 20, 15, 1⟩, ⟨"c1", "Aria", 20, 15, 1⟩], some "dm", true, 0⟩ ∧
    ¬ (([⟨"c1", "Aria", 20, 15, 1⟩, ⟨"c1", "Aria", 20, 15, 1⟩] : List Player).map
        Player.id).Nodup := by
  decide

/-- In every state reached from the empty server by a sequence of protocol events in which
no connection sends `player:join` more than once for the same session, every session's
participants list contains no two participants with the same connection identifier. -/
theorem roster_ids_unique_single_join (rng : RandomSource) (events : List (Nat × Event))
    (hjoin : ∀ c sessionId, joinCount c sessionId events ≤ 1)
    (sessionId : String) (session : Session)
    (hs : (Server.run rng Server.init events).sessionManager.getSession sessionId =
      some session) :
    (session.players.map Player.id).Nodup := by
  rw [List.nodup_iff_count_le_one]
  intro c
  have h := Server.count_playerIds_run rng Server.init events sessionId c
  rw [Server.playerIds_of_getSession _ _ session hs] at h
  have h0 : (Server.init.playerIds sessionId).count c = 0 := by
    simp [Server.playerIds, Server.init, SessionManager.empty, SessionManager.getSession, mapGet]
  have h1 := hjoin c sessionId
  omega

theorem roster_ids_unique_single_join_witness :
    (Server.run stubFourFive Server.init
        [(0, .create "S1"), (1, .dmJoin "dm" "S1"), (2, .sessionStart "dm" "S1"),
         (3, .playerJoin "c1" "S1" (some "Aria")),
         (4, .playerJoin "c2" "S1" (some "Bran"))]).sessionManager.getSession "S1" =
      some ⟨"S1", [⟨"c1", "Aria", 20, 15, 1⟩, ⟨"c2", "Bran", 20, 15, 1⟩], some "dm", true, 0⟩ ∧
    (([⟨"c1", "Aria", 20, 15, 1⟩, ⟨"c2", "Bran", 20, 15, 1⟩] : List Player).map
      Player.id).Nodup :=
  ⟨by decide,
   roster_ids_unique_single_join stubFourFive
    [(0, .create "S1"), (1, .dmJoin "dm" "S1"), (2, .sessionStart "dm" "S1"),
     (3, .playerJoin "c1" "S1" (some "Aria")), (4, .playerJoin "c2" "S1" (some "Bran"))]
    (by
      intro c sessionId
      simp only [joinCount, List.countP_cons, List.countP_nil, Event.isJoinOf]
      by_cases h1 : "c1" = c <;> by_cases h2 : "c2" = c <;>
        by_cases h3 : "S1" = sessionId <;>
        first
          | exact absurd (h1.trans h2.symm) (by decide)
          | simp [h1, h2, h3])
    "S1" ⟨"S1", [⟨"c1", "Aria", 20, 15, 1⟩, ⟨"c2", "Bran", 20, 15, 1⟩], some "dm", true, 0⟩
    (by decide)⟩

/-! ## The narration service and the `player:voice` handler -/

@[simp]
theorem TextValue.printed_str (text : String) : (TextValue.str text).printed = text := rfl

/-- For a player input that is a string, the promise of `getDMResponse` resolves. -/
theorem AIService.getDMResponse_ok (svc : AIService) (playerInput : String)
    (campaignContext : CampaignState) :
    ∃ text, svc.getDMResponse playerInput campaignContext = .ok text := by
  unfold AIService.getDMResponse AIService.getRuleBasedResponse
  split
  · exact ⟨_, rfl⟩
  · split
    · exact ⟨_, rfl⟩
    · exact ⟨_, rfl⟩

/-- For a player input that is not a string, the fallback throws. -/
theorem AIService.getRuleBasedResponse_other (svc : AIService) (shown : String)
    (campaignContext : CampaignState) :
    svc.getRuleBasedResponse (.other shown) campaignContext =
      .error "TypeError: playerInput.toLowerCase is not a function" := rfl

theorem CampaignMemory.getCampaignState_messages (cm : CampaignMemory) (sessionId : String) :
    (cm.getCampaignState sessionId).messages = sliceLast 20 (cm.messagesOf sessionId) := by
  unfold CampaignMemory.getCampaignState CampaignMemory.messagesOf
  cases h : mapGet cm.campaigns sessionId with
  | none => simp [sliceLast]
  | some campaign => simp

theorem getLast_sliceLast_sliceLast_snoc {α : Type} (n m : Nat) (xs : List α) (x : α) :
    (sliceLast (n + 1) (sliceLast (m + 1) (xs ++ [x]))).getLast? = some x := by
  simp [sliceLast_eq_reverse_take]

/-- The `player:voice` handler on an existing session, run with no other event in between,
given the response the service resolves with. -/
theorem Server.speak_eq (svc : AIService) (sv : Server) (sock sessionId : String)
    (text : TextValue) (now1 now2 : Nat) (session : Session) (response : String)
    (hs : sv.sessionManager.getSession sessionId = some session)
    (hr : svc.getDMResponse text
      ((sv.campaignMemory.addMessage sessionId
        ⟨(sv.conn sock).playerName, text.printed, none, none, now1⟩ now1).getCampaignState
          sessionId) = .ok response) :
    sv.speak svc sock sessionId text now1 now2 =
      ({ sv with campaignMemory := (CampaignMemory.addMessage
            (sv.campaignMemory.addMessage sessionId
              ⟨(sv.conn sock).playerName, text.printed, none, none, now1⟩ now1)
            sessionId ⟨some "DM", response, none, none, now2⟩ now2) },
        [⟨.room (Server.roomOf sessionId), sv.members (Server.roomOf sessionId),
            .playerSpoke (sv.conn sock).playerName text.printed⟩,
         ⟨.room (Server.roomOf sessionId), sv.members (Server.roomOf sessionId),
            .dmNarration response⟩]) := by
  unfold Server.speak Server.onPlayerVoice
  simp only [hs, hr, Server.onPlayerVoiceResume, Server.toRoom, Server.members]
  rfl

/-- The `player:voice` handler on an existing session, run with no other event in between,
given the error the service rejects with. -/
theorem Server.speak_rejected (svc : AIService) (sv : Server) (sock sessionId : String)
    (text : TextValue) (now1 now2 : Nat) (session : Session) (err : String)
    (hs : sv.sessionManager.getSession sessionId = some session)
    (hr : svc.getDMResponse text
      ((sv.campaignMemory.addMessage sessionId
        ⟨(sv.conn sock).playerName, text.printed, none, none, now1⟩ now1).getCampaignState
          sessionId) = .error err) :
    sv.speak svc sock sessionId text now1 now2 =
      ({ sv with campaignMemory := (sv.campaignMemory.addMessage sessionId
            ⟨(sv.conn sock).playerName, text.printed, none, none, now1⟩ now1) },
        [⟨.room (Server.roomOf sessionId), sv.members (Server.roomOf sessionId),
            .playerSpoke (sv.conn sock).playerName text.printed⟩,
         ⟨.socket sock, [sock], .error "Failed to get DM response"⟩]) := by
  unfold Server.speak Server.onPlayerVoice
  simp only [hs, hr, Server.onPlayerVoiceResume, Server.toRoom, Server.members]
  rfl

/-- The `player:voice` handler on a session that does not exist. -/
theorem Server.speak_missing (svc : AIService) (sv : Server) (sock sessionId : String)
    (text : TextValue) (now1 now2 : Nat) (hs : sv.sessionManager.getSession sessionId = none) :
    sv.speak svc sock sessionId text now1 now2 = (sv, []) := by
  unfold Server.speak Server.onPlayerVoice
  simp only [hs]

/-- C16: on an existing session, a `player:voice` event handled with no other event in
between appends exactly two entries to the event log of the session, in this order: the
caller's name and the given text, then speaker 'DM' with the response of the narration
service (the log keeps its last 100 entries). Before the service is consulted the handler
broadcasts `player:spoke`; the service is given the text and the snapshot taken after the
first append, whose last recent entry is the caller's own; after it the handler broadcasts
`dm:narration` with the same response. Other logs and the session store are unchanged. -/
theorem speak_appends_two_entries (svc : AIService) (sv : Server) (sock sessionId text : String)
    (now1 now2 : Nat) (session : Session)
    (hs : sv.sessionManager.getSession sessionId = some session) :
    ∃ (response : String) (snapshot : CampaignState),
      snapshot = (sv.campaignMemory.addMessage sessionId
        ⟨(sv.conn sock).playerName, text, none, none, now1⟩ now1).getCampaignState sessionId ∧
      snapshot.messages.getLast? = some ⟨(sv.conn sock).playerName, text, none, none, now1⟩ ∧
      (sv.onPlayerVoice sock sessionId text now1).2 =
        ([⟨.room (Server.roomOf sessionId), sv.members (Server.roomOf sessionId),
            .playerSpoke (sv.conn sock).playerName text⟩],
          some ⟨sock, sessionId, text, snapshot⟩) ∧
      svc.getDMResponse text snapshot = .ok response ∧
      (sv.speak svc sock sessionId text now1 now2).2 =
        [⟨.room (Server.roomOf sessionId), sv.members (Server.roomOf sessionId),
            .playerSpoke (sv.conn sock).playerName text⟩,
         ⟨.room (Server.roomOf sessionId), sv.members (Server.roomOf sessionId),
            .dmNarration response⟩] ∧
      (sv.speak svc sock sessionId text now1 now2).1.campaignMemory.messagesOf sessionId =
        sliceLast 100 (sv.campaignMemory.messagesOf sessionId ++
          [⟨(sv.conn sock).playerName, text, none, none, now1⟩,
           ⟨some "DM", response, none, none, now2⟩]) ∧
      ((sv.campaignMemory.messagesOf sessionId).length + 2 ≤ 100 →
        (sv.speak svc sock sessionId text now1 now2).1.campaignMemory.messagesOf sessionId =
          sv.campaignMemory.messagesOf sessionId ++
            [⟨(sv.conn sock).playerName, text, none, none, now1⟩,
             ⟨some "DM", response, none, none, now2⟩]) ∧
      (∀ other, other ≠ sessionId →
        (sv.speak svc sock sessionId text now1 now2).1.campaignMemory.messagesOf other =
          sv.campaignMemory.messagesOf other) ∧
      (sv.speak svc sock sessionId text now1 now2).1.sessionManager = sv.sessionManager := by
  obtain ⟨response, hr⟩ := AIService.getDMResponse_ok svc text
    ((sv.campaignMemory.addMessage sessionId
      ⟨(sv.conn sock).playerName, text, none, none, now1⟩ now1).getCampaignState sessionId)
  have hspeak := Server.speak_eq svc sv sock sessionId text now1 now2 session response hs hr
  simp only [TextValue.printed_str] at hspeak
  have hlog : (sv.speak svc sock sessionId text now1 now2).1.campaignMemory.messagesOf
      sessionId = sliceLast 100 (sv.campaignMemory.messagesOf sessionId ++
        [⟨(sv.conn sock).playerName, text, none, none, now1⟩,
         ⟨some "DM", response, none, none, now2⟩]) := by
    rw [hspeak]
    simp only
    rw [CampaignMemory.messagesOf_addMessage_slice, CampaignMemory.messagesOf_addMessage_slice,
      sliceLast_append_sliceLast]
    simp
  refine ⟨response, _, rfl, ?_, ?_, hr, ?_, hlog, ?_, ?_, ?_⟩
  · rw [CampaignMemory.getCampaignState_messages, CampaignMemory.messagesOf_addMessage_slice]
    exact getLast_sliceLast_sliceLast_snoc 19 99 _ _
  · unfold Server.onPlayerVoice
    simp only [hs, Server.toRoom, Server.members, TextValue.printed_str]
  · rw [hspeak]
  · intro hlen
    rw [hlog, sliceLast_of_le]
    simp
    omega
  · intro other hne
    rw [hspeak]
    simp only
    rw [CampaignMemory.messagesOf_addMessage_other _ _ _ _ _ hne,
      CampaignMemory.messagesOf_addMessage_other _ _ _ _ _ hne]
  · rw [hspeak]

theorem speak_appends_two_entries_witness :
    (scenarioAria.speak noKeyService "c1" "S1" "I open the door" 5 6).2 =
      [⟨.room "session:S1", ["dm", "c1"], .playerSpoke (some "Aria") "I open the door"⟩,
       ⟨.room "session:S1", ["dm", "c1"],
        .dmNarration ("The door creaks ominously as you approach. Do you want to check for " ++
          "traps first, or push it open?")⟩] ∧
    ∃ (response : String) (snapshot : CampaignState),
      snapshot = (scenarioAria.campaignMemory.addMessage "S1"
        ⟨(scenarioAria.conn "c1").playerName, "I open the door", none, none, 5⟩
          5).getCampaignState "S1" ∧
      snapshot.messages.getLast? =
        some ⟨(scenarioAria.conn "c1").playerName, "I open the door", none, none, 5⟩ ∧
      (scenarioAria.onPlayerVoice "c1" "S1" "I open the door" 5).2 =
        ([⟨.room (Server.roomOf "S1"), scenarioAria.members (Server.roomOf "S1"),
            .playerSpoke (scenarioAria.conn "c1").playerName "I open the door"⟩],
          some ⟨"c1", "S1", "I open the door", snapshot⟩) ∧
      noKeyService.getDMResponse "I open the door" snapshot = .ok response ∧
      (scenarioAria.speak noKeyService "c1" "S1" "I open the door" 5 6).2 =
        [⟨.room (Server.roomOf "S1"), scenarioAria.members (Server.roomOf "S1"),
            .playerSpoke (scenarioAria.conn "c1").playerName "I open the door"⟩,
         ⟨.room (Server.roomOf "S1"), scenarioAria.members (Server.roomOf "S1"),
            .dmNarration response⟩] ∧
      (scenarioAria.speak noKeyService "c1" "S1" "I open the door" 5 6).1.campaignMemory.messagesOf
          "S1" =
        sliceLast 100 (scenarioAria.campaignMemory.messagesOf "S1" ++
          [⟨(scenarioAria.conn "c1").playerName, "I open the door", none, none, 5⟩,
           ⟨some "DM", response, none, none, 6⟩]) ∧
      ((scenarioAria.campaignMemory.messagesOf "S1").length + 2 ≤ 100 →
        (scenarioAria.speak noKeyService "c1" "S1" "I open the door" 5
            6).1.campaignMemory.messagesOf "S1" =
          scenarioAria.campaignMemory.messagesOf "S1" ++
            [⟨(scenarioAria.conn "c1").playerName, "I open the door", none, none, 5⟩,
             ⟨some "DM", response, none, none, 6⟩]) ∧
      (∀ other, other ≠ "S1" →
        (scenarioAria.speak noKeyService "c1" "S1" "I open the door" 5
            6).1.campaignMemory.messagesOf other =
          scenarioAria.campaignMemory.messagesOf other) ∧
      (scenarioAria.speak noKeyService "c1" "S1" "I open the door" 5 6).1.sessionManager =
        scenarioAria.sessionManager :=
  ⟨by decide,
   speak_appends_two_entries noKeyService scenarioAria "c1" "S1" "I open the door" 5 6
    ⟨"S1", [⟨"c1", "Aria", 20, 15, 1⟩], some "dm", true, 0⟩ (by decide)⟩

/-- C17, as stated, fails for a player input that is not a string: on a `player:voice`
payload whose text is the number 42, `getRuleBasedResponse` throws at
`playerInput.toLowerCase()`, so the promise of `getDMResponse` rejects, both without an AI
client and when the AI call fails, and the handler of Aria's event on `S1` emits the error
'Failed to get DM response' to her connection after the `player:spoke` broadcast. -/
theorem speak_non_string_text_fails :
    noKeyService.getDMResponse (.other "42") ⟨[], none, none, none, ""⟩ =
      .error "TypeError: playerInput.toLowerCase is not a function" ∧
    failingService.getDMResponse (.other "42") ⟨[], none, none, none, ""⟩ =
      .error "TypeError: playerInput.toLowerCase is not a function" ∧
    (scenarioAria.speak noKeyService "c1" "S1" (.other "42") 5 6).2 =
      [⟨.room "session:S1", ["dm", "c1"], .playerSpoke (some "Aria") "42"⟩,
       ⟨.socket "c1", ["c1"], .error "Failed to get DM response"⟩] := by
  refine ⟨rfl, rfl, ?_⟩
  decide

/-- C17 (amended): for every player input that is a string and every campaign context,
`getDMResponse` resolves with a text and never rejects. Without an AI client, and when the
AI call fails, the text is `getRuleBasedResponse(playerInput)`, which does not depend on the
context: two calls with the same input and different contexts give the same text. So the
`player:voice` handler never emits an error to the client for a text that is a string. -/
theorem getDMResponse_never_raises (svc : AIService) (playerInput : String)
    (ctx ctx2 : CampaignState) :
    (∃ text, svc.getDMResponse playerInput ctx = .ok text) ∧
    (svc.openai = none →
      svc.getDMResponse playerInput ctx = svc.getRuleBasedResponse playerInput ctx) ∧
    (∀ create err, svc.openai = some create →
      create (AIService.buildContextMessages playerInput ctx) = .error err →
      svc.getDMResponse playerInput ctx = svc.getRuleBasedResponse playerInput ctx) ∧
    (∃ text, svc.getRuleBasedResponse playerInput ctx = .ok text ∧
      svc.getRuleBasedResponse playerInput ctx2 = .ok text) ∧
    (∀ (sv : Server) (sock sessionId : String) (now1 now2 : Nat) (e : Emit),
      e ∈ (sv.speak svc sock sessionId playerInput now1 now2).2 →
      ∀ msg, e.payload ≠ .error msg) := by
  refine ⟨AIService.getDMResponse_ok svc playerInput ctx, ?_, ?_, ⟨_, rfl, rfl⟩, ?_⟩
  · intro h
    unfold AIService.getDMResponse
    simp only [h]
  · intro create err h herr
    unfold AIService.getDMResponse
    simp only [h, herr]
  · intro sv sock sessionId now1 now2 e he msg
    cases hs : sv.sessionManager.getSession sessionId with
    | none =>
      rw [Server.speak_missing svc sv sock sessionId playerInput now1 now2 hs] at he
      simp at he
    | some session =>
      obtain ⟨response, hr⟩ := AIService.getDMResponse_ok svc playerInput
        ((sv.campaignMemory.addMessage sessionId
          ⟨(sv.conn sock).playerName, playerInput, none, none, now1⟩ now1).getCampaignState
            sessionId)
      rw [Server.speak_eq svc sv sock sessionId playerInput now1 now2 session response hs hr]
        at he
      simp only [List.mem_cons, List.mem_singleton, List.not_mem_nil, or_false] at he
      rcases he with rfl | rfl <;> simp

theorem getDMResponse_never_raises_witness :
    noKeyService.getDMResponse "I attack the goblin" ⟨[], none, none, none, ""⟩ =
      noKeyService.getRuleBasedResponse "I attack the goblin" ⟨[], none, none, none, ""⟩ ∧
    failingService.getDMResponse "I attack the goblin" ⟨[], none, none, none, ""⟩ =
      failingService.getRuleBasedResponse "I attack the goblin" ⟨[], none, none, none, ""⟩ ∧
    noKeyService.getRuleBasedResponse "I attack the goblin" ⟨[], none, none, none, ""⟩ =
      .ok "You engage in combat! Roll for initiative (1d20). What's your attack strategy?" :=
  ⟨(getDMResponse_never_raises noKeyService "I attack the goblin" ⟨[], none, none, none, ""⟩
      ⟨[], none, none, none, ""⟩).2.1 rfl,
   (getDMResponse_never_raises failingService "I attack the goblin"
      ⟨[], none, none, none, ""⟩ ⟨[], none, none, none, ""⟩).2.2.1 _ "timeout" rfl rfl,
   rfl⟩

/-! ## The session store and the snapshot -/

theorem mapGet_mapDelete_same {V : Type} (m : JsMap V) (k : String) :
    mapGet (mapDelete m k) k = none := by
  induction m with
  | nil => rfl
  | cons e rest ih =>
    obtain ⟨k0, w⟩ := e
    by_cases hk : k0 = k
    · simpa [mapDelete, List.filter_cons, hk] using ih
    · simpa [mapDelete, List.filter_cons, hk, mapGet] using ih

theorem mapGet_mapDelete_other {V : Type} (m : JsMap V) (k k1 : String) (h : k1 ≠ k) :
    mapGet (mapDelete m k) k1 = mapGet m k1 := by
  induction m with
  | nil => rfl
  | cons e rest ih =>
    obtain ⟨k0, w⟩ := e
    by_cases hk : k0 = k
    · have hk1 : k0 ≠ k1 := fun h1 => h (h1 ▸ hk)
      simpa [mapDelete, List.filter_cons, hk, mapGet, hk1, h.symm] using ih
    · by_cases hk1 : k0 = k1
      · subst hk1
        simp [mapDelete, List.filter_cons, hk, mapGet]
      · simpa [mapDelete, List.filter_cons, hk, mapGet, hk1] using ih

/-- C18: `createSession(id)` registers and returns a session with that id, an empty
participants list, no facilitator and isActive = false; afterwards `getSession(id)` returns
that session and `getSession` of any other id returns what it returned before; after
`deleteSession(id)`, `getSession(id)` is absent and every other session is as before. -/
theorem sessionManager_create_get_delete (sm : SessionManager) (id : String) (now : Nat) :
    (sm.createSession id now).2 = ⟨id, [], none, false, now⟩ ∧
    (sm.createSession id now).1.getSession id = some (sm.createSession id now).2 ∧
    (∀ other, other ≠ id →
      (sm.createSession id now).1.getSession other = sm.getSession other) ∧
    ((sm.createSession id now).1.deleteSession id).1.getSession id = none ∧
    (∀ other, other ≠ id →
      ((sm.createSession id now).1.deleteSession id).1.getSession other =
        sm.getSession other) ∧
    (sm.deleteSession id).1.getSession id = none ∧
    (∀ other, other ≠ id → (sm.deleteSession id).1.getSession other = sm.getSession other) := by
  refine ⟨rfl, ?_, ?_, ?_, ?_, ?_, ?_⟩
  · simp [SessionManager.createSession, SessionManager.getSession, mapGet_mapSet_same]
  · intro other h
    simp [SessionManager.createSession, SessionManager.getSession,
      mapGet_mapSet_other _ _ _ _ h]
  · simp [SessionManager.deleteSession, SessionManager.getSession, mapGet_mapDelete_same]
  · intro other h
    simp [SessionManager.createSession, SessionManager.deleteSession,
      SessionManager.getSession, mapGet_mapDelete_other _ _ _ h, mapGet_mapSet_other _ _ _ _ h]
  · simp [SessionManager.deleteSession, SessionManager.getSession, mapGet_mapDelete_same]
  · intro other h
    simp [SessionManager.deleteSession, SessionManager.getSession,
      mapGet_mapDelete_other _ _ _ h]

theorem sessionManager_create_get_delete_witness :
    (scenarioAria.sessionManager.createSession "S2" 8).1.getSession "S1" =
      scenarioAria.sessionManager.getSession "S1" ∧
    ((scenarioAria.sessionManager.createSession "S2" 8).1.deleteSession "S2").1.getSession "S1" =
      scenarioAria.sessionManager.getSession "S1" ∧
    (scenarioAria.sessionManager.deleteSession "S2").1.getSession "S1" =
      scenarioAria.sessionManager.getSession "S1" :=
  ⟨(sessionManager_create_get_delete scenarioAria.sessionManager "S2" 8).2.2.1 "S1" (by decide),
   (sessionManager_create_get_delete scenarioAria.sessionManager "S2" 8).2.2.2.2.1 "S1"
      (by decide),
   (sessionManager_create_get_delete scenarioAria.sessionManager "S2" 8).2.2.2.2.2.2 "S1"
      (by decide)⟩

/-- C19 fails on the code: for a session with no campaign state yet, `getCampaignState`
returns an object with `messages` and `summary` only; `npcs`, `locations` and `quests` are
absent, where the branch for a known session returns all five. This is the snapshot the
facilitator receives on joining a fresh session. -/
theorem snapshot_without_campaign_lacks_collections :
    CampaignMemory.empty.getCampaignState "S1" =
      ⟨[], none, none, none, "New campaign - no history yet."⟩ ∧
    (CampaignMemory.empty.getCampaignState "S1").npcs ≠ some [] ∧
    ((CampaignMemory.empty.initCampaign "S1" 0).1.getCampaignState "S1") =
      ⟨[], some [], some [], some [], "New campaign - no history yet."⟩ ∧
    (scenarioCreated.onDmJoin "dm" "S1").2 =
      [⟨.socket "dm", ["dm"],
        .dmJoined "S1" [] ⟨[], none, none, none, "New campaign - no history yet."⟩⟩] := by
  decide

/-- C20 fails on the code: connection `c1` joined `S1` twice, as Aria and as Bran, so the
roster holds two participants of `c1`. The disconnect of `c1` removes the first only: Bran,
a participant whose connection `c1` joined the session, stays in the roster, and the
`player:left` broadcast names Aria and carries a roster that still holds `c1`. -/
theorem disconnect_leaves_second_entry :
    scenarioTwice.sessionManager.getSession "S1" =
      some ⟨"S1", [⟨"c1", "Aria", 20, 15, 1⟩, ⟨"c1", "Bran", 20, 15, 1⟩], some "dm", true, 0⟩ ∧
    (scenarioTwice.conn "c1").currentSession = some "S1" ∧
    (scenarioTwice.onDisconnect "c1").1.sessionManager.getSession "S1" =
      some ⟨"S1", [⟨"c1", "Bran", 20, 15, 1⟩], some "dm", true, 0⟩ ∧
    (scenarioTwice.onDisconnect "c1").2 =
      [⟨.room "session:S1", ["dm"], .playerLeft "Aria" [⟨"c1", "Bran", 20, 15, 1⟩]⟩] := by
  decide

/-- What the `disconnect` handler does on the connection's current session: when `p` is the
first participant of the roster with the id `sock`, the disconnect of `sock` removes `p`, and
the roster becomes the participants before `p` followed by those after it, in their order.
It broadcasts `player:left` with the name of `p` and the remaining roster to the other
members of the room. When `sock` is not the facilitator, isActive and the facilitator
binding are unchanged and nothing else is emitted. -/
theorem participant_disconnect_removes_first (sv : Server) (sock sessionId : String)
    (session : Session) (pre post : List Player) (p : Player)
    (hcur : (sv.conn sock).currentSession = some sessionId) (hne : sessionId ≠ "")
    (hs : sv.sessionManager.getSession sessionId = some session)
    (hpl : session.players = pre ++ p :: post) (hp : p.id = sock)
    (hpre : ∀ q ∈ pre, q.id ≠ sock) :
    ∃ session1 : Session,
      (sv.onDisconnect sock).1.sessionManager.getSession sessionId = some session1 ∧
      session1.players = pre ++ post ∧
      (⟨.room (Server.roomOf sessionId),
          (sv.members (Server.roomOf sessionId)).filter (fun m => m ≠ sock),
          .playerLeft p.name (pre ++ post)⟩ : Emit) ∈ (sv.onDisconnect sock).2 ∧
      (session.dmSocketId ≠ some sock →
        session1.isActive = session.isActive ∧ session1.dmSocketId = session.dmSocketId ∧
        (sv.onDisconnect sock).2 =
          [⟨.room (Server.roomOf sessionId),
            (sv.members (Server.roomOf sessionId)).filter (fun m => m ≠ sock),
            .playerLeft p.name (pre ++ post)⟩]) ∧
      (∀ other, other ≠ sessionId →
        (sv.onDisconnect sock).1.sessionManager.getSession other =
          sv.sessionManager.getSession other) := by
  rw [Server.onDisconnect_first sv sock sessionId session pre post p hcur hne hs hpl hp hpre]
  by_cases hdm : session.dmSocketId = some sock
  · rw [if_pos hdm]
    refine ⟨_, Server.getSession_putSession_same _ _ _, rfl, ?_, ?_, ?_⟩
    · simp [Server.toRoom, Server.members_leaveRooms]
    · intro h
      exact absurd hdm h
    · intro other hother
      exact Server.getSession_putSession_other _ _ _ _ hother
  · rw [if_neg hdm]
    refine ⟨_, Server.getSession_putSession_same _ _ _, rfl, ?_, ?_, ?_⟩
    · simp [Server.toRoom, Server.members_leaveRooms]
    · intro _
      refine ⟨rfl, rfl, ?_⟩
      simp [Server.toRoom, Server.members_leaveRooms]
    · intro other hother
      exact Server.getSession_putSession_other _ _ _ _ hother

theorem participant_disconnect_removes_first_witness :
    ∃ session1 : Session,
      (scenarioAria.onDisconnect "c1").1.sessionManager.getSession "S1" = some session1 ∧
      session1.players = [] ++ [] ∧
      (⟨.room (Server.roomOf "S1"),
          (scenarioAria.members (Server.roomOf "S1")).filter (fun m => m ≠ "c1"),
          .playerLeft "Aria" ([] ++ [])⟩ : Emit) ∈ (scenarioAria.onDisconnect "c1").2 ∧
      ((⟨"S1", [⟨"c1", "Aria", 20, 15, 1⟩], some "dm", true, 0⟩ : Session).dmSocketId ≠
          some "c1" →
        session1.isActive = true ∧ session1.dmSocketId = some "dm" ∧
        (scenarioAria.onDisconnect "c1").2 =
          [⟨.room (Server.roomOf "S1"),
            (scenarioAria.members (Server.roomOf "S1")).filter (fun m => m ≠ "c1"),
            .playerLeft "Aria" ([] ++ [])⟩]) ∧
      (∀ other, other ≠ "S1" →
        (scenarioAria.onDisconnect "c1").1.sessionManager.getSession other =
          scenarioAria.sessionManager.getSession other) :=
  participant_disconnect_removes_first scenarioAria "c1" "S1"
    ⟨"S1", [⟨"c1", "Aria", 20, 15, 1⟩], some "dm", true, 0⟩ [] [] ⟨"c1", "Aria", 20, 15, 1⟩
    (by decide) (by decide) (by decide) rfl rfl (by simp)

/-! ## Connections that joined more than once, or not at all -/

/-- C21 fails on the code: a participant can outlive its connection. After `S1` is set up,
connection `c1` sends `player:join` for `S1` twice and disconnects: the roster of `S1` still
holds a participant with the id `c1`. And when `c1` joins `S1` and then `S2` and
disconnects, it is removed from `S2` only: the roster of `S1` still holds it. -/
theorem participant_outlives_connection :
    (Server.run stubFourFive Server.init
        [(0, .create "S1"), (1, .dmJoin "dm" "S1"), (2, .sessionStart "dm" "S1"),
         (3, .playerJoin "c1" "S1" (some "Aria")), (4, .playerJoin "c1" "S1" (some "Bran")),
         (5, .disconnect "c1")]).sessionManager.getSession "S1" =
      some ⟨"S1", [⟨"c1", "Bran", 20, 15, 1⟩], some "dm", true, 0⟩ ∧
    (Server.run stubFourFive Server.init
        [(0, .create "S1"), (1, .dmJoin "dm" "S1"), (2, .sessionStart "dm" "S1"),
         (3, .create "S2"), (4, .dmJoin "dm2" "S2"), (5, .sessionStart "dm2" "S2"),
         (6, .playerJoin "c1" "S1" (some "Aria")), (7, .playerJoin "c1" "S2" (some "Aria")),
         (8, .disconnect "c1")]).sessionManager.getSession "S1" =
      some ⟨"S1", [⟨"c1", "Aria", 20, 15, 1⟩], some "dm", true, 0⟩ ∧
    (Server.run stubFourFive Server.init
        [(0, .create "S1"), (1, .dmJoin "dm" "S1"), (2, .sessionStart "dm" "S1"),
         (3, .create "S2"), (4, .dmJoin "dm2" "S2"), (5, .sessionStart "dm2" "S2"),
         (6, .playerJoin "c1" "S1" (some "Aria")), (7, .playerJoin "c1" "S2" (some "Aria")),
         (8, .disconnect "c1")]).sessionManager.getSession "S2" =
      some ⟨"S2", [], some "dm2", true, 3⟩ := by
  decide

/-- The `dice:roll` handler on an existing session when `roll` succeeds. -/
theorem Server.onDiceRoll_ok (rng : RandomSource) (sv : Server)
    (sock sessionId notn : String) (roller : Option String) (now : Nat) (session : Session)
    (result : RollResult) (calls : Nat)
    (hs : sv.sessionManager.getSession sessionId = some session)
    (hroll : DiceRoller.roll rng sv.randomCalls notn = (.ok result, calls)) :
    sv.onDiceRoll rng sock sessionId notn roller now =
      ({ sv with
          campaignMemory := (sv.campaignMemory.addMessage sessionId
            (Server.diceMessage (sv.rollerName sock roller) notn result now) now),
          randomCalls := calls },
        [⟨.room (Server.roomOf sessionId), sv.members (Server.roomOf sessionId),
          .diceResult (sv.rollerName sock roller) notn result⟩]) := by
  unfold Server.onDiceRoll
  simp only [hs, hroll, Server.toRoom, Server.members]

/-- C22, as stated, fails: in the scenario, connection `c9` has not joined `S1` in any way,
yet its `player:voice` naming `S1` appends two entries to the event log of `S1` and
broadcasts `player:spoke` and `dm:narration` to the room of `S1`, and its `dice:roll`
naming `S1` appends the dice entry and broadcasts `dice:result` to that room. -/
theorem unjoined_caller_takes_effect :
    Server.NotJoined scenarioAria "c9" "S1" ∧
    scenarioAria.campaignMemory.messagesOf "S1" = [] ∧
    (scenarioAria.speak noKeyService "c9" "S1" "boo" 5 6).1.campaignMemory.messagesOf "S1" =
      [⟨none, "boo", none, none, 5⟩,
       ⟨some "DM", "Interesting choice. As you boo, you notice the atmosphere growing " ++
          "tense. What do you do next?", none, none, 6⟩] ∧
    (scenarioAria.speak noKeyService "c9" "S1" "boo" 5 6).2 =
      [⟨.room "session:S1", ["dm", "c1"], .playerSpoke none "boo"⟩,
       ⟨.room "session:S1", ["dm", "c1"],
        .dmNarration ("Interesting choice. As you boo, you notice the atmosphere growing " ++
          "tense. What do you do next?")⟩] ∧
    (scenarioAria.onDiceRoll stubFourFive "c9" "S1" "2d6+3" none 7).1.campaignMemory.messagesOf
        "S1" =
      [⟨some "System", "null rolled 2d6+3: 12", some "dice",
        some ⟨"2d6+3", 2, 6, 3, [4, 5], 9, 12⟩, 7⟩] ∧
    (scenarioAria.onDiceRoll stubFourFive "c9" "S1" "2d6+3" none 7).2 =
      [⟨.room "session:S1", ["dm", "c1"],
        .diceResult none "2d6+3" ⟨"2d6+3", 2, 6, 3, [4, 5], 9, 12⟩⟩] := by
  refine ⟨?_, ?_⟩
  · unfold Server.NotJoined
    decide
  · decide

/-- The `dice:roll` handler on an existing session when `roll` throws. -/
theorem Server.onDiceRoll_error (rng : RandomSource) (sv : Server)
    (sock sessionId notn : String) (roller : Option String) (now : Nat) (session : Session)
    (msg : String)
    (hs : sv.sessionManager.getSession sessionId = some session)
    (hroll : DiceRoller.roll rng sv.randomCalls notn = (.error msg, sv.randomCalls)) :
    sv.onDiceRoll rng sock sessionId notn roller now =
      (sv, [⟨.socket sock, [sock], .error "Invalid dice notation"⟩]) := by
  unfold Server.onDiceRoll
  simp only [hs, hroll, Server.toSocket]

/-- C22 (amended): `player:voice` and `dice:roll` never look at whether the caller has
joined the session they name; for every caller and every state, what they do depends on the
named session and on the payload alone. When the session does not exist, both leave the
state unchanged and emit nothing. When it exists, the voice event broadcasts `player:spoke`
to its room first, whatever the text, and for a text that is a string it appends the caller's
entry and the DM entry to the log of the session and broadcasts `dm:narration` as well; a
roll whose notation, lower-cased and trimmed, is valid appends the dice entry and broadcasts
`dice:result`; a roll with any other notation leaves the state unchanged and emits only the
error 'Invalid dice notation', to the sender. -/
theorem voice_dice_need_only_existing_session (rng : RandomSource) (svc : AIService)
    (sv : Server) (sock sessionId text notn : String) (value : TextValue)
    (roller : Option String) (now1 now2 : Nat) :
    (sv.sessionManager.getSession sessionId = none →
      sv.speak svc sock sessionId value now1 now2 = (sv, []) ∧
      sv.onDiceRoll rng sock sessionId notn roller now1 = (sv, [])) ∧
    ((∃ session, sv.sessionManager.getSession sessionId = some session) →
      (∃ rest : List Emit,
        (sv.speak svc sock sessionId value now1 now2).2 =
          ⟨.room (Server.roomOf sessionId), sv.members (Server.roomOf sessionId),
              .playerSpoke (sv.conn sock).playerName value.printed⟩ :: rest) ∧
      (∃ response : String,
        (sv.speak svc sock sessionId text now1 now2).2 =
          [⟨.room (Server.roomOf sessionId), sv.members (Server.roomOf sessionId),
              .playerSpoke (sv.conn sock).playerName text⟩,
           ⟨.room (Server.roomOf sessionId), sv.members (Server.roomOf sessionId),
              .dmNarration response⟩] ∧
        (sv.speak svc sock sessionId text now1 now2).1.campaignMemory.messagesOf sessionId =
          sliceLast 100 (sv.campaignMemory.messagesOf sessionId ++
            [⟨(sv.conn sock).playerName, text, none, none, now1⟩,
             ⟨some "DM", response, none, none, now2⟩])) ∧
      (ValidDice (trim (toLowerCase notn.toList)) →
        ∃ result : RollResult,
          (sv.onDiceRoll rng sock sessionId notn roller now1).2 =
            [⟨.room (Server.roomOf sessionId), sv.members (Server.roomOf sessionId),
              .diceResult (sv.rollerName sock roller) notn result⟩] ∧
          (sv.onDiceRoll rng sock sessionId notn roller now1).1.campaignMemory.messagesOf
              sessionId =
            sliceLast 100 (sv.campaignMemory.messagesOf sessionId ++
              [Server.diceMessage (sv.rollerName sock roller) notn result now1])) ∧
      (¬ ValidDice (trim (toLowerCase notn.toList)) →
        sv.onDiceRoll rng sock sessionId notn roller now1 =
          (sv, [⟨.socket sock, [sock], .error "Invalid dice notation"⟩]))) := by
  constructor
  · intro hs
    refine ⟨Server.speak_missing svc sv sock sessionId value now1 now2 hs, ?_⟩
    unfold Server.onDiceRoll
    simp only [hs]
  · rintro ⟨session, hs⟩
    refine ⟨?_, ?_, ?_, ?_⟩
    · cases hr : svc.getDMResponse value
        ((sv.campaignMemory.addMessage sessionId
          ⟨(sv.conn sock).playerName, value.printed, none, none, now1⟩
            now1).getCampaignState sessionId) with
      | ok response =>
        exact ⟨_, by
          rw [Server.speak_eq svc sv sock sessionId value now1 now2 session response hs hr]⟩
      | error err =>
        exact ⟨_, by
          rw [Server.speak_rejected svc sv sock sessionId value now1 now2 session err hs hr]⟩
    · obtain ⟨response, hr⟩ := AIService.getDMResponse_ok svc text
        ((sv.campaignMemory.addMessage sessionId
          ⟨(sv.conn sock).playerName, text, none, none, now1⟩ now1).getCampaignState sessionId)
      have hspeak :=
        Server.speak_eq svc sv sock sessionId text now1 now2 session response hs hr
      simp only [TextValue.printed_str] at hspeak
      refine ⟨response, ?_, ?_⟩
      · rw [hspeak]
      · rw [hspeak]
        simp only
        rw [CampaignMemory.messagesOf_addMessage_slice,
          CampaignMemory.messagesOf_addMessage_slice, sliceLast_append_sliceLast]
        simp
    · intro hv
      obtain ⟨result, count, hroll⟩ := roll_ok_of_valid_trim rng sv.randomCalls notn hv
      refine ⟨result, ?_, ?_⟩
      · rw [Server.onDiceRoll_ok rng sv sock sessionId notn roller now1 session result _ hs
          hroll]
      · rw [Server.onDiceRoll_ok rng sv sock sessionId notn roller now1 session result _ hs
          hroll]
        exact CampaignMemory.messagesOf_addMessage_slice _ _ _ _
    · intro hv
      obtain ⟨msg, hroll⟩ := roll_error_of_invalid rng sv.randomCalls notn hv
      exact Server.onDiceRoll_error rng sv sock sessionId notn roller now1 session msg hs hroll

theorem voice_dice_need_only_existing_session_witness :
    (scenarioAria.speak noKeyService "c9" "S9" (.other "42") 5 6 = (scenarioAria, []) ∧
      scenarioAria.onDiceRoll stubFourFive "c9" "S9" " 2D6+3 " none 5 = (scenarioAria, [])) ∧
    (∃ rest : List Emit,
      (scenarioAria.speak noKeyService "c9" "S1" (.other "42") 5 6).2 =
        ⟨.room (Server.roomOf "S1"), scenarioAria.members (Server.roomOf "S1"),
            .playerSpoke (scenarioAria.conn "c9").playerName (TextValue.other "42").printed⟩ ::
          rest) ∧
    (∃ response : String,
      (scenarioAria.speak noKeyService "c9" "S1" "boo" 5 6).2 =
        [⟨.room (Server.roomOf "S1"), scenarioAria.members (Server.roomOf "S1"),
            .playerSpoke (scenarioAria.conn "c9").playerName "boo"⟩,
         ⟨.room (Server.roomOf "S1"), scenarioAria.members (Server.roomOf "S1"),
            .dmNarration response⟩] ∧
      (scenarioAria.speak noKeyService "c9" "S1" "boo" 5 6).1.campaignMemory.messagesOf "S1" =
        sliceLast 100 (scenarioAria.campaignMemory.messagesOf "S1" ++
          [⟨(scenarioAria.conn "c9").playerName, "boo", none, none, 5⟩,
           ⟨some "DM", response, none, none, 6⟩])) ∧
    (∃ result : RollResult,
      (scenarioAria.onDiceRoll stubFourFive "c9" "S1" " 2D6+3 " none 5).2 =
        [⟨.room (Server.roomOf "S1"), scenarioAria.members (Server.roomOf "S1"),
          .diceResult (scenarioAria.rollerName "c9" none) " 2D6+3 " result⟩] ∧
      (scenarioAria.onDiceRoll stubFourFive "c9" "S1" " 2D6+3 " none
          5).1.campaignMemory.messagesOf "S1" =
        sliceLast 100 (scenarioAria.campaignMemory.messagesOf "S1" ++
          [Server.diceMessage (scenarioAria.rollerName "c9" none) " 2D6+3 " result 5])) ∧
    scenarioAria.onDiceRoll stubFourFive "c9" "S1" "1d" none 5 =
      (scenarioAria, [⟨.socket "c9", ["c9"], .error "Invalid dice notation"⟩]) :=
  ⟨(voice_dice_need_only_existing_session stubFourFive noKeyService scenarioAria "c9" "S9" "boo"
      " 2D6+3 " (.other "42") none 5 6).1 (by decide),
   ((voice_dice_need_only_existing_session stubFourFive noKeyService scenarioAria "c9" "S1" "boo"
      " 2D6+3 " (.other "42") none 5 6).2
      ⟨⟨"S1", [⟨"c1", "Aria", 20, 15, 1⟩], some "dm", true, 0⟩, by decide⟩).1,
   ((voice_dice_need_only_existing_session stubFourFive noKeyService scenarioAria "c9" "S1" "boo"
      " 2D6+3 " (.other "42") none 5 6).2
      ⟨⟨"S1", [⟨"c1", "Aria", 20, 15, 1⟩], some "dm", true, 0⟩, by decide⟩).2.1,
   ((voice_dice_need_only_existing_session stubFourFive noKeyService scenarioAria "c9" "S1" "boo"
      " 2D6+3 " (.other "42") none 5 6).2
      ⟨⟨"S1", [⟨"c1", "Aria", 20, 15, 1⟩], some "dm", true, 0⟩, by decide⟩).2.2.1
      ⟨2, 6, 3, ⟨['2'], ['6'], by simp [IsDigits], by simp [IsDigits],
        by simp [decimalValue, digitVal], by simp [decimalValue, digitVal],
        Or.inr ⟨['3'], by simp [IsDigits],
          Or.inl ⟨by decide, by simp [decimalValue, digitVal]⟩⟩⟩,
        by decide, by decide, by decide, by decide⟩,
   ((voice_dice_need_only_existing_session stubFourFive noKeyService scenarioAria "c9" "S1" "boo"
      "1d" (.other "42") none 5 6).2
      ⟨⟨"S1", [⟨"c1", "Aria", 20, 15, 1⟩], some "dm", true, 0⟩, by decide⟩).2.2.2
      (fun ⟨_, _, _, ⟨cs, ss, _, hss, _, _, hcase⟩, _⟩ => by
        have hlen : (trim (toLowerCase "1d".toList)).length = 2 := by decide
        rcases hcase with ⟨ht, _⟩ | ⟨ms, hms, ⟨ht, _⟩ | ⟨ht, _⟩⟩ <;>
          · have hl := congrArg List.length ht
            rw [hlen] at hl
            have h1 : 0 < ss.length := List.length_pos.2 hss.1
            have h2 : 0 < cs.length := by
              rcases cs with _ | ⟨c, cs⟩
              · simp_all [IsDigits]
              · simp
            simp at hl
            omega)⟩

/-! ## The Roll20 script -/

/-- C23 fails on the code: with all three handlers applied, a `!aidm_dump` or `!aidm_clear`
message is first taken by the `!aidm` handler, whose test is `startsWith('!aidm')`, and
queued as the command `_dump` or `_clear`. So a message from a player who is not the GM
lengthens the queue by one, and a GM dump never finds the queue empty: on an empty queue it
exports the one entry just queued, and 'No pending commands.' is never answered. -/
theorem drain_commands_are_queued (host : Roll20.Host) (queue : List Roll20.Payload)
    (who playerid : String) (selected : Option (List String)) :
    Roll20.chatMessage host queue ⟨"api", "!aidm_dump", who, playerid, selected⟩ =
      (if host.playerIsGM playerid then
        ([], [⟨"AI DM", "/direct <span style=\"color:#8B4513; font-style:italic;\">" ++
                "[AI DM] Received. Thinking…</span>"⟩,
              ⟨"AI DM", "/w gm AIDM_QUEUE:" ++ host.stringify
                (queue ++
                  [⟨host.now, host.campaignId, who, playerid, "_dump", selected.getD []⟩])⟩])
      else
        (queue ++ [⟨host.now, host.campaignId, who, playerid, "_dump", selected.getD []⟩],
          [⟨"AI DM", "/direct <span style=\"color:#8B4513; font-style:italic;\">" ++
                "[AI DM] Received. Thinking…</span>"⟩,
           ⟨"AI DM", "/w \"" ++ who ++ "\" Only the GM can dump the queue."⟩])) ∧
    Roll20.chatMessage host queue ⟨"api", "!aidm_clear", who, playerid, selected⟩ =
      (if host.playerIsGM playerid then
        ([], [⟨"AI DM", "/direct <span style=\"color:#8B4513; font-style:italic;\">" ++
                "[AI DM] Received. Thinking…</span>"⟩,
              ⟨"AI DM", "/w gm Queue cleared (" ++ toString (queue.length + 1) ++
                " commands removed)."⟩])
      else
        (queue ++ [⟨host.now, host.campaignId, who, playerid, "_clear", selected.getD []⟩],
          [⟨"AI DM", "/direct <span style=\"color:#8B4513; font-style:italic;\">" ++
                "[AI DM] Received. Thinking…</span>"⟩,
           ⟨"AI DM", "/w \"" ++ who ++ "\" Only the GM can clear the queue."⟩])) ∧
    (⟨"AI DM", "/w gm No pending commands."⟩ : Roll20.Chat) ∉
      (Roll20.chatMessage host queue ⟨"api", "!aidm_dump", who, playerid, selected⟩).2 := by
  have h1 : Roll20.onCommand host queue ⟨"api", "!aidm_dump", who, playerid, selected⟩ =
      (queue ++ [⟨host.now, host.campaignId, who, playerid, "_dump", selected.getD []⟩],
        [⟨"AI DM", "/direct <span style=\"color:#8B4513; font-style:italic;\">" ++
          "[AI DM] Received. Thinking…</span>"⟩]) := by
    have e1 : ¬ ("api" ≠ "api") := by decide
    have e2 : ¬ ¬ Roll20.startsWith "!aidm_dump" "!aidm" = true := by decide
    have e3 : String.mk (trim ("!aidm_dump".toList.drop 5)) = "_dump" := by decide
    unfold Roll20.onCommand
    dsimp only
    rw [if_neg e1, if_neg e2, e3, if_neg (by decide)]
    cases selected <;> rfl
  have h2 : Roll20.onCommand host queue ⟨"api", "!aidm_clear", who, playerid, selected⟩ =
      (queue ++ [⟨host.now, host.campaignId, who, playerid, "_clear", selected.getD []⟩],
        [⟨"AI DM", "/direct <span style=\"color:#8B4513; font-style:italic;\">" ++
          "[AI DM] Received. Thinking…</span>"⟩]) := by
    have e1 : ¬ ("api" ≠ "api") := by decide
    have e2 : ¬ ¬ Roll20.startsWith "!aidm_clear" "!aidm" = true := by decide
    have e3 : String.mk (trim ("!aidm_clear".toList.drop 5)) = "_clear" := by decide
    unfold Roll20.onCommand
    dsimp only
    rw [if_neg e1, if_neg e2, e3, if_neg (by decide)]
    cases selected <;> rfl
  have hdump : Roll20.chatMessage host queue ⟨"api", "!aidm_dump", who, playerid, selected⟩ =
      (if host.playerIsGM playerid then
        ([], [⟨"AI DM", "/direct <span style=\"color:#8B4513; font-style:italic;\">" ++
                "[AI DM] Received. Thinking…</span>"⟩,
              ⟨"AI DM", "/w gm AIDM_QUEUE:" ++ host.stringify
                (queue ++
                  [⟨host.now, host.campaignId, who, playerid, "_dump", selected.getD []⟩])⟩])
      else
        (queue ++ [⟨host.now, host.campaignId, who, playerid, "_dump", selected.getD []⟩],
          [⟨"AI DM", "/direct <span style=\"color:#8B4513; font-style:italic;\">" ++
                "[AI DM] Received. Thinking…</span>"⟩,
           ⟨"AI DM", "/w \"" ++ who ++ "\" Only the GM can dump the queue."⟩])) := by
    unfold Roll20.chatMessage
    rw [h1]
    by_cases hgm : host.playerIsGM playerid = true
    · simp [Roll20.onDump, Roll20.onClear, hgm]
    · simp [Roll20.onDump, Roll20.onClear, hgm]
  have n1 : "/w gm No pending commands." ≠
      "/direct <span style=\"color:#8B4513; font-style:italic;\">" ++
        "[AI DM] Received. Thinking…</span>" := by decide
  have n2 : ∀ x : String, "/w gm No pending commands." ≠ "/w gm AIDM_QUEUE:" ++ x := by
    intro x h
    have hd := congrArg String.data h
    simp [String.data_append] at hd
  have n3 : "/w gm No pending commands." ≠
      "/w \"" ++ who ++ "\" Only the GM can dump the queue." := by
    intro h
    have hd := congrArg String.data h
    simp [String.data_append] at hd
  refine ⟨hdump, ?_, ?_⟩
  · unfold Roll20.chatMessage
    rw [h2]
    by_cases hgm : host.playerIsGM playerid = true
    · simp [Roll20.onDump, Roll20.onClear, hgm]
    · simp [Roll20.onDump, Roll20.onClear, hgm]
  · rw [hdump]
    by_cases hgm : host.playerIsGM playerid = true
    · rw [if_pos hgm]
      intro hmem
      simp only [List.mem_cons, List.mem_singleton, List.not_mem_nil, or_false,
        Roll20.Chat.mk.injEq, true_and] at hmem
      rcases hmem with h | h
      · exact n1 h
      · exact n2 _ h
    · rw [if_neg hgm]
      intro hmem
      simp only [List.mem_cons, List.mem_singleton, List.not_mem_nil, or_false,
        Roll20.Chat.mk.injEq, true_and] at hmem
      rcases hmem with h | h
      · exact n1 h
      · exact n3 h

end AiDungeonMaster
